import Mathlib

/-!
# Drexel Protocol (`hw4-udp/du-proto.c`): a shallow embedding

The protocol code is embedded function by function.  Conventions:

* C `int` is a Lean `Int` kept in `[-2^31, 2^31)` by `toInt` (two's-complement
  wrap); `unsigned int` is a `Nat` kept below `2^32`; `size_t` is 64 bits, so a
  comparison of an `int` with `sizeof(..)` first converts the `int` with
  `toSizeT` (a negative `int` becomes a huge unsigned value).
* Memory is passed by value and returned: a function that writes through a
  pointer takes the contents of the object and returns the new contents.
  A `memcpy` outside the bounds of an object is undefined behaviour (`Prog.ub`).
* The two system calls `sendto` and `recvfrom` are the nodes of a program tree
  (`Prog`); the tree is interpreted either against a scripted environment
  (`Prog.run`) or against a peer program over a FIFO network (`Sys`).
* `dp_pdu` is five `int`s, laid out little-endian without padding (20 bytes).
* Diagnostic output (`printf`, `perror`, `print_in_pdu`, `print_out_pdu`) is
  not modelled.
-/

namespace DuProto

/-! ## Machine integers and bytes -/

abbrev Byte := Fin 256

/-- Conversion to C `int`: 32-bit two's-complement wrap. -/
def toInt (x : Int) : Int := (x + 2147483648) % 4294967296 - 2147483648

/-- Conversion to C `unsigned int`. -/
def toUInt (x : Int) : Nat := (x % 4294967296).toNat

/-- Conversion to `size_t` (64-bit unsigned). -/
def toSizeT (x : Int) : Nat := (x % 18446744073709551616).toNat

/-- The low eight bits of `n`. -/
def low_byte (n : Nat) : Byte := ⟨n % 256, Nat.mod_lt n (by decide)⟩

/-- The four bytes of an `int`, least significant first. -/
def int_bytes (x : Int) : List Byte :=
  let u := toUInt x
  [low_byte u, low_byte (u / 256), low_byte (u / 65536), low_byte (u / 16777216)]

/-- The `int` stored in the first four bytes of `l` (0 for a shorter list,
which no caller passes). -/
def bytes_int : List Byte → Int
  | b0 :: b1 :: b2 :: b3 :: _ =>
      toInt (b0.val + 256 * b1.val + 65536 * b2.val + 16777216 * b3.val : Nat)
  | _ => 0

/-- Bytes `off .. off + src.length` of `dest` replaced by `src` (in bounds). -/
def store (dest : List Byte) (off : Nat) (src : List Byte) : List Byte :=
  dest.take off ++ src ++ dest.drop (off + src.length)

/-- Model of `memcpy(dest + doff, src + soff, n)`: `none` when the copy leaves
either object. -/
def memcpy (dest : List Byte) (doff : Nat) (src : List Byte) (soff : Nat) (n : Nat) :
    Option (List Byte) :=
  if soff + n ≤ src.length ∧ doff + n ≤ dest.length then
    some (store dest doff ((src.drop soff).take n))
  else none

/-- Reads the `int` at byte offset `off`. -/
def load_int (buf : List Byte) (off : Nat) : Int := bytes_int (buf.drop off)

/-- Writes an `int` at byte offset `off`. -/
def store_int (buf : List Byte) (off : Nat) (x : Int) : List Byte := store buf off (int_bytes x)

/-! ## du-proto.h -/

structure dp_sock where
  len : Nat
  isAddrInit : Bool
  /-- The `struct sockaddr_in`, as an opaque number. -/
  addr : Nat
deriving DecidableEq, Repr

structure dp_connection where
  seqNum : Nat
  udp_sock : Int
  isConnected : Bool
  outSockAddr : dp_sock
  inSockAddr : dp_sock
  dbgMode : Int
  /-- Not a C field: whether `dpclose` has released the object. -/
  freed : Bool
deriving DecidableEq, Repr

def DP_PROTO_VER_1 : Int := 1

def DP_MT_ACK : Int := 1

def DP_MT_SND : Int := 2

def DP_MT_CONNECT : Int := 4

def DP_MT_CLOSE : Int := 8

def DP_MT_NACK : Int := 16

def DP_MT_FRAGMENT : Int := 32

def DP_MT_ERROR : Int := 64

def DP_MT_SNDACK : Int := 3

def DP_MT_CNTACK : Int := 5

def DP_MT_CLOSEACK : Int := 9

structure dp_pdu where
  proto_ver : Int
  mtype : Int
  seqnum : Int
  dgram_sz : Int
  err_num : Int
deriving DecidableEq, Repr

/-- The value of `sizeof(dp_pdu)`. -/
def sizeof_dp_pdu : Nat := 20

/-- The value of `sizeof(struct sockaddr_in)`. -/
def sizeof_sockaddr_in : Nat := 16

def DP_MAX_BUFF_SZ : Int := 512

def DP_MAX_DGRAM_SZ : Nat := 512 + sizeof_dp_pdu

def DP_NO_ERROR : Int := 0

def DP_ERROR_GENERAL : Int := -1

def DP_ERROR_PROTOCOL : Int := -2

def DP_BUFF_UNDERSIZED : Int := -4

def DP_BUFF_OVERSIZED : Int := -8

def DP_CONNECTION_CLOSED : Int := -16

def DP_ERROR_BAD_DGRAM : Int := -32

/-- The object representation of a `dp_pdu`. -/
def pdu_bytes (p : dp_pdu) : List Byte :=
  int_bytes p.proto_ver ++ int_bytes p.mtype ++ int_bytes p.seqnum ++ int_bytes p.dgram_sz
    ++ int_bytes p.err_num

/-- Byte offsets of the fields of `dp_pdu`. -/
def off_proto_ver : Nat := 0

def off_mtype : Nat := 4

def off_seqnum : Nat := 8

def off_dgram_sz : Nat := 12

def off_err_num : Nat := 16

/-- The `dp_pdu` overlaid on the first 20 bytes of `buf`. -/
def pdu_of_bytes (buf : List Byte) : dp_pdu :=
  { proto_ver := load_int buf off_proto_ver, mtype := load_int buf off_mtype,
    seqnum := load_int buf off_seqnum, dgram_sz := load_int buf off_dgram_sz,
    err_num := load_int buf off_err_num }

/-- The object `dp_pdu pdu = {0}`. -/
def pdu_zero : List Byte := List.replicate sizeof_dp_pdu 0

/-! ## Programs over the socket interface -/

/-- A computation that may call `sendto` and `recvfrom`.
`sendto addr dgram k`: hand `dgram` to the kernel for `addr`, continue with the
value `sendto` returns.  `recvfrom len k`: wait for a datagram with a buffer of
`len` bytes; continue with `none` when the call fails and with the (truncated)
datagram and its source address otherwise.  `ub`: undefined behaviour. -/
inductive Prog (α : Type) : Type where
  | ret (a : α) : Prog α
  | ub : Prog α
  | sendto (addr : Nat) (dgram : List Byte) (k : Int → Prog α) : Prog α
  | recvfrom (len : Nat) (k : Option (List Byte × Nat) → Prog α) : Prog α

namespace Prog

def bind {α β : Type} : Prog α → (α → Prog β) → Prog β
  | ret a, f => f a
  | ub, _ => ub
  | sendto addr d k, f => sendto addr d (fun r => bind (k r) f)
  | recvfrom len k, f => recvfrom len (fun r => bind (k r) f)

instance : Monad Prog where
  pure := Prog.ret
  bind := Prog.bind

end Prog

/-! ## du-proto.c -/

def dpinit : dp_connection :=
  { seqNum := 0, udp_sock := 0, isConnected := false,
    outSockAddr := { len := sizeof_sockaddr_in, isAddrInit := false, addr := 0 },
    inSockAddr := { len := sizeof_sockaddr_in, isAddrInit := false, addr := 0 },
    dbgMode := 1, freed := false }

/-- The function `dpclose`: `free(dpsession)`, recorded in the `freed` flag. -/
def dpclose (dpsession : dp_connection) : dp_connection := { dpsession with freed := true }

def dpmaxdgram : Int := DP_MAX_BUFF_SZ

/-- The path of `dpServerInit` on which `socket`, `setsockopt` and `bind`
succeed; `sock` is the descriptor and `servaddr` the bound address. -/
def dpServerInit (sock : Int) (servaddr : Nat) : dp_connection :=
  let dpc := dpinit
  let dpc := { dpc with udp_sock := sock }
  let dpc := { dpc with inSockAddr := { dpc.inSockAddr with addr := servaddr } }
  let dpc := { dpc with inSockAddr := { dpc.inSockAddr with isAddrInit := true } }
  { dpc with outSockAddr := { dpc.outSockAddr with len := sizeof_sockaddr_in } }

/-- The path of `dpClientInit` on which `socket` succeeds. -/
def dpClientInit (sock : Int) (servaddr : Nat) : dp_connection :=
  let dpc := dpinit
  let dpc := { dpc with udp_sock := sock }
  let dpc := { dpc with outSockAddr :=
    { addr := servaddr, len := sizeof_sockaddr_in, isAddrInit := true } }
  { dpc with inSockAddr := dpc.outSockAddr }

/-- The function `dprecvraw`.  `buff` is the object behind the pointer; the
result is the return value, the session and the new contents of `buff`.
`recvfrom` writes at most `buff_sz` bytes of the datagram (the rest of a
longer datagram is discarded) and stores the source address in
`outSockAddr`; writing past the end of `buff` is undefined behaviour. -/
def dprecvraw (dp : dp_connection) (buff : List Byte) (buff_sz : Int) :
    Prog (Int × dp_connection × List Byte) :=
  if !dp.inSockAddr.isAddrInit then
    pure (-1, dp, buff)
  else
    Prog.recvfrom (toSizeT buff_sz) fun r =>
      match r with
      | none => pure (-1, dp, buff)
      | some (dgram, src) =>
        let data := dgram.take (toSizeT buff_sz)
        if data.length ≤ buff.length then
          let dp := { dp with outSockAddr :=
            { addr := src, len := sizeof_sockaddr_in, isAddrInit := true } }
          pure (toInt data.length, dp, store buff 0 data)
        else Prog.ub

/-- The function `dpsendraw`: the first `sbuff_sz` bytes of `sbuff` are handed
to `sendto`, whose return value is returned; reading past the end of `sbuff`
is undefined behaviour. -/
def dpsendraw (dp : dp_connection) (sbuff : List Byte) (sbuff_sz : Int) : Prog Int :=
  if !dp.outSockAddr.isAddrInit then
    pure (-1)
  else if toSizeT sbuff_sz ≤ sbuff.length then
    Prog.sendto dp.outSockAddr.addr (sbuff.take (toSizeT sbuff_sz)) fun bytesOut =>
      pure bytesOut
  else Prog.ub

/-- Lines 146-153 of `dprecvdgram`: the classification of the datagram. -/
def dprecvdgram_errCode (bytesIn : Int) (inPdu : dp_pdu) (buff_sz : Int) : Int :=
  let errCode := if toSizeT bytesIn < sizeof_dp_pdu then DP_ERROR_BAD_DGRAM else DP_NO_ERROR
  if inPdu.dgram_sz > buff_sz then DP_BUFF_UNDERSIZED else errCode

/-- Lines 159-170 of `dprecvdgram`: the update of the sequence number. -/
def dprecvdgram_seqNum (dp : dp_connection) (errCode : Int) (inPdu : dp_pdu) : dp_connection :=
  if errCode = DP_NO_ERROR then
    if inPdu.dgram_sz = 0 then
      { dp with seqNum := toUInt (dp.seqNum + 1) }
    else
      { dp with seqNum := toUInt (dp.seqNum + inPdu.dgram_sz) }
  else
    { dp with seqNum := toUInt (dp.seqNum + 1) }

/-- Lines 172-209 of `dprecvdgram`: the replies and the return value.
`errReply` is the block `if(errCode != DP_NO_ERROR)`; its value tells whether
the block returned `DP_ERROR_PROTOCOL`.  When it did not, control falls
through to the `switch`, also after an ERROR PDU was sent. -/
def dprecvdgram_reply (dp : dp_connection) (errCode : Int) (inPdu : dp_pdu) (bytesIn : Int) :
    Prog (Int × dp_connection) :=
  let outPdu : dp_pdu :=
    { proto_ver := DP_PROTO_VER_1, mtype := 0, dgram_sz := 0, seqnum := toInt dp.seqNum,
      err_num := errCode }
  let errReply : Prog Bool :=
    if errCode ≠ DP_NO_ERROR then do
      let actSndSz ← dpsendraw dp (pdu_bytes { outPdu with mtype := DP_MT_ERROR }) sizeof_dp_pdu
      pure (decide (toSizeT actSndSz ≠ sizeof_dp_pdu))
    else pure false
  do
    let failed ← errReply
    if failed then
      pure (DP_ERROR_PROTOCOL, dp)
    else if inPdu.mtype = DP_MT_SND then do
      let actSndSz ← dpsendraw dp (pdu_bytes { outPdu with mtype := DP_MT_SNDACK }) sizeof_dp_pdu
      if toSizeT actSndSz ≠ sizeof_dp_pdu then
        pure (DP_ERROR_PROTOCOL, dp)
      else
        pure (bytesIn, dp)
    else if inPdu.mtype = DP_MT_CLOSE then do
      let actSndSz ← dpsendraw dp (pdu_bytes { outPdu with mtype := DP_MT_CLOSEACK }) sizeof_dp_pdu
      if toSizeT actSndSz ≠ sizeof_dp_pdu then
        pure (DP_ERROR_PROTOCOL, dp)
      else
        pure (DP_CONNECTION_CLOSED, dpclose dp)
    else
      pure (DP_ERROR_PROTOCOL, dp)

/-- The function `dprecvdgram`; `buff` is the object behind the pointer, its
new contents are part of the result. -/
def dprecvdgram (dp : dp_connection) (buff : List Byte) (buff_sz : Int) :
    Prog (Int × dp_connection × List Byte) :=
  if toSizeT buff_sz > DP_MAX_DGRAM_SZ then
    pure (DP_BUFF_OVERSIZED, dp, buff)
  else do
    let (bytesIn, dp, buff) ← dprecvraw dp buff buff_sz
    let inPdu := pdu_of_bytes buff
    let errCode := dprecvdgram_errCode bytesIn inPdu buff_sz
    let dp := dprecvdgram_seqNum dp errCode inPdu
    let (rc, dp) ← dprecvdgram_reply dp errCode inPdu bytesIn
    pure (rc, dp, buff)

/-- The function `dprecv`.  `buff` is the caller's object (its length is its
real capacity), `dpBuffer` the static `_dpBuffer`; the result is the return
value, the session, the caller's object and `_dpBuffer`. -/
def dprecv (dp : dp_connection) (buff : List Byte) (buff_sz : Int) (dpBuffer : List Byte) :
    Prog (Int × dp_connection × List Byte × List Byte) := do
  let (rcvLen, dp, dpBuffer) ← dprecvdgram dp dpBuffer (DP_MAX_DGRAM_SZ : Nat)
  if rcvLen = DP_CONNECTION_CLOSED then
    pure (DP_CONNECTION_CLOSED, dp, buff, dpBuffer)
  else
    let inPdu := pdu_of_bytes dpBuffer
    if toSizeT rcvLen > sizeof_dp_pdu then
      match memcpy buff 0 dpBuffer sizeof_dp_pdu (toSizeT inPdu.dgram_sz) with
      | none => Prog.ub
      | some buff => pure (inPdu.dgram_sz, dp, buff, dpBuffer)
    else
      pure (inPdu.dgram_sz, dp, buff, dpBuffer)

/-- What `dprecv` does once `dprecvraw` has returned `bytesIn`, leaving the
session `dp` and the contents `dpBuffer` in `_dpBuffer`: lines 146-209 of
`dprecvdgram` with `buff_sz = sizeof(_dpBuffer)`, then lines 126-133 of
`dprecv`. -/
def dprecv_after (dp : dp_connection) (buff dpBuffer : List Byte) (bytesIn : Int) :
    Prog (Int × dp_connection × List Byte × List Byte) :=
  (dprecvdgram_reply
    (dprecvdgram_seqNum dp
      (dprecvdgram_errCode bytesIn (pdu_of_bytes dpBuffer) (DP_MAX_DGRAM_SZ : Nat))
      (pdu_of_bytes dpBuffer))
    (dprecvdgram_errCode bytesIn (pdu_of_bytes dpBuffer) (DP_MAX_DGRAM_SZ : Nat))
    (pdu_of_bytes dpBuffer) bytesIn).bind fun a =>
      if a.1 = DP_CONNECTION_CLOSED then
        Prog.ret (DP_CONNECTION_CLOSED, a.2, buff, dpBuffer)
      else if toSizeT a.1 > sizeof_dp_pdu then
        match memcpy buff 0 dpBuffer sizeof_dp_pdu (toSizeT (pdu_of_bytes dpBuffer).dgram_sz) with
        | none => Prog.ub
        | some buff => Prog.ret ((pdu_of_bytes dpBuffer).dgram_sz, a.2, buff, dpBuffer)
      else
        Prog.ret ((pdu_of_bytes dpBuffer).dgram_sz, a.2, buff, dpBuffer)

/-- The PDU `dpconnect` builds (lines 369-372): `{0}` with `mtype`, `seqnum` and
`dgram_sz` assigned. -/
def connect_pdu (dp : dp_connection) : dp_pdu :=
  { proto_ver := 0, mtype := DP_MT_CONNECT, seqnum := toInt dp.seqNum, dgram_sz := 0,
    err_num := 0 }

/-- The sequence number `dplisten` adopts (line 344), as a function of the
object `pdu` that `dprecvraw` filled. -/
def listen_seq (pdu : List Byte) : Nat :=
  toUInt (toInt (load_int (store_int pdu off_mtype DP_MT_CNTACK) off_seqnum + 1))

/-- The object `pdu` of `dplisten` when it is passed to `dpsendraw` (lines
343-345), as a function of the object that `dprecvraw` filled. -/
def listen_reply (pdu : List Byte) : List Byte :=
  store_int (store_int pdu off_mtype DP_MT_CNTACK) off_seqnum (toInt (listen_seq pdu))

/-- The PDU `dpdisconnect` builds (lines 402-406). -/
def close_pdu (dp : dp_connection) : dp_pdu :=
  { proto_ver := DP_PROTO_VER_1, mtype := DP_MT_CLOSE, seqnum := toInt dp.seqNum, dgram_sz := 0,
    err_num := 0 }

/-- The session after `dprecvraw` received a datagram from `src`. -/
def learn_peer (dp : dp_connection) (src : Nat) : dp_connection :=
  { dp with outSockAddr := { addr := src, len := sizeof_sockaddr_in, isAddrInit := true } }

/-- The contents `dpsenddgram` gives `_dpBuffer` before it calls `dpsendraw`:
the four header stores and the `memcpy` of the payload. -/
def send_buffer (dp : dp_connection) (sbuff : List Byte) (sbuff_sz : Int) (dpBuffer : List Byte) :
    List Byte :=
  store (store_int (store_int (store_int (store_int dpBuffer off_proto_ver DP_PROTO_VER_1)
    off_mtype DP_MT_SND) off_dgram_sz sbuff_sz) off_seqnum (toInt dp.seqNum)) sizeof_dp_pdu
    (sbuff.take (toSizeT sbuff_sz))

/-- The function `dpsenddgram`.  `outPdu` points into `_dpBuffer`, so the field
assignments are stores into `dpBuffer` (`err_num` is not assigned); the
reply is received into a local `inPdu` and only printed. -/
def dpsenddgram (dp : dp_connection) (sbuff : List Byte) (sbuff_sz : Int) (dpBuffer : List Byte) :
    Prog (Int × dp_connection × List Byte) :=
  if !dp.outSockAddr.isAddrInit then
    pure (DP_ERROR_GENERAL, dp, dpBuffer)
  else if sbuff_sz > DP_MAX_BUFF_SZ then
    pure (DP_ERROR_GENERAL, dp, dpBuffer)
  else
    let sndSz := sbuff_sz
    let dpBuffer := store_int dpBuffer off_proto_ver DP_PROTO_VER_1
    let dpBuffer := store_int dpBuffer off_mtype DP_MT_SND
    let dpBuffer := store_int dpBuffer off_dgram_sz sndSz
    let dpBuffer := store_int dpBuffer off_seqnum (toInt dp.seqNum)
    match memcpy dpBuffer sizeof_dp_pdu sbuff 0 (toSizeT sndSz) with
    | none => Prog.ub
    | some dpBuffer => do
      let totalSendSz := toInt (toSizeT (load_int dpBuffer off_dgram_sz) + sizeof_dp_pdu : Nat)
      let bytesOut ← dpsendraw dp dpBuffer totalSendSz
      let dp :=
        if load_int dpBuffer off_dgram_sz = 0 then
          { dp with seqNum := toUInt (dp.seqNum + 1) }
        else
          { dp with seqNum := toUInt (dp.seqNum + load_int dpBuffer off_dgram_sz) }
      let inPdu := pdu_zero
      let (bytesIn, dp, inPdu) ← dprecvraw dp inPdu sizeof_dp_pdu
      pure (toInt ((toSizeT bytesOut : Int) - sizeof_dp_pdu), dp, dpBuffer)

def dpsend (dp : dp_connection) (sbuff : List Byte) (sbuff_sz : Int) (dpBuffer : List Byte) :
    Prog (Int × dp_connection × List Byte) :=
  if sbuff_sz > dpmaxdgram then
    pure (DP_BUFF_UNDERSIZED, dp, dpBuffer)
  else do
    let sndSz ← dpsenddgram dp sbuff sbuff_sz dpBuffer
    pure sndSz

/-- The function `dplisten`; the local `pdu` is kept as its 20 bytes.  The
message type of the PDU received is not examined. -/
def dplisten (dp : dp_connection) : Prog (Int × dp_connection) :=
  if !dp.inSockAddr.isAddrInit then
    pure (DP_ERROR_GENERAL, dp)
  else do
    let pdu := pdu_zero
    let (rcvSz, dp, pdu) ← dprecvraw dp pdu sizeof_dp_pdu
    if toSizeT rcvSz ≠ sizeof_dp_pdu then
      pure (DP_ERROR_GENERAL, dp)
    else do
      let pdu := store_int pdu off_mtype DP_MT_CNTACK
      let dp := { dp with seqNum := toUInt (toInt (load_int pdu off_seqnum + 1)) }
      let pdu := store_int pdu off_seqnum (toInt dp.seqNum)
      let sndSz ← dpsendraw dp pdu sizeof_dp_pdu
      if toSizeT sndSz ≠ sizeof_dp_pdu then
        pure (DP_ERROR_GENERAL, dp)
      else
        let dp := { dp with isConnected := true }
        pure (1, dp)

/-- The function `dpconnect`; the local `pdu` is kept as its 20 bytes
(`proto_ver` stays 0). -/
def dpconnect (dp : dp_connection) : Prog (Int × dp_connection) :=
  if !dp.outSockAddr.isAddrInit then
    pure (DP_ERROR_GENERAL, dp)
  else do
    let pdu := pdu_zero
    let pdu := store_int pdu off_mtype DP_MT_CONNECT
    let pdu := store_int pdu off_seqnum (toInt dp.seqNum)
    let pdu := store_int pdu off_dgram_sz 0
    let sndSz ← dpsendraw dp pdu sizeof_dp_pdu
    if toSizeT sndSz ≠ sizeof_dp_pdu then
      pure (-1, dp)
    else do
      let (rcvSz, dp, pdu) ← dprecvraw dp pdu sizeof_dp_pdu
      if toSizeT rcvSz ≠ sizeof_dp_pdu then
        pure (-1, dp)
      else if load_int pdu off_mtype ≠ DP_MT_CNTACK then
        pure (-1, dp)
      else
        let dp := { dp with seqNum := toUInt (dp.seqNum + 1) }
        let dp := { dp with isConnected := true }
        pure (1, dp)

/-- The function `dpdisconnect`; the local `pdu` is kept as its 20 bytes. -/
def dpdisconnect (dp : dp_connection) : Prog (Int × dp_connection) := do
  let pdu := pdu_zero
  let pdu := store_int pdu off_proto_ver DP_PROTO_VER_1
  let pdu := store_int pdu off_mtype DP_MT_CLOSE
  let pdu := store_int pdu off_seqnum (toInt dp.seqNum)
  let pdu := store_int pdu off_dgram_sz 0
  let sndSz ← dpsendraw dp pdu sizeof_dp_pdu
  if toSizeT sndSz ≠ sizeof_dp_pdu then
    pure (DP_ERROR_GENERAL, dp)
  else do
    let (rcvSz, dp, pdu) ← dprecvraw dp pdu sizeof_dp_pdu
    if toSizeT rcvSz ≠ sizeof_dp_pdu then
      pure (DP_ERROR_GENERAL, dp)
    else if load_int pdu off_mtype ≠ DP_MT_CLOSEACK then
      pure (DP_ERROR_GENERAL, dp)
    else
      pure (DP_CONNECTION_CLOSED, dpclose dp)

/-! ## One endpoint against a scripted environment -/

/-- The environment of one endpoint: what the successive `recvfrom` calls
will yield (`none`: the call fails), what the successive `sendto` calls will
return, and the record of the calls made so far. -/
structure Net where
  inbox : List (Option (List Byte × Nat))
  sendrc : List Int
  sent : List (Nat × List Byte)
  recvCalls : Nat
deriving DecidableEq, Repr

/-- How a run ends: with a value, in undefined behaviour, or waiting for an
event the script does not contain. -/
inductive Outcome (α : Type) : Type where
  | done (a : α) (net : Net) : Outcome α
  | ub (net : Net) : Outcome α
  | blocked (net : Net) : Outcome α
deriving DecidableEq, Repr

namespace Prog

def run {α : Type} : Prog α → Net → Outcome α
  | ret a, net => Outcome.done a net
  | ub, net => Outcome.ub net
  | sendto addr d k, net =>
    match net.sendrc with
    | [] => Outcome.blocked net
    | rc :: rest => run (k rc) { net with sendrc := rest, sent := net.sent ++ [(addr, d)] }
  | recvfrom _ k, net =>
    match net.inbox with
    | [] => Outcome.blocked net
    | r :: rest => run (k r) { net with inbox := rest, recvCalls := net.recvCalls + 1 }

end Prog

/-- The environment at the end of a run. -/
def net_of {α : Type} : Outcome α → Net
  | Outcome.done _ net => net
  | Outcome.ub net => net
  | Outcome.blocked net => net

/-! ## du-ftp.c -/

def BUFF_SZ : Nat := 512

/-- How a function of `du-ftp.c` ends: by `return`, by `exit`, or not within
the given number of loop iterations. -/
inductive Ending : Type where
  | returned (rc : Int) : Ending
  | exited (status : Int) : Ending
  | unfinished : Ending
deriving DecidableEq, Repr

/-- The `while(1)` of `server_loop`, at most `fuel` iterations.  `f` is the
file, as the list of the blocks `fwrite` has appended. -/
def server_loop_while : Nat → dp_connection → List Byte → Int → List Byte → List (List Byte) →
    Prog (Ending × List (List Byte))
  | 0, _, _, _, _, f => pure (Ending.unfinished, f)
  | fuel + 1, dpc, rBuff, rbuff_sz, dpBuffer, f => do
    let (rcvSz, dpc, rBuff, dpBuffer) ← dprecv dpc rBuff rbuff_sz dpBuffer
    if rcvSz = DP_CONNECTION_CLOSED then
      pure (Ending.returned DP_CONNECTION_CLOSED, f)
    else if toSizeT rcvSz ≤ rBuff.length then
      server_loop_while fuel dpc rBuff rbuff_sz dpBuffer (f ++ [rBuff.take (toSizeT rcvSz)])
    else Prog.ub

/-- The function `server_loop` on the path where `fopen` succeeds. -/
def server_loop (fuel : Nat) (dpc : dp_connection) (sBuff rBuff : List Byte)
    (sbuff_sz rbuff_sz : Int) (dpBuffer : List Byte) : Prog (Ending × List (List Byte)) :=
  if dpc.isConnected = false then
    pure (Ending.exited (-1), [])
  else
    server_loop_while fuel dpc rBuff rbuff_sz dpBuffer []

/-- The `while` of `start_client`: one `dpsend` per block `fread` returned. -/
def start_client_while : dp_connection → List Byte → List (List Byte) →
    Prog (dp_connection × List Byte)
  | dpc, dpBuffer, [] => pure (dpc, dpBuffer)
  | dpc, dpBuffer, block :: rest => do
    let (_, dpc, dpBuffer) ← dpsend dpc block block.length dpBuffer
    start_client_while dpc dpBuffer rest

/-- The function `start_client` on the path where `fopen` succeeds; `reads`
are the non-empty blocks the successive `fread` calls return.  The result is
what `dpdisconnect` returned (`none` when it was not reached) and the session. -/
def start_client (dpc : dp_connection) (dpBuffer : List Byte) (reads : List (List Byte)) :
    Prog (Option Int × dp_connection) :=
  if !dpc.isConnected then
    pure (none, dpc)
  else do
    let (dpc, _) ← start_client_while dpc dpBuffer reads
    let (rc, dpc) ← dpdisconnect dpc
    pure (some rc, dpc)

/-- The client branch of `main`; the result also carries what `start_client`
observed. -/
def client_main (sock : Int) (servaddr : Nat) (reads : List (List Byte)) :
    Prog (Ending × Option Int) := do
  let dpc := dpClientInit sock servaddr
  let (rc, dpc) ← dpconnect dpc
  if rc < 0 then
    pure (Ending.exited (-1), none)
  else do
    let (rc, _) ← start_client dpc (List.replicate DP_MAX_DGRAM_SZ 0) reads
    pure (Ending.exited 0, rc)

/-- The server branch of `main`; the result is how `server_loop` ended and
the file it wrote. -/
def server_main (fuel : Nat) (sock : Int) (servaddr : Nat) : Prog (Ending × List (List Byte)) := do
  let dpc := dpServerInit sock servaddr
  let (rc, dpc) ← dplisten dpc
  if rc < 0 then
    pure (Ending.exited (-1), [])
  else
    server_loop fuel dpc (List.replicate BUFF_SZ 0) (List.replicate BUFF_SZ 0) BUFF_SZ BUFF_SZ
      (List.replicate DP_MAX_DGRAM_SZ 0)

/-! ## Two endpoints on a network -/

structure Packet where
  src : Nat
  dst : Nat
  data : List Byte
deriving DecidableEq, Repr

/-- The oldest packet addressed to `host`, and the packets that remain. -/
def take_for (host : Nat) : List Packet → Option (Packet × List Packet)
  | [] => none
  | p :: ps =>
    if p.dst = host then some (p, ps)
    else match take_for host ps with
      | none => none
      | some (q, rest) => some (q, p :: rest)

/-- A client and a server program on a network that delivers every datagram
intact, in order, to the host it is addressed to; `wire` holds the datagrams
sent and not yet received, oldest first. -/
structure Sys (α β : Type) where
  client : Prog α
  server : Prog β
  caddr : Nat
  saddr : Nat
  wire : List Packet

namespace Sys

/-- One step of the server, when it can take one. -/
def step_server {α β : Type} (s : Sys α β) : Option (Sys α β) :=
  match s.server with
  | Prog.sendto a d k =>
    some { s with server := k d.length, wire := s.wire ++ [⟨s.saddr, a, d⟩] }
  | Prog.recvfrom _ k =>
    match take_for s.saddr s.wire with
    | some (p, rest) => some { s with server := k (some (p.data, p.src)), wire := rest }
    | none => none
  | _ => none

/-- One step of the system: the client moves if it can, otherwise the server.
A `sendto` returns the length of the datagram; a `recvfrom` waits until a
datagram for the host is on the wire. -/
def step {α β : Type} (s : Sys α β) : Option (Sys α β) :=
  match s.client with
  | Prog.sendto a d k =>
    some { s with client := k d.length, wire := s.wire ++ [⟨s.caddr, a, d⟩] }
  | Prog.recvfrom _ k =>
    match take_for s.caddr s.wire with
    | some (p, rest) => some { s with client := k (some (p.data, p.src)), wire := rest }
    | none => step_server s
  | _ => step_server s

/-- At most `fuel` steps; stops when no endpoint can move. -/
def run {α β : Type} : Nat → Sys α β → Sys α β
  | 0, s => s
  | fuel + 1, s =>
    match step s with
    | none => s
    | some s2 => run fuel s2

end Sys

/-! ## du-proto.c: the error-injection helper -/

/-- The function `dprand`; `rnd` is the value `rand()` returns (never
negative).  The `srand` call is not modelled. -/
def dprand (threshold : Int) (rnd : Nat) : Int :=
  if threshold < 1 then 0
  else if threshold > 99 then 1
  else
    let rndInRange : Int := toInt ((rnd : Int) % (100 - 1 + 1) + 1)
    if threshold < rndInRange then 1 else 0

end DuProto

/-!
# The cipher library (`03-crypto-echo/crypto-lib.c`, `02-crypto-echo/crypto-lib.h`)

`uint8_t` is a byte (`Fin 256`), `crypto_key_t` (`uint16_t`) a `Nat` kept below
`2^16`.  A buffer is passed as its contents and the new contents are returned;
an access outside a buffer makes the result `none` (undefined behaviour).  The
functions are embedded on the path where no pointer is `NULL`; `printf` is not
modelled, and the outcome of each `rand()` call is a parameter.
-/

namespace CryptoLib

open DuProto (Byte low_byte toInt)

def RC_OK : Int := 0

def RC_INVALID_ARGS : Int := -1

def RC_INVALID_TEXT : Int := -2

def RC_INVALID_BUFF : Int := -3

def RC_CRYPTO_ERR : Int := -4

def CIPHER_MOD : Nat := 64

/-- The macro `GET_ENCRYPTION_KEY`: `(uint8_t)(key >> 8)`. -/
def GET_ENCRYPTION_KEY (key : Nat) : Byte := low_byte (key >>> 8)

/-- The macro `GET_DECRYPTION_KEY`: `(uint8_t)(key & 0xFF)`. -/
def GET_DECRYPTION_KEY (key : Nat) : Byte := low_byte (key &&& 255)

/-- The array `alphabet`, as character codes: `A`-`Z`, `a`-`z`, `0`-`9`, the
space and the comma. -/
def alphabet : List Byte :=
  [65, 66, 67, 68, 69, 70, 71, 72, 73, 74, 75, 76, 77,
   78, 79, 80, 81, 82, 83, 84, 85, 86, 87, 88, 89, 90,
   97, 98, 99, 100, 101, 102, 103, 104, 105, 106, 107, 108, 109,
   110, 111, 112, 113, 114, 115, 116, 117, 118, 119, 120, 121, 122,
   48, 49, 50, 51, 52, 53, 54, 55, 56, 57,
   32, 44]

/-- The array `ascii_to_index[256]`.  Its initialiser lists the 128 entries
for the codes 0 to 127; the entries it does not list, those for the codes 128
to 255, are zero, as for every object with static storage. -/
def ascii_to_index : List Byte :=
  [255, 255, 255, 255, 255, 255, 255, 255,
   255, 255, 255, 255, 255, 255, 255, 255,
   255, 255, 255, 255, 255, 255, 255, 255,
   255, 255, 255, 255, 255, 255, 255, 255,
   62, 255, 255, 255, 255, 255, 255, 255,
   255, 255, 255, 255, 63, 255, 255, 255,
   52, 53, 54, 55, 56, 57, 58, 59, 60, 61,
   255, 255, 255, 255, 255, 255, 255,
   0, 1, 2, 3, 4, 5, 6, 7, 8, 9, 10, 11, 12, 13, 14, 15, 16, 17, 18, 19,
   20, 21, 22, 23, 24, 25,
   255, 255, 255, 255, 255, 255,
   26, 27, 28, 29, 30, 31, 32, 33, 34, 35, 36, 37, 38, 39, 40, 41, 42, 43,
   44, 45, 46, 47, 48, 49, 50, 51,
   255, 255, 255, 255, 255]
  ++ List.replicate 128 0

/-- The function `is_valid_key`. -/
def is_valid_key (key : Byte) : Int :=
  if key.val > 0 ∧ key.val < CIPHER_MOD ∧ key.val &&& 1 = 1 then 1 else 0

/-- The loop of `get_valid_keys`, over the values `k` takes when the test
`k < CIPHER_MOD` alone ends it; the test `count < max_keys` is made before
each iteration.  `keys[count++] = k` outside the array is undefined
behaviour (`none`). -/
def get_valid_keys_for : List Nat → Int → Int → List Byte → Option (Int × List Byte)
  | [], count, _, keys => some (count, keys)
  | k :: ks, count, max_keys, keys =>
    if count < max_keys then
      if is_valid_key (low_byte k) ≠ 0 then
        if 0 ≤ count ∧ count.toNat < keys.length then
          get_valid_keys_for ks (count + 1) max_keys (keys.set count.toNat (low_byte k))
        else none
      else get_valid_keys_for ks count max_keys keys
    else some (count, keys)

/-- The function `get_valid_keys`: `for (uint8_t k = 1; k < CIPHER_MOD && count < max_keys; k++)`. -/
def get_valid_keys (keys : List Byte) (max_keys : Int) : Option (Int × List Byte) :=
  get_valid_keys_for (List.range' 1 (CIPHER_MOD - 1)) 0 max_keys keys

/-- The loop of `find_inverse`, over the values of `d` still to try. -/
def find_inverse_for (e : Byte) : List Nat → Byte
  | [] => 0
  | d :: ds => if (e.val * d) % CIPHER_MOD = 1 then low_byte d else find_inverse_for e ds

/-- The function `find_inverse`: `for (uint8_t d = 1; d < CIPHER_MOD; d++)`. -/
def find_inverse (e : Byte) : Byte := find_inverse_for e (List.range' 1 (CIPHER_MOD - 1))

/-- The function `generate_single_keypair`; `rnd` is what `rand()` returns.
The result is `(e, d)`; `none` stands for undefined behaviour (a remainder by
zero, an index outside `valid_keys`). -/
def generate_single_keypair (rnd : Nat) : Option (Byte × Byte) :=
  match get_valid_keys (List.replicate 64 0) 64 with
  | none => none
  | some (num_valid, valid_keys) =>
    if num_valid = 0 then none
    else
      let idx := ((rnd : Int) % num_valid).toNat
      match valid_keys[idx]? with
      | none => none
      | some e => some (e, find_inverse e)

/-- The function `gen_key_pair` with two non-`NULL` pointers; `rnd1` and
`rnd2` are what the two `rand()` calls return.  The result is the return
value, `*key1` and `*key2`. -/
def gen_key_pair (rnd1 rnd2 : Nat) : Option (Int × Nat × Nat) :=
  match generate_single_keypair rnd1 with
  | none => none
  | some (e1, d1) =>
    match generate_single_keypair rnd2 with
    | none => none
    | some (e2, d2) =>
      let key1 := ((d2.val <<< 8) ||| e1.val) % 65536
      let key2 := ((d1.val <<< 8) ||| e2.val) % 65536
      some (RC_OK, key1, key2)

/-- The loop the four conversion functions share:
`for (size_t i = 0; i < len; i++) { <return err for some input[i]>; output[i] = <value>; }`.
`body b` is `none` when the iteration with `input[i] = b` returns `err`, and the
byte stored otherwise; `n` iterations remain, `i` is the index.  The value
after the last iteration is `ok`. -/
def byte_loop (body : Byte → Option Byte) (err ok : Int) :
    Nat → Nat → List Byte → List Byte → Option (Int × List Byte)
  | 0, _, _, output => some (ok, output)
  | n + 1, i, input, output =>
    if h : i < input.length then
      match body (input.get ⟨i, h⟩) with
      | none => some (err, output)
      | some v =>
        if i < output.length then byte_loop body err ok n (i + 1) input (output.set i v)
        else none
    else none

/-- The function `encrypt`; the result is the return value and the contents
of `encrypted_text`. -/
def encrypt (key : Nat) (encrypted_text clear_text : List Byte) (len : Nat) :
    Option (Int × List Byte) :=
  let enc_key := GET_ENCRYPTION_KEY key
  if enc_key.val = 0 ∨ enc_key.val ≥ CIPHER_MOD ∨ enc_key.val &&& 1 = 0 then
    some (RC_INVALID_TEXT, encrypted_text)
  else
    byte_loop (fun p => some (low_byte ((p.val * enc_key.val) % CIPHER_MOD))) RC_OK RC_OK
      len 0 clear_text encrypted_text

/-- The function `decrypt`; the result is the return value and the contents
of `clear_text`. -/
def decrypt (key : Nat) (clear_text encrypted_text : List Byte) (len : Nat) :
    Option (Int × List Byte) :=
  let dec_key := GET_DECRYPTION_KEY key
  if dec_key.val = 0 ∨ dec_key.val ≥ CIPHER_MOD ∨ dec_key.val &&& 1 = 0 then
    some (RC_INVALID_TEXT, clear_text)
  else
    byte_loop (fun c => some (low_byte ((c.val * dec_key.val) % CIPHER_MOD))) RC_OK RC_OK
      len 0 encrypted_text clear_text

/-- The function `string_to_bytes`; the result is the return value and the
contents of `bytes`. -/
def string_to_bytes (str bytes : List Byte) (len : Nat) : Option (Int × List Byte) :=
  byte_loop
    (fun c =>
      let index := ascii_to_index.getD c.val 0
      if index.val = 255 then none else some index)
    RC_INVALID_TEXT (toInt len) len 0 str bytes

/-- The function `bytes_to_string`; the result is the return value and the
contents of `str`. -/
def bytes_to_string (bytes : List Byte) (len : Nat) (str : List Byte) :
    Option (Int × List Byte) :=
  byte_loop
    (fun b => if b.val ≥ CIPHER_MOD then none else some (alphabet.getD b.val 0))
    RC_INVALID_TEXT (toInt len) len 0 bytes str

end CryptoLib

/-! # The Drexel Protocol: lemmas and claims -/

namespace DuProto

/-! ## Machine integers and memory: lemmas -/

theorem toInt_of_range (x : Int) (h1 : -2147483648 ≤ x) (h2 : x < 2147483648) : toInt x = x := by
  unfold toInt; omega

theorem toUInt_lt (x : Int) : toUInt x < 4294967296 := by
  unfold toUInt; omega

theorem toInt_toUInt (x : Int) : toInt (toUInt x : Nat) = toInt x := by
  unfold toInt toUInt; omega

theorem bytes_int_int_bytes (x : Int) (l : List Byte) : bytes_int (int_bytes x ++ l) = toInt x := by
  have h := toUInt_lt x
  rw [← toInt_toUInt x]
  simp only [int_bytes, bytes_int, low_byte, List.cons_append, List.nil_append]
  congr 1
  have : toUInt x % 256 + 256 * (toUInt x / 256 % 256) + 65536 * (toUInt x / 65536 % 256)
      + 16777216 * (toUInt x / 16777216 % 256) = toUInt x := by omega
  exact_mod_cast this

theorem int_bytes_length (x : Int) : (int_bytes x).length = 4 := rfl

theorem bytes_int_append (a b : List Byte) (h : 4 ≤ a.length) :
    bytes_int (a ++ b) = bytes_int a := by
  match a, h with
  | _ :: _ :: _ :: _ :: _, _ => rfl

theorem store_length (dest : List Byte) (off : Nat) (src : List Byte)
    (h : off + src.length ≤ dest.length) : (store dest off src).length = dest.length := by
  simp [store]; omega

theorem store_int_length (buf : List Byte) (off : Nat) (x : Int) (h : off + 4 ≤ buf.length) :
    (store_int buf off x).length = buf.length :=
  store_length buf off _ h

theorem load_int_store_int_same (buf : List Byte) (off : Nat) (x : Int) (h : off ≤ buf.length) :
    load_int (store_int buf off x) off = toInt x := by
  unfold load_int store_int store
  rw [List.append_assoc, List.drop_append_of_le_length (by simp; omega)]
  rw [List.drop_of_length_le (by simp), List.nil_append]
  exact bytes_int_int_bytes x _

theorem load_int_eq_of_take (a b : List Byte) (off : Nat)
    (h : a.take (off + 4) = b.take (off + 4)) (ha : off + 4 ≤ a.length) :
    load_int a off = load_int b off := by
  have hb : off + 4 ≤ b.length := by
    have := congrArg List.length h
    simp at this; omega
  unfold load_int
  rw [← List.take_append_drop (off + 4) a, ← List.take_append_drop (off + 4) b, h]
  rw [List.drop_append_of_le_length (by simp; omega), List.drop_append_of_le_length (by simp; omega)]
  rw [bytes_int_append _ _ (by simp; omega), bytes_int_append _ _ (by simp; omega)]

theorem load_int_store_before (buf : List Byte) (off : Nat) (src : List Byte) (off2 : Nat)
    (h : off2 + 4 ≤ off) (hb : off ≤ buf.length) :
    load_int (store buf off src) off2 = load_int buf off2 := by
  apply load_int_eq_of_take
  · unfold store
    rw [List.append_assoc, List.take_append_of_le_length (by simp; omega)]
    rw [List.take_take]
    congr 1; omega
  · simp [store]; omega

theorem load_int_store_after (buf : List Byte) (off : Nat) (src : List Byte) (off2 : Nat)
    (h : off + src.length ≤ off2) (hb : off + src.length ≤ buf.length) :
    load_int (store buf off src) off2 = load_int buf off2 := by
  unfold load_int store
  congr 1
  rw [List.drop_append_eq_append_drop]
  have h1 : (List.take off buf ++ src).length = off + src.length := by simp; omega
  rw [List.drop_of_length_le (by omega), h1, List.nil_append, List.drop_drop]
  congr 1; omega

theorem load_int_take (buf : List Byte) (off n : Nat) (h : off + 4 ≤ n) (hb : off + 4 ≤ buf.length) :
    load_int (buf.take n) off = load_int buf off := by
  apply load_int_eq_of_take
  · rw [List.take_take]; congr 1; omega
  · simp; omega

/-! ## Programs: lemmas -/

@[simp]
theorem Prog.pure_eq {α : Type} (a : α) : (pure a : Prog α) = Prog.ret a := rfl

@[simp]
theorem Prog.bind_eq {α β : Type} (x : Prog α) (f : α → Prog β) :
    (x >>= f) = Prog.bind x f := rfl

theorem toSizeT_of_nonneg (x : Int) (h0 : 0 ≤ x) (h1 : x < 18446744073709551616) :
    toSizeT x = x.toNat := by
  unfold toSizeT; congr 1; omega

/-- What the four header stores of `dpsenddgram` leave in a buffer. -/
theorem header_stores (g : List Byte) (a b c d : Int) (hg : 20 ≤ g.length) :
    let B := store_int (store_int (store_int (store_int g 0 a) 4 b) 12 c) 8 d
    B.length = g.length ∧ load_int B 0 = toInt a ∧ load_int B 4 = toInt b ∧
      load_int B 12 = toInt c ∧ load_int B 8 = toInt d := by
  intro B
  have h1 : (store_int g 0 a).length = g.length := store_int_length _ _ _ (by omega)
  have h2 : (store_int (store_int g 0 a) 4 b).length = g.length := by
    rw [store_int_length _ _ _ (by omega), h1]
  have h3 : (store_int (store_int (store_int g 0 a) 4 b) 12 c).length = g.length := by
    rw [store_int_length _ _ _ (by omega), h2]
  have h4 : B.length = g.length := by
    show (store_int _ 8 d).length = _
    rw [store_int_length _ _ _ (by omega), h3]
  refine ⟨h4, ?_, ?_, ?_, ?_⟩
  · show load_int (store _ 8 _) 0 = _
    rw [load_int_store_before _ _ _ _ (by omega) (by omega)]
    show load_int (store _ 12 _) 0 = _
    rw [load_int_store_before _ _ _ _ (by omega) (by omega)]
    show load_int (store _ 4 _) 0 = _
    rw [load_int_store_before _ _ _ _ (by omega) (by omega)]
    exact load_int_store_int_same _ _ _ (by omega)
  · show load_int (store _ 8 _) 4 = _
    rw [load_int_store_before _ _ _ _ (by omega) (by omega)]
    show load_int (store _ 12 _) 4 = _
    rw [load_int_store_before _ _ _ _ (by omega) (by omega)]
    exact load_int_store_int_same _ _ _ (by omega)
  · show load_int (store _ 8 _) 12 = _
    rw [load_int_store_after _ _ _ _ (by simp [int_bytes_length]) (by simp [int_bytes_length]; omega)]
    exact load_int_store_int_same _ _ _ (by omega)
  · exact load_int_store_int_same _ _ _ (by omega)

@[simp]
theorem Prog.ret_bind {α β : Type} (a : α) (f : α → Prog β) :
    (Prog.ret a).bind f = f a := rfl

@[simp]
theorem Prog.ub_bind {α β : Type} (f : α → Prog β) :
    (Prog.ub : Prog α).bind f = Prog.ub := rfl

@[simp]
theorem Prog.sendto_bind {α β : Type} (addr : Nat) (d : List Byte) (k : Int → Prog α)
    (f : α → Prog β) :
    (Prog.sendto addr d k).bind f = Prog.sendto addr d (fun r => (k r).bind f) := rfl

@[simp]
theorem Prog.recvfrom_bind {α β : Type} (len : Nat)
    (k : Option (List Byte × Nat) → Prog α) (f : α → Prog β) :
    (Prog.recvfrom len k).bind f = Prog.recvfrom len (fun r => (k r).bind f) := rfl

@[simp]
theorem Prog.bind_ret {α : Type} (x : Prog α) : x.bind Prog.ret = x := by
  induction x with
  | ret a => rfl
  | ub => rfl
  | sendto addr d k ih => simp [ih]
  | recvfrom len k ih => simp [ih]

@[simp]
theorem Prog.bind_assoc {α β γ : Type} (x : Prog α) (f : α → Prog β) (h : β → Prog γ) :
    (x.bind f).bind h = x.bind (fun a => (f a).bind h) := by
  induction x with
  | ret a => rfl
  | ub => rfl
  | sendto addr d k ih => simp [ih]
  | recvfrom len k ih => simp [ih]

theorem dpsend_eq (dp : dp_connection) (sbuff : List Byte) (n : Int) (g : List Byte)
    (hout : dp.outSockAddr.isAddrInit = true)
    (hn0 : 0 ≤ n) (hn : n ≤ 512) (hs : n.toNat ≤ sbuff.length) (hg : g.length = 532) :
    dpsend dp sbuff n g =
      Prog.sendto dp.outSockAddr.addr ((send_buffer dp sbuff n g).take (20 + n.toNat))
        (fun bytesOut =>
          (dprecvraw { dp with seqNum := toUInt (dp.seqNum + (if n = 0 then 1 else n)) }
            pdu_zero sizeof_dp_pdu).bind
            (fun r => Prog.ret (toInt ((toSizeT bytesOut : Int) - 20), r.2.1,
              send_buffer dp sbuff n g))) := by
  have ht : toSizeT n = n.toNat := toSizeT_of_nonneg n hn0 (by omega)
  obtain ⟨hl, -, -, h12, -⟩ := header_stores g DP_PROTO_VER_1 DP_MT_SND n (toInt dp.seqNum) (by omega)
  have hsb : (send_buffer dp sbuff n g).length = 532 := by
    unfold send_buffer
    rw [store_length]
    · simpa [off_proto_ver, off_mtype, off_dgram_sz, off_seqnum, hg] using hl
    · simp [off_proto_ver, off_mtype, off_dgram_sz, off_seqnum, sizeof_dp_pdu, hl, hg, ht]
      omega
  have hsz : load_int (send_buffer dp sbuff n g) off_dgram_sz = n := by
    unfold send_buffer
    rw [load_int_store_before]
    · simpa [off_proto_ver, off_mtype, off_dgram_sz, off_seqnum, toInt_of_range n (by omega) (by omega)] using h12
    · simp [off_dgram_sz, sizeof_dp_pdu]
    · simp [off_proto_ver, off_mtype, off_dgram_sz, off_seqnum, sizeof_dp_pdu, hl, hg]
  unfold dpsend dpsenddgram
  simp only [dpmaxdgram, DP_MAX_BUFF_SZ, hout]
  have hm : memcpy (store_int (store_int (store_int (store_int g off_proto_ver DP_PROTO_VER_1)
      off_mtype DP_MT_SND) off_dgram_sz n) off_seqnum (toInt dp.seqNum)) sizeof_dp_pdu sbuff 0
      (toSizeT n) = some (send_buffer dp sbuff n g) := by
    unfold memcpy
    rw [if_pos]
    · rfl
    · simp only [off_proto_ver, off_mtype, off_dgram_sz, off_seqnum, sizeof_dp_pdu, hl, hg, ht]
      omega
  have hts : toSizeT (toInt (↑(toSizeT n + sizeof_dp_pdu))) = 20 + n.toNat := by
    rw [ht, toInt_of_range _ (by unfold sizeof_dp_pdu; omega) (by unfold sizeof_dp_pdu; omega),
      toSizeT_of_nonneg _ (by omega) (by unfold sizeof_dp_pdu; omega)]
    unfold sizeof_dp_pdu; omega
  simp only [show ¬ (n > 512) by omega, if_false, Bool.not_true, Bool.false_eq_true, hm, hsz,
    dpsendraw, hout, hts, hsb]
  rw [if_pos (by omega)]
  simp only [Prog.bind_eq, Prog.pure_eq, Prog.sendto_bind, Prog.ret_bind, Prog.bind_assoc, Prog.bind_ret]
  refine congrArg (Prog.sendto _ _) (funext fun bytesOut => ?_)
  by_cases h0 : n = 0
  · simp only [h0, if_true, sizeof_dp_pdu]; rfl
  · simp only [h0, if_false, sizeof_dp_pdu]; rfl

theorem toInt_toInt (x : Int) : toInt (toInt x) = toInt x := by
  unfold toInt; omega

theorem send_buffer_length (dp : dp_connection) (sbuff : List Byte) (n : Int) (g : List Byte)
    (hn0 : 0 ≤ n) (hn : n ≤ 512) (hs : n.toNat ≤ sbuff.length) (hg : g.length = 532) :
    (send_buffer dp sbuff n g).length = 532 := by
  have ht : toSizeT n = n.toNat := toSizeT_of_nonneg n hn0 (by omega)
  obtain ⟨hl, -⟩ := header_stores g DP_PROTO_VER_1 DP_MT_SND n (toInt dp.seqNum) (by omega)
  unfold send_buffer
  rw [store_length]
  · simpa [off_proto_ver, off_mtype, off_dgram_sz, off_seqnum, hg] using hl
  · simp [off_proto_ver, off_mtype, off_dgram_sz, off_seqnum, sizeof_dp_pdu, hl, hg, ht]
    omega

theorem send_buffer_load (dp : dp_connection) (sbuff : List Byte) (n : Int) (g : List Byte)
    (hn0 : 0 ≤ n) (hn : n ≤ 512) (hs : n.toNat ≤ sbuff.length) (hg : g.length = 532)
    (off : Nat) (hoff : off + 4 ≤ 20) :
    load_int ((send_buffer dp sbuff n g).take (20 + n.toNat)) off =
      load_int (store_int (store_int (store_int (store_int g 0 DP_PROTO_VER_1) 4 DP_MT_SND) 12 n)
        8 (toInt dp.seqNum)) off := by
  have hlen := send_buffer_length dp sbuff n g hn0 hn hs hg
  have hl := (header_stores g DP_PROTO_VER_1 DP_MT_SND n (toInt dp.seqNum) (by omega)).1
  rw [load_int_take _ _ _ (by omega) (by omega)]
  unfold send_buffer
  simp only [off_proto_ver, off_mtype, off_dgram_sz, off_seqnum, sizeof_dp_pdu]
  rw [load_int_store_before _ _ _ _ (by omega) (by rw [hl]; omega)]

theorem send_buffer_payload (dp : dp_connection) (sbuff : List Byte) (n : Int) (g : List Byte)
    (hn0 : 0 ≤ n) (hn : n ≤ 512) (hs : n.toNat = sbuff.length) (hg : g.length = 532) :
    ((send_buffer dp sbuff n g).take (20 + n.toNat)).drop 20 = sbuff := by
  have ht : toSizeT n = n.toNat := toSizeT_of_nonneg n hn0 (by omega)
  have hl := (header_stores g DP_PROTO_VER_1 DP_MT_SND n (toInt dp.seqNum) (by omega)).1
  unfold send_buffer store
  simp only [off_proto_ver, off_mtype, off_dgram_sz, off_seqnum, sizeof_dp_pdu, ht]
  rw [List.append_assoc, List.take_append_eq_append_take, List.drop_append_eq_append_drop]
  simp only [hl, hg, List.length_take, List.length_append]
  rw [List.drop_of_length_le (by simp), List.nil_append]
  have e : 20 + n.toNat - min 20 532 = n.toNat := by omega
  have e2 : 20 - min (20 + n.toNat) (min 20 532 + min n.toNat sbuff.length) = 0 := by omega
  simp only [e, e2, List.drop_zero, List.take_append_eq_append_take]
  simp [hs]

/-- The header fields and the payload of the datagram `dpsenddgram` sends. -/
theorem send_buffer_take (dp : dp_connection) (sbuff : List Byte) (n : Int) (g : List Byte)
    (hn0 : 0 ≤ n) (hn : n ≤ 512) (hs : n.toNat = sbuff.length) (hg : g.length = 532) :
    ((send_buffer dp sbuff n g).take (20 + n.toNat)).length = 20 + n.toNat ∧
      (pdu_of_bytes ((send_buffer dp sbuff n g).take (20 + n.toNat))).proto_ver = DP_PROTO_VER_1 ∧
      (pdu_of_bytes ((send_buffer dp sbuff n g).take (20 + n.toNat))).mtype = DP_MT_SND ∧
      (pdu_of_bytes ((send_buffer dp sbuff n g).take (20 + n.toNat))).seqnum = toInt dp.seqNum ∧
      (pdu_of_bytes ((send_buffer dp sbuff n g).take (20 + n.toNat))).dgram_sz = n ∧
      ((send_buffer dp sbuff n g).take (20 + n.toNat)).drop 20 = sbuff := by
  have hlen := send_buffer_length dp sbuff n g hn0 hn (by omega) hg
  have hd : ((send_buffer dp sbuff n g).take (20 + n.toNat)).length = 20 + n.toNat := by
    rw [List.length_take, hlen]; omega
  have hn' := toInt_of_range n (by omega) (by omega)
  have hf := send_buffer_load dp sbuff n g hn0 hn (by omega) hg
  have hp := send_buffer_payload dp sbuff n g hn0 hn hs hg
  clear hn0 hn hs hlen
  obtain ⟨-, h0, h4, h12, h8⟩ :=
    header_stores g DP_PROTO_VER_1 DP_MT_SND n (toInt dp.seqNum) (by rw [hg]; decide)
  refine ⟨hd, ?_, ?_, ?_, ?_, hp⟩
  · show load_int _ 0 = _
    rw [hf 0 (by decide), h0]; rfl
  · show load_int _ 4 = _
    rw [hf 4 (by decide), h4]; rfl
  · show load_int _ 8 = _
    rw [hf 8 (by decide), h8, toInt_toInt]
  · show load_int _ 12 = _
    rw [hf 12 (by decide), h12, hn']

theorem dprecvraw_run (dp : dp_connection) (buff : List Byte) (net : Net)
    (r : Option (List Byte × Nat)) (irest : List (Option (List Byte × Nat)))
    (hb : buff.length = 20) (hin : net.inbox = r :: irest) {β : Type}
    (f : Int × dp_connection × List Byte → Prog β) :
    ∃ rc dp2 buff2 net2, ((dprecvraw dp buff sizeof_dp_pdu).bind f).run net = (f (rc, dp2, buff2)).run net2 ∧
      dp2.seqNum = dp.seqNum ∧ net2.sent = net.sent ∧ net2.sendrc = net.sendrc := by
  unfold dprecvraw
  by_cases h : dp.inSockAddr.isAddrInit = true
  · simp only [h, Bool.not_true, Bool.false_eq_true, if_false, Prog.recvfrom_bind, Prog.run, hin]
    cases r with
    | none => exact ⟨_, _, _, _, rfl, rfl, rfl, rfl⟩
    | some p =>
      obtain ⟨d, src⟩ := p
      have : (List.take (toSizeT ↑sizeof_dp_pdu) d).length ≤ buff.length := by
        rw [hb, List.length_take]
        have : toSizeT ↑sizeof_dp_pdu = 20 := by decide
        omega
      simp only [this, if_true, Prog.pure_eq, Prog.ret_bind]
      exact ⟨_, _, _, _, rfl, rfl, rfl, rfl⟩
  · simp only [h, Bool.not_false, if_true, Prog.pure_eq, Prog.ret_bind]
    exact ⟨_, _, _, _, rfl, rfl, rfl, rfl⟩

/-- A run of `dpsend` with an initialised remote address and at most 512
bytes of data, when `sendto` reports the whole datagram sent. -/
theorem dpsend_run (dp : dp_connection) (data g : List Byte) (net : Net)
    (srest : List Int) (r : Option (List Byte × Nat)) (irest : List (Option (List Byte × Nat)))
    (hout : dp.outSockAddr.isAddrInit = true) (hn : data.length ≤ 512) (hg : g.length = 532)
    (hsend : net.sendrc = (20 + data.length : Int) :: srest) (hin : net.inbox = r :: irest) :
    ∃ dp2 g2 net2 d,
      (dpsend dp data data.length g).run net = Outcome.done ((data.length : Int), dp2, g2) net2 ∧
      net2.sent = net.sent ++ [(dp.outSockAddr.addr, d)] ∧
      d.length = 20 + data.length ∧
      (pdu_of_bytes d).mtype = DP_MT_SND ∧
      (pdu_of_bytes d).dgram_sz = data.length ∧
      (pdu_of_bytes d).seqnum = toInt dp.seqNum ∧
      d.drop 20 = data ∧
      dp2.seqNum = (dp.seqNum + (if data.length = 0 then 1 else data.length)) % 4294967296 := by
  have hn0 : (0 : Int) ≤ data.length := Int.natCast_nonneg _
  have hnat : (data.length : Int).toNat = data.length := Int.toNat_natCast _
  obtain ⟨hd, -, hm, hs, hz, hp⟩ :=
    send_buffer_take dp data data.length g hn0 (by omega) hnat hg
  rw [hnat] at hd hm hs hz hp
  rw [dpsend_eq dp data data.length g hout hn0 (by omega) (by omega) hg]
  simp only [Prog.run, hsend]
  obtain ⟨rc, dp2, b2, net2, hrun, hseq, hsent, -⟩ :=
    dprecvraw_run { dp with seqNum := toUInt (dp.seqNum + (if (data.length : Int) = 0 then 1 else (data.length : Int))) }
      pdu_zero { net with sendrc := srest, sent := net.sent ++ [(dp.outSockAddr.addr,
        (send_buffer dp data data.length g).take (20 + (data.length : Int).toNat))] }
      r irest rfl hin
      (fun r => Prog.ret (toInt ((toSizeT (20 + data.length : Int) : Int) - 20), r.2.1,
        send_buffer dp data data.length g))
  rw [hrun]
  refine ⟨dp2, send_buffer dp data data.length g, net2,
    (send_buffer dp data data.length g).take (20 + data.length), ?_, ?_, hd, hm, hz, hs, hp, ?_⟩
  · simp only [Prog.run]
    have : toInt ((toSizeT (20 + data.length : Int) : Int) - 20) = data.length := by
      rw [toSizeT_of_nonneg _ (by omega) (by omega)]
      rw [toInt_of_range _ (by omega) (by omega)]
      omega
    rw [this]
  · rw [hsent, hnat]
  · rw [hseq]
    show toUInt _ = _
    unfold toUInt
    split_ifs with h0 h1 h1 <;> omega

theorem dprecv_eq (dp : dp_connection) (buff : List Byte) (buff_sz : Int) (g : List Byte)
    (hin : dp.inSockAddr.isAddrInit = true) (hg : g.length = 532) :
    dprecv dp buff buff_sz g = Prog.recvfrom 532 (fun r =>
      match r with
      | none => dprecv_after dp buff g (-1)
      | some (d, src) =>
        dprecv_after (learn_peer dp src) buff (store g 0 (d.take 532)) (toInt (d.take 532).length)) := by
  unfold dprecv dprecvdgram dprecvraw
  have h1 : toSizeT (DP_MAX_DGRAM_SZ : Nat) = 532 := by decide
  simp only [hin, h1, Bool.not_true, Bool.false_eq_true, if_false, Prog.bind_eq, Prog.pure_eq,
    Prog.recvfrom_bind, Prog.bind_assoc, Prog.ret_bind,
    show ¬ (532 > DP_MAX_DGRAM_SZ) by decide]
  refine congrArg (Prog.recvfrom 532) (funext fun r => ?_)
  cases r with
  | none => rfl
  | some p =>
    obtain ⟨d, src⟩ := p
    have hl : (List.take 532 d).length ≤ g.length := by
      rw [hg, List.length_take]; omega
    simp only [hl, if_true, Prog.ret_bind]
    rfl

theorem pdu_of_bytes_store (g d : List Byte) (hd : 20 ≤ d.length) (hg : d.length ≤ g.length) :
    pdu_of_bytes (store g 0 d) = pdu_of_bytes d := by
  have key : ∀ off, off + 4 ≤ 20 → load_int (store g 0 d) off = load_int d off := by
    intro off hoff
    apply load_int_eq_of_take
    · unfold store
      simp only [List.take_zero, List.nil_append]
      rw [List.take_append_of_le_length (by omega)]
    · rw [store_length _ _ _ (by omega)]; omega
  unfold pdu_of_bytes
  rw [key _ (by decide), key _ (by decide), key _ (by decide), key _ (by decide),
    key _ (by decide)]

theorem store_zero_payload (g d : List Byte) (n : Nat) (hd : d.length = 20 + n)
    (hg : d.length ≤ g.length) :
    ((store g 0 d).drop 20).take n = d.drop 20 := by
  unfold store
  simp only [List.take_zero, List.nil_append]
  rw [List.drop_append_of_le_length (by omega), List.take_append_of_le_length (by simp; omega)]
  exact List.take_of_length_le (by simp; omega)

theorem errCode_clean (bytesIn : Int) (p : dp_pdu) (h1 : 20 ≤ bytesIn) (h2 : bytesIn < 4294967296)
    (h3 : p.dgram_sz ≤ 532) :
    dprecvdgram_errCode bytesIn p (DP_MAX_DGRAM_SZ : Nat) = DP_NO_ERROR := by
  unfold dprecvdgram_errCode DP_MAX_DGRAM_SZ sizeof_dp_pdu
  rw [toSizeT_of_nonneg _ (by omega) (by omega)]
  have : ¬ (p.dgram_sz > ((512 + 20 : Nat) : Int)) := by omega
  have h4 : ¬ (bytesIn.toNat < 20) := by omega
  simp only [this, h4, if_false]

theorem pdu_bytes_length (p : dp_pdu) : (pdu_bytes p).length = 20 := rfl

theorem dprecv_after_send (dp : dp_connection) (buff g : List Byte) (n : Nat)
    (hout : dp.outSockAddr.isAddrInit = true) (hg : g.length = 532) (hn : n ≤ 512)
    (hcap : n ≤ buff.length) (hm : (pdu_of_bytes g).mtype = DP_MT_SND)
    (hz : (pdu_of_bytes g).dgram_sz = n) :
    dprecv_after dp buff g (20 + n : Int) =
      Prog.sendto dp.outSockAddr.addr
        (pdu_bytes { proto_ver := DP_PROTO_VER_1, mtype := DP_MT_SNDACK,
                     seqnum := toInt (toUInt (dp.seqNum + (if n = 0 then 1 else n) : Int)),
                     dgram_sz := 0, err_num := DP_NO_ERROR })
        (fun _ => Prog.ret ((n : Int),
          { dp with seqNum := toUInt (dp.seqNum + (if n = 0 then 1 else n) : Int) },
          store buff 0 ((g.drop 20).take n), g)) := by
  have he := errCode_clean (20 + n : Int) (pdu_of_bytes g) (by omega) (by omega) (by omega)
  have hs : dprecvdgram_seqNum dp DP_NO_ERROR (pdu_of_bytes g) =
      { dp with seqNum := toUInt (dp.seqNum + (if n = 0 then 1 else n) : Int) } := by
    unfold dprecvdgram_seqNum
    rw [hz]
    by_cases h0 : n = 0
    · subst h0; simp
    · have : ¬ ((n : Int) = 0) := by omega
      simp only [this, h0, if_false, if_true]
  have hts : toSizeT (sizeof_dp_pdu : Nat) = 20 := by decide
  have hmem : memcpy buff 0 g sizeof_dp_pdu (toSizeT (n : Int)) =
      some (store buff 0 ((g.drop 20).take n)) := by
    rw [toSizeT_of_nonneg _ (by omega) (by omega)]
    unfold memcpy sizeof_dp_pdu
    rw [if_pos (by simp; omega)]
    simp
  unfold dprecv_after
  rw [he, hs]
  unfold dprecvdgram_reply dpsendraw
  simp only [hm, hz, hout, hts, hmem, pdu_bytes_length, Bool.not_true, Bool.false_eq_true, if_false, if_true,
    ne_eq, not_true_eq_false, Prog.bind_eq, Prog.pure_eq, Prog.ret_bind, Prog.sendto_bind, le_refl]
  rw [List.take_of_length_le (by rw [pdu_bytes_length])]
  refine congrArg (Prog.sendto _ _) (funext fun r => ?_)
  by_cases hr : toSizeT r = sizeof_dp_pdu
  · simp only [hr, not_true_eq_false, if_false, Prog.ret_bind]
    have h1 : ¬ ((20 + (n : Int)) = DP_CONNECTION_CLOSED) := by unfold DP_CONNECTION_CLOSED; omega
    rw [if_neg h1, toSizeT_of_nonneg _ (by omega) (by omega)]
    by_cases h0 : n = 0
    · subst h0
      simp [store, sizeof_dp_pdu]
    · rw [if_pos (by unfold sizeof_dp_pdu; omega)]
  · simp only [hr, not_false_eq_true, if_true, Prog.ret_bind]
    rw [if_neg (by decide), if_pos (by decide)]

theorem toUInt_natCast (a : Nat) : toUInt (a : Int) = a % 4294967296 := by
  unfold toUInt; omega

/-- A run of `dprecv` that receives a well-formed SEND datagram. -/
theorem dprecv_run_send (dp : dp_connection) (buff : List Byte) (buff_sz : Int) (g d : List Byte)
    (src n : Nat) (net : Net) (rc : Int) (srest : List Int)
    (irest : List (Option (List Byte × Nat)))
    (hin : dp.inSockAddr.isAddrInit = true) (hg : g.length = 532)
    (hd : d.length = 20 + n) (hn : n ≤ 512) (hcap : n ≤ buff.length)
    (hm : (pdu_of_bytes d).mtype = DP_MT_SND) (hz : (pdu_of_bytes d).dgram_sz = n)
    (hinbox : net.inbox = some (d, src) :: irest) (hsend : net.sendrc = rc :: srest) :
    (dprecv dp buff buff_sz g).run net =
      Outcome.done ((n : Int),
          { learn_peer dp src with
            seqNum := (dp.seqNum + (if n = 0 then 1 else n)) % 4294967296 },
          store buff 0 (d.drop 20), store g 0 d)
        { inbox := irest, sendrc := srest,
          sent := net.sent ++ [(src, pdu_bytes
            { proto_ver := DP_PROTO_VER_1, mtype := DP_MT_SNDACK,
              seqnum := toInt ((dp.seqNum + (if n = 0 then 1 else n)) % 4294967296 : Nat),
              dgram_sz := 0, err_num := DP_NO_ERROR })],
          recvCalls := net.recvCalls + 1 } := by
  have ht : List.take 532 d = d := List.take_of_length_le (by omega)
  have hl : toInt (d.length : Int) = 20 + (n : Int) := by
    rw [toInt_of_range _ (by omega) (by omega), hd]; omega
  have hp := pdu_of_bytes_store g d (by omega) (by omega)
  have hpay := store_zero_payload g d n hd (by omega)
  have hlen : (store g 0 d).length = 532 := by rw [store_length _ _ _ (by omega), hg]
  rw [dprecv_eq dp buff buff_sz g hin hg]
  simp only [Prog.run, hinbox, ht, hl]
  rw [dprecv_after_send (learn_peer dp src) buff (store g 0 d) n rfl hlen hn hcap
    (by rw [hp]; exact hm) (by rw [hp]; exact hz)]
  simp only [Prog.run, hsend, hpay]
  rw [← Nat.cast_add, toUInt_natCast]
  rfl

theorem store_zero_take (buff payload : List Byte) :
    (store buff 0 payload).take payload.length = payload := by
  unfold store
  simp


theorem load_int_pdu_bytes_mtype (p : dp_pdu) : load_int (pdu_bytes p) off_mtype = toInt p.mtype := by
  unfold load_int pdu_bytes off_mtype
  show bytes_int (int_bytes p.mtype ++ _) = _
  exact bytes_int_int_bytes _ _

theorem load_int_pdu_bytes_seqnum (p : dp_pdu) :
    load_int (pdu_bytes p) off_seqnum = toInt p.seqnum := by
  unfold load_int pdu_bytes off_seqnum
  show bytes_int (int_bytes p.seqnum ++ _) = _
  exact bytes_int_int_bytes _ _

theorem pdu_zero_eq : pdu_zero = pdu_bytes ⟨0, 0, 0, 0, 0⟩ := by decide

theorem store_int_pdu_bytes_proto_ver (p : dp_pdu) (x : Int) :
    store_int (pdu_bytes p) off_proto_ver x = pdu_bytes { p with proto_ver := x } := rfl

theorem store_int_pdu_bytes_mtype (p : dp_pdu) (x : Int) :
    store_int (pdu_bytes p) off_mtype x = pdu_bytes { p with mtype := x } := rfl

theorem store_int_pdu_bytes_seqnum (p : dp_pdu) (x : Int) :
    store_int (pdu_bytes p) off_seqnum x = pdu_bytes { p with seqnum := x } := rfl

theorem store_int_pdu_bytes_dgram_sz (p : dp_pdu) (x : Int) :
    store_int (pdu_bytes p) off_dgram_sz x = pdu_bytes { p with dgram_sz := x } := rfl

theorem connect_pdu_bytes (dp : dp_connection) : store_int (store_int (store_int pdu_zero off_mtype DP_MT_CONNECT) off_seqnum
      (toInt dp.seqNum)) off_dgram_sz 0 = pdu_bytes (connect_pdu dp) := by
  rw [pdu_zero_eq, store_int_pdu_bytes_mtype, store_int_pdu_bytes_seqnum, store_int_pdu_bytes_dgram_sz]
  rfl

theorem dpconnect_eq (dp : dp_connection) (hout : dp.outSockAddr.isAddrInit = true)
    (hin : dp.inSockAddr.isAddrInit = true) :
    dpconnect dp = Prog.sendto dp.outSockAddr.addr (pdu_bytes (connect_pdu dp))
      (fun sndSz =>
        if toSizeT sndSz ≠ sizeof_dp_pdu then Prog.ret (-1, dp)
        else Prog.recvfrom 20 (fun r =>
          match r with
          | none => Prog.ret (-1, dp)
          | some (d, src) =>
            if toSizeT (toInt (d.take 20).length) ≠ sizeof_dp_pdu then
              Prog.ret (-1, learn_peer dp src)
            else if load_int (store (pdu_bytes (connect_pdu dp)) 0 (d.take 20)) off_mtype
                ≠ DP_MT_CNTACK then
              Prog.ret (-1, learn_peer dp src)
            else
              Prog.ret (1, { learn_peer dp src with
                seqNum := toUInt (dp.seqNum + 1), isConnected := true }))) := by
  have hp := connect_pdu_bytes dp
  have hts : toSizeT (sizeof_dp_pdu : Nat) = 20 := by decide
  have htk : List.take 20 (pdu_bytes (connect_pdu dp)) = pdu_bytes (connect_pdu dp) :=
    List.take_of_length_le (le_of_eq (pdu_bytes_length _))
  unfold dpconnect dpsendraw dprecvraw
  simp only [hout, hin, Bool.not_true, Bool.false_eq_true, if_false]
  simp only [hp, hts, pdu_bytes_length]
  simp only [le_refl, if_true]
  simp only [Prog.bind_eq, Prog.pure_eq, Prog.sendto_bind, Prog.ret_bind, htk]
  refine congrArg (Prog.sendto _ _) (funext fun sndSz => ?_)
  by_cases h1 : toSizeT sndSz = sizeof_dp_pdu
  · simp only [h1, ne_eq, not_true_eq_false, if_false, Prog.recvfrom_bind]
    refine congrArg (Prog.recvfrom _) (funext fun r => ?_)
    cases r with
    | none =>
      simp only [Prog.ret_bind]
      rw [if_pos (by decide)]
    | some p =>
      obtain ⟨d, src⟩ := p
      have hl : (List.take 20 d).length ≤ 20 := by
        rw [List.length_take]; exact Nat.min_le_left _ _
      simp only [hl, if_true]
      rw [Prog.ret_bind]
      dsimp only
      unfold learn_peer
      rfl
  · simp only [h1, ne_eq, not_false_eq_true, if_true]

theorem toSizeT_sizeof : toSizeT (sizeof_dp_pdu : Nat) = 20 := by decide

theorem take20_length_le (d : List Byte) : (List.take 20 d).length ≤ 20 := by
  rw [List.length_take]; exact Nat.min_le_left _ _

theorem toSizeT_toInt_small (k : Nat) (h : k ≤ 20) : toSizeT (toInt (k : Int)) = k := by
  rw [toInt_of_range _ (by omega) (by omega), toSizeT_of_nonneg _ (by omega) (by omega)]
  exact Int.toNat_natCast k

theorem listen_reply_length (pdu : List Byte) (h : pdu.length = 20) :
    (listen_reply pdu).length = 20 := by
  unfold listen_reply
  rw [store_int_length _ _ _ (by rw [store_int_length _ _ _ (by rw [h]; decide), h]; decide),
    store_int_length _ _ _ (by rw [h]; decide), h]

theorem listen_seq_def (pdu : List Byte) :
    toUInt (toInt (load_int (store_int pdu off_mtype DP_MT_CNTACK) off_seqnum + 1)) =
      listen_seq pdu := rfl

theorem listen_reply_def (pdu : List Byte) :
    store_int (store_int pdu off_mtype DP_MT_CNTACK) off_seqnum (toInt (listen_seq pdu)) =
      listen_reply pdu := rfl

theorem dplisten_eq (dp : dp_connection) (hin : dp.inSockAddr.isAddrInit = true) :
    dplisten dp = Prog.recvfrom 20 (fun r =>
      match r with
      | none => Prog.ret (DP_ERROR_GENERAL, dp)
      | some (d, src) =>
        if (d.take 20).length ≠ 20 then
          Prog.ret (DP_ERROR_GENERAL, learn_peer dp src)
        else
          Prog.sendto src (listen_reply (store pdu_zero 0 (d.take 20))) (fun sndSz =>
            if toSizeT sndSz ≠ sizeof_dp_pdu then
              Prog.ret (DP_ERROR_GENERAL,
                { learn_peer dp src with seqNum := listen_seq (store pdu_zero 0 (d.take 20)) })
            else
              Prog.ret (1,
                { learn_peer dp src with
                  seqNum := listen_seq (store pdu_zero 0 (d.take 20)), isConnected := true }))) := by
  unfold dplisten dprecvraw
  simp only [hin, Bool.not_true, Bool.false_eq_true, if_false, toSizeT_sizeof]
  simp only [Prog.bind_eq, Prog.pure_eq, Prog.recvfrom_bind]
  refine congrArg (Prog.recvfrom _) (funext fun r => ?_)
  cases r with
  | none =>
    simp only [Prog.ret_bind]
    rw [if_pos (by decide)]
  | some p =>
    obtain ⟨d, src⟩ := p
    have hl : (List.take 20 d).length ≤ pdu_zero.length := take20_length_le d
    simp only [hl, if_true]
    rw [Prog.ret_bind]
    dsimp only
    rw [toSizeT_toInt_small _ (take20_length_le d)]
    by_cases h20 : (List.take 20 d).length = 20
    · have hlen : (store pdu_zero 0 (List.take 20 d)).length = 20 := by
        rw [store_length _ _ _ (by rw [h20]; decide)]; rfl
      have hrl := listen_reply_length _ hlen
      rw [if_neg (by rw [h20]; decide), if_neg (by rw [h20]; decide)]
      unfold dpsendraw
      dsimp only
      rw [if_neg (by decide)]
      simp only [listen_seq_def, listen_reply_def, toSizeT_sizeof, hrl, le_refl, if_true]
      rw [List.take_of_length_le (le_of_eq hrl)]
      simp only [Prog.sendto_bind, Prog.pure_eq, Prog.ret_bind, learn_peer]
    · rw [if_pos (by unfold sizeof_dp_pdu; exact h20), if_pos h20]
      rfl

theorem close_pdu_bytes (dp : dp_connection) :
    store_int (store_int (store_int (store_int pdu_zero off_proto_ver DP_PROTO_VER_1) off_mtype
      DP_MT_CLOSE) off_seqnum (toInt dp.seqNum)) off_dgram_sz 0 = pdu_bytes (close_pdu dp) := by
  rw [pdu_zero_eq, store_int_pdu_bytes_proto_ver, store_int_pdu_bytes_mtype,
    store_int_pdu_bytes_seqnum, store_int_pdu_bytes_dgram_sz]
  rfl

theorem dpdisconnect_eq (dp : dp_connection) (hout : dp.outSockAddr.isAddrInit = true)
    (hin : dp.inSockAddr.isAddrInit = true) :
    dpdisconnect dp = Prog.sendto dp.outSockAddr.addr (pdu_bytes (close_pdu dp))
      (fun sndSz =>
        if toSizeT sndSz ≠ sizeof_dp_pdu then Prog.ret (DP_ERROR_GENERAL, dp)
        else Prog.recvfrom 20 (fun r =>
          match r with
          | none => Prog.ret (DP_ERROR_GENERAL, dp)
          | some (d, src) =>
            if toSizeT (toInt (d.take 20).length) ≠ sizeof_dp_pdu then
              Prog.ret (DP_ERROR_GENERAL, learn_peer dp src)
            else if load_int (store (pdu_bytes (close_pdu dp)) 0 (d.take 20)) off_mtype
                ≠ DP_MT_CLOSEACK then
              Prog.ret (DP_ERROR_GENERAL, learn_peer dp src)
            else
              Prog.ret (DP_CONNECTION_CLOSED, dpclose (learn_peer dp src)))) := by
  have hp := close_pdu_bytes dp
  have htk : List.take 20 (pdu_bytes (close_pdu dp)) = pdu_bytes (close_pdu dp) :=
    List.take_of_length_le (le_of_eq (pdu_bytes_length _))
  unfold dpdisconnect dpsendraw dprecvraw
  simp only [hout, hin, Bool.not_true, Bool.false_eq_true, if_false]
  simp only [hp, toSizeT_sizeof, pdu_bytes_length]
  simp only [le_refl, if_true]
  simp only [Prog.bind_eq, Prog.pure_eq, Prog.sendto_bind, Prog.ret_bind, htk]
  refine congrArg (Prog.sendto _ _) (funext fun sndSz => ?_)
  by_cases h1 : toSizeT sndSz = sizeof_dp_pdu
  · simp only [h1, ne_eq, not_true_eq_false, if_false, Prog.recvfrom_bind]
    refine congrArg (Prog.recvfrom _) (funext fun r => ?_)
    cases r with
    | none =>
      simp only [Prog.ret_bind]
      rw [if_pos (by decide)]
    | some p =>
      obtain ⟨d, src⟩ := p
      simp only [take20_length_le d, if_true]
      rw [Prog.ret_bind]
      dsimp only
      unfold learn_peer
      rfl
  · simp only [h1, ne_eq, not_false_eq_true, if_true]

/-! ## The network: lemmas -/

theorem Sys.run_succ {α β : Type} (n : Nat) (s s2 : Sys α β) (h : s.step = some s2) :
    Sys.run (n + 1) s = Sys.run n s2 := by
  simp only [Sys.run, h]

theorem Sys.run_of_step_none {α β : Type} (n : Nat) (s : Sys α β) (h : s.step = none) :
    Sys.run n s = s := by
  cases n with
  | zero => rfl
  | succ n => simp only [Sys.run, h]


/-- One request/reply exchange: the client sends `D` and then waits, the
server is waiting and answers `D` with `R`. -/
theorem Sys.exchange {α β : Type} (ca sa : Nat) (hne : ca ≠ sa) (D R : List Byte)
    (kc : Int → Prog α) (len2 : Nat) (kc2 : Option (List Byte × Nat) → Prog α)
    (len1 : Nat) (ks : Option (List Byte × Nat) → Prog β) (ks2 : Int → Prog β)
    (h1 : kc D.length = Prog.recvfrom len2 kc2)
    (h2 : ks (some (D, ca)) = Prog.sendto ca R ks2) (n : Nat) :
    Sys.run (n + 4) ⟨Prog.sendto sa D kc, Prog.recvfrom len1 ks, ca, sa, []⟩ =
      Sys.run n ⟨kc2 (some (R, sa)), ks2 R.length, ca, sa, []⟩ := by
  have hne2 : ¬ (sa = ca) := fun h => hne h.symm
  have s1 : Sys.step (⟨Prog.sendto sa D kc, Prog.recvfrom len1 ks, ca, sa, []⟩ : Sys α β) =
      some ⟨Prog.recvfrom len2 kc2, Prog.recvfrom len1 ks, ca, sa, [⟨ca, sa, D⟩]⟩ := by
    simp only [Sys.step, h1, List.nil_append]
  have s2 : Sys.step (⟨Prog.recvfrom len2 kc2, Prog.recvfrom len1 ks, ca, sa, [⟨ca, sa, D⟩]⟩ :
      Sys α β) = some ⟨Prog.recvfrom len2 kc2, Prog.sendto ca R ks2, ca, sa, []⟩ := by
    simp only [Sys.step, Sys.step_server, take_for, hne2, if_false, if_true, h2]
  have s3 : Sys.step (⟨Prog.recvfrom len2 kc2, Prog.sendto ca R ks2, ca, sa, []⟩ : Sys α β) =
      some ⟨Prog.recvfrom len2 kc2, ks2 R.length, ca, sa, [⟨sa, ca, R⟩]⟩ := by
    simp only [Sys.step, Sys.step_server, take_for, List.nil_append]
  have s4 : Sys.step (⟨Prog.recvfrom len2 kc2, ks2 R.length, ca, sa, [⟨sa, ca, R⟩]⟩ : Sys α β) =
      some ⟨kc2 (some (R, sa)), ks2 R.length, ca, sa, []⟩ := by
    simp only [Sys.step, take_for, if_true]
  rw [show n + 4 = (n + 3) + 1 from rfl, Sys.run_succ _ _ _ s1,
    show n + 3 = (n + 2) + 1 from rfl, Sys.run_succ _ _ _ s2,
    show n + 2 = (n + 1) + 1 from rfl, Sys.run_succ _ _ _ s3, Sys.run_succ _ _ _ s4]

theorem store_whole (b d : List Byte) (hb : b.length = 20) (hd : d.length = 20) :
    store b 0 d = d := by
  unfold store
  rw [List.drop_of_length_le (by omega)]
  simp

theorem toUInt_toInt_succ (x : Int) : toUInt (toInt (toInt x + 1)) = toUInt (x + 1) := by
  unfold toUInt toInt; omega

theorem listen_seq_connect (dp : dp_connection) :
    listen_seq (pdu_bytes (connect_pdu dp)) = toUInt (dp.seqNum + 1) := by
  unfold listen_seq
  rw [store_int_pdu_bytes_mtype, load_int_pdu_bytes_seqnum]
  show toUInt (toInt (toInt (toInt (dp.seqNum : Int)) + 1)) = _
  rw [toInt_toInt, toUInt_toInt_succ]

theorem listen_reply_mtype (pdu : List Byte) (h : pdu.length = 20) :
    load_int (listen_reply pdu) off_mtype = DP_MT_CNTACK := by
  unfold listen_reply store_int
  rw [load_int_store_before _ _ _ _ (by decide)
    (by rw [store_length _ _ _ (by rw [h]; decide), h]; decide)]
  exact load_int_store_int_same _ _ _ (by rw [h]; decide)

/-- The handshake on the network: `dpconnect` against `dplisten`. -/
theorem handshake_run {α β : Type} (cli srv : dp_connection) (ca sa : Nat) (n : Nat)
    (kc : Int × dp_connection → Prog α) (ks : Int × dp_connection → Prog β)
    (hne : ca ≠ sa) (hout : cli.outSockAddr.isAddrInit = true)
    (hin : cli.inSockAddr.isAddrInit = true) (haddr : cli.outSockAddr.addr = sa)
    (hsin : srv.inSockAddr.isAddrInit = true) :
    Sys.run (n + 4) ⟨(dpconnect cli).bind kc, (dplisten srv).bind ks, ca, sa, []⟩ =
      Sys.run n ⟨kc (1, { learn_peer cli sa with
                          seqNum := toUInt (cli.seqNum + 1), isConnected := true }),
                 ks (1, { learn_peer srv ca with
                          seqNum := toUInt (cli.seqNum + 1), isConnected := true }),
                 ca, sa, []⟩ := by
  have hD : (pdu_bytes (connect_pdu cli)).length = 20 := pdu_bytes_length _
  have hDt : List.take 20 (pdu_bytes (connect_pdu cli)) = pdu_bytes (connect_pdu cli) :=
    List.take_of_length_le (le_of_eq hD)
  have hP : store pdu_zero 0 (pdu_bytes (connect_pdu cli)) =
      pdu_bytes (connect_pdu cli) := store_whole _ _ rfl hD
  have hR : (listen_reply (pdu_bytes (connect_pdu cli))).length = 20 :=
    listen_reply_length _ hD
  have hRt : List.take 20 (listen_reply (pdu_bytes (connect_pdu cli))) =
      listen_reply (pdu_bytes (connect_pdu cli)) := List.take_of_length_le (le_of_eq hR)
  have HC : ∃ k1 k2, (dpconnect cli).bind kc = Prog.sendto sa (pdu_bytes (connect_pdu cli)) k1 ∧
      k1 (pdu_bytes (connect_pdu cli)).length = Prog.recvfrom 20 k2 ∧
      k2 (some (listen_reply (pdu_bytes (connect_pdu cli)), sa)) =
        kc (1, { learn_peer cli sa with
                 seqNum := toUInt (cli.seqNum + 1), isConnected := true }) := by
    rw [dpconnect_eq cli hout hin, haddr, Prog.sendto_bind]
    exact ⟨_, _, rfl, by
      dsimp only
      rw [hD, if_neg (by decide), Prog.recvfrom_bind], by
      dsimp only
      rw [hRt, hR, store_whole _ _ hD hR, listen_reply_mtype _ hD]
      rw [if_neg (by decide), if_neg (by decide)]
      rfl⟩
  have HS : ∃ s1 s2, (dplisten srv).bind ks = Prog.recvfrom 20 s1 ∧
      s1 (some (pdu_bytes (connect_pdu cli), ca)) =
        Prog.sendto ca (listen_reply (pdu_bytes (connect_pdu cli))) s2 ∧
      s2 (listen_reply (pdu_bytes (connect_pdu cli))).length =
        ks (1, { learn_peer srv ca with
                 seqNum := toUInt (cli.seqNum + 1), isConnected := true }) := by
    rw [dplisten_eq srv hsin, Prog.recvfrom_bind]
    exact ⟨_, _, rfl, by
      dsimp only
      rw [hDt, hD, hP, if_neg (by decide), Prog.sendto_bind], by
      dsimp only
      rw [hR, listen_seq_connect, if_neg (by decide)]
      rfl⟩
  obtain ⟨k1, k2, e1, e2, e3⟩ := HC
  obtain ⟨s1, s2, f1, f2, f3⟩ := HS
  rw [e1, f1, Sys.exchange ca sa hne _ _ k1 20 k2 20 s1 s2 e2 f2 n, e3, f3]

theorem dprecvraw_eq (dp : dp_connection) (buff : List Byte) (buff_sz : Int)
    (hin : dp.inSockAddr.isAddrInit = true) :
    dprecvraw dp buff buff_sz = Prog.recvfrom (toSizeT buff_sz) (fun r =>
      match r with
      | none => Prog.ret (-1, dp, buff)
      | some (d, src) =>
        if (d.take (toSizeT buff_sz)).length ≤ buff.length then
          Prog.ret (toInt (d.take (toSizeT buff_sz)).length, learn_peer dp src,
            store buff 0 (d.take (toSizeT buff_sz)))
        else Prog.ub) := by
  unfold dprecvraw
  simp only [hin, Bool.not_true, Bool.false_eq_true, if_false]
  rfl

/-- The server side of a data exchange, in stages: `dprecv` waits, answers a
clean SEND datagram `D` with a SEND|ACK, and returns. -/
theorem dprecv_staged {β : Type} (dps : dp_connection) (rbuf gs D : List Byte) (rbuff_sz : Int)
    (ca n : Nat) (ks : Int × dp_connection × List Byte × List Byte → Prog β)
    (hsin : dps.inSockAddr.isAddrInit = true) (hgs : gs.length = 532)
    (hd : D.length = 20 + n) (hn : n ≤ 512) (hcap : n ≤ rbuf.length)
    (hm : (pdu_of_bytes D).mtype = DP_MT_SND) (hz : (pdu_of_bytes D).dgram_sz = n) :
    ∃ s1 s2 R, (dprecv dps rbuf rbuff_sz gs).bind ks = Prog.recvfrom 532 s1 ∧
      s1 (some (D, ca)) = Prog.sendto ca R s2 ∧ R.length = 20 ∧
      ∀ rc, s2 rc = ks ((n : Int),
        { learn_peer dps ca with
          seqNum := toUInt (dps.seqNum + (if n = 0 then 1 else n) : Int) },
        store rbuf 0 (D.drop 20), store gs 0 D) := by
  have ht : List.take 532 D = D := List.take_of_length_le (by omega)
  have hl : toInt (D.length : Int) = 20 + (n : Int) := by
    rw [toInt_of_range _ (by omega) (by omega), hd]; omega
  have hp := pdu_of_bytes_store gs D (by omega) (by omega)
  have hpay := store_zero_payload gs D n hd (by omega)
  have hlen : (store gs 0 D).length = 532 := by rw [store_length _ _ _ (by omega), hgs]
  have hafter := dprecv_after_send (learn_peer dps ca) rbuf (store gs 0 D) n rfl hlen hn hcap
    (by rw [hp]; exact hm) (by rw [hp]; exact hz)
  rw [dprecv_eq dps rbuf rbuff_sz gs hsin hgs, Prog.recvfrom_bind]
  exact ⟨_, _, _, rfl, by
    dsimp only
    rw [ht, hl, hafter, Prog.sendto_bind]
    rfl, pdu_bytes_length _, by
    intro rc
    dsimp only
    rw [Prog.ret_bind, hpay]
    rfl⟩

/-- The client side of a data exchange, in stages: `dpsend` sends the
datagram, waits, and returns whatever 20-byte reply arrives. -/
theorem dpsend_staged {α : Type} (dpc : dp_connection) (c gc : List Byte) (sa : Nat)
    (kc : Int × dp_connection × List Byte → Prog α)
    (hout : dpc.outSockAddr.isAddrInit = true) (hin : dpc.inSockAddr.isAddrInit = true)
    (haddr : dpc.outSockAddr.addr = sa) (hc : c.length ≤ 512) (hgc : gc.length = 532) :
    ∃ k1 k2, (dpsend dpc c c.length gc).bind kc =
        Prog.sendto sa ((send_buffer dpc c c.length gc).take (20 + c.length)) k1 ∧
      k1 ((send_buffer dpc c c.length gc).take (20 + c.length)).length = Prog.recvfrom 20 k2 ∧
      ∀ R, R.length = 20 → k2 (some (R, sa)) = kc ((c.length : Int),
          learn_peer { dpc with seqNum := toUInt (dpc.seqNum +
            (if (c.length : Int) = 0 then 1 else (c.length : Int))) } sa,
          send_buffer dpc c c.length gc) := by
  have hn0 : (0 : Int) ≤ c.length := Int.natCast_nonneg _
  have hnat : (c.length : Int).toNat = c.length := Int.toNat_natCast _
  have hlen := send_buffer_length dpc c c.length gc hn0 (by omega) (by omega) hgc
  have hd : ((send_buffer dpc c c.length gc).take (20 + c.length)).length = 20 + c.length := by
    rw [List.length_take, hlen]; omega
  have hret : toInt ((toSizeT ((20 + c.length : Nat) : Int) : Int) - 20) = c.length := by
    rw [toSizeT_of_nonneg _ (by omega) (by omega), toInt_of_range _ (by omega) (by omega)]
    omega
  rw [dpsend_eq dpc c c.length gc hout hn0 (by omega) (by omega) hgc, haddr, hnat,
    Prog.sendto_bind]
  exact ⟨_, _, rfl, by
    rw [dprecvraw_eq { dpc with seqNum := toUInt (dpc.seqNum +
        (if (c.length : Int) = 0 then 1 else (c.length : Int))) } _ _ hin, toSizeT_sizeof, Prog.recvfrom_bind, Prog.recvfrom_bind], by
    intro R hR
    try dsimp only
    rw [List.take_of_length_le (le_of_eq hR), hR, if_pos (by decide), Prog.ret_bind,
      Prog.ret_bind, hd, hret]⟩

/-- One data exchange on the network: `dpsend` of `c` against `dprecv`. -/
theorem data_exchange {α β : Type} (dpc dps : dp_connection) (c gc gs rbuf : List Byte)
    (rbuff_sz : Int) (ca sa : Nat) (n : Nat)
    (kc : Int × dp_connection × List Byte → Prog α)
    (ks : Int × dp_connection × List Byte × List Byte → Prog β)
    (hne : ca ≠ sa) (hout : dpc.outSockAddr.isAddrInit = true)
    (hin : dpc.inSockAddr.isAddrInit = true) (haddr : dpc.outSockAddr.addr = sa)
    (hsin : dps.inSockAddr.isAddrInit = true)
    (hc : c.length ≤ 512) (hcap : c.length ≤ rbuf.length)
    (hgc : gc.length = 532) (hgs : gs.length = 532) :
    Sys.run (n + 4) ⟨(dpsend dpc c c.length gc).bind kc, (dprecv dps rbuf rbuff_sz gs).bind ks,
        ca, sa, []⟩ =
      Sys.run n ⟨kc ((c.length : Int),
          learn_peer { dpc with seqNum := toUInt (dpc.seqNum +
            (if (c.length : Int) = 0 then 1 else (c.length : Int))) } sa,
          send_buffer dpc c c.length gc),
        ks ((c.length : Int),
          { learn_peer dps ca with
            seqNum := toUInt (dps.seqNum + (if c.length = 0 then 1 else c.length) : Int) },
          store rbuf 0 c,
          store gs 0 ((send_buffer dpc c c.length gc).take (20 + c.length))),
        ca, sa, []⟩ := by
  obtain ⟨k1, k2, e1, e2, e3⟩ := dpsend_staged dpc c gc sa kc hout hin haddr hc hgc
  have hT := send_buffer_take dpc c c.length gc (Int.natCast_nonneg _)
    (Int.ofNat_le.mpr hc) (Int.toNat_natCast _) hgc
  rw [Int.toNat_natCast] at hT
  obtain ⟨hd, -, hm, -, hz, hp⟩ := hT
  obtain ⟨s1, s2, R, f1, f2, hR, f3⟩ := dprecv_staged dps rbuf gs
    ((send_buffer dpc c c.length gc).take (20 + c.length)) rbuff_sz ca c.length ks hsin hgs
    hd hc hcap hm hz
  rw [e1, f1, Sys.exchange ca sa hne _ R k1 20 k2 532 s1 s2 e2 f2 n, e3 R hR, f3, hp]

theorem errCode_clean_close (p : dp_pdu) (h3 : p.dgram_sz = 0) :
    dprecvdgram_errCode 20 p (DP_MAX_DGRAM_SZ : Nat) = DP_NO_ERROR := by
  unfold dprecvdgram_errCode
  rw [h3, if_neg (by decide), if_neg (by decide)]

theorem dprecv_after_close (dp : dp_connection) (buff g : List Byte)
    (hout : dp.outSockAddr.isAddrInit = true)
    (hm : (pdu_of_bytes g).mtype = DP_MT_CLOSE) (hz : (pdu_of_bytes g).dgram_sz = 0) :
    ∃ s2, dprecv_after dp buff g 20 =
      Prog.sendto dp.outSockAddr.addr
        (pdu_bytes { proto_ver := DP_PROTO_VER_1, mtype := DP_MT_CLOSEACK,
                     seqnum := toInt (toUInt (dp.seqNum + 1)),
                     dgram_sz := 0, err_num := DP_NO_ERROR }) s2 ∧
      s2 20 = Prog.ret (DP_CONNECTION_CLOSED,
          dpclose { dp with seqNum := toUInt (dp.seqNum + 1) }, buff, g) := by
  have he := errCode_clean_close (pdu_of_bytes g) hz
  have hs : dprecvdgram_seqNum dp DP_NO_ERROR (pdu_of_bytes g) =
      { dp with seqNum := toUInt (dp.seqNum + 1) } := by
    unfold dprecvdgram_seqNum
    rw [hz, if_pos rfl, if_pos rfl]
  unfold dprecv_after
  rw [he, hs]
  unfold dprecvdgram_reply dpsendraw
  simp only [hm, hout, toSizeT_sizeof, pdu_bytes_length, Bool.not_true, Bool.false_eq_true,
    if_false, if_true, ne_eq, not_true_eq_false, Prog.bind_eq, Prog.pure_eq, Prog.ret_bind,
    Prog.sendto_bind, le_refl]
  rw [if_neg (by decide), List.take_of_length_le (le_of_eq (pdu_bytes_length _))]
  exact ⟨_, rfl, by
    dsimp only
    rw [if_neg (by decide), Prog.ret_bind]
    rfl⟩

theorem load_int_pdu_bytes_dgram_sz (p : dp_pdu) :
    load_int (pdu_bytes p) off_dgram_sz = toInt p.dgram_sz := by
  unfold load_int pdu_bytes off_dgram_sz
  show bytes_int (int_bytes p.dgram_sz ++ _) = _
  exact bytes_int_int_bytes _ _

/-- The closing exchange on the network: `dpdisconnect` against `dprecv`. -/
theorem close_exchange {α β : Type} (dpc dps : dp_connection) (gs rbuf : List Byte)
    (rbuff_sz : Int) (ca sa : Nat) (n : Nat)
    (kc : Int × dp_connection → Prog α)
    (ks : Int × dp_connection × List Byte × List Byte → Prog β)
    (hne : ca ≠ sa) (hout : dpc.outSockAddr.isAddrInit = true)
    (hin : dpc.inSockAddr.isAddrInit = true) (haddr : dpc.outSockAddr.addr = sa)
    (hsin : dps.inSockAddr.isAddrInit = true) (hgs : gs.length = 532) :
    Sys.run (n + 4) ⟨(dpdisconnect dpc).bind kc, (dprecv dps rbuf rbuff_sz gs).bind ks,
        ca, sa, []⟩ =
      Sys.run n ⟨kc (DP_CONNECTION_CLOSED, dpclose (learn_peer dpc sa)),
        ks (DP_CONNECTION_CLOSED,
          dpclose { learn_peer dps ca with seqNum := toUInt (dps.seqNum + 1) },
          rbuf, store gs 0 (pdu_bytes (close_pdu dpc))),
        ca, sa, []⟩ := by
  have hD : (pdu_bytes (close_pdu dpc)).length = 20 := pdu_bytes_length _
  have hDt : List.take 532 (pdu_bytes (close_pdu dpc)) = pdu_bytes (close_pdu dpc) :=
    List.take_of_length_le (by rw [hD]; decide)
  have hps := pdu_of_bytes_store gs (pdu_bytes (close_pdu dpc)) (le_of_eq hD.symm)
    (by rw [hD, hgs]; decide)
  have hm : (pdu_of_bytes (store gs 0 (pdu_bytes (close_pdu dpc)))).mtype = DP_MT_CLOSE := by
    rw [hps]; exact load_int_pdu_bytes_mtype _
  have hz : (pdu_of_bytes (store gs 0 (pdu_bytes (close_pdu dpc)))).dgram_sz = 0 := by
    rw [hps]; exact load_int_pdu_bytes_dgram_sz _
  obtain ⟨t2, g1, g2⟩ := dprecv_after_close (learn_peer dps ca) rbuf
    (store gs 0 (pdu_bytes (close_pdu dpc))) rfl hm hz
  have HS : ∃ s1 s2 R, (dprecv dps rbuf rbuff_sz gs).bind ks = Prog.recvfrom 532 s1 ∧
      s1 (some (pdu_bytes (close_pdu dpc), ca)) = Prog.sendto ca R s2 ∧ R.length = 20 ∧
      load_int R off_mtype = DP_MT_CLOSEACK ∧
      s2 R.length = ks (DP_CONNECTION_CLOSED,
          dpclose { learn_peer dps ca with seqNum := toUInt (dps.seqNum + 1) },
          rbuf, store gs 0 (pdu_bytes (close_pdu dpc))) := by
    rw [dprecv_eq dps rbuf rbuff_sz gs hsin hgs, Prog.recvfrom_bind]
    exact ⟨_, _, _, rfl, by
      dsimp only
      rw [hDt, hD, show toInt ((20 : Nat) : Int) = 20 from rfl, g1, Prog.sendto_bind]
      rfl, pdu_bytes_length _, by rw [load_int_pdu_bytes_mtype]; rfl, by
      dsimp only
      rw [pdu_bytes_length, Nat.cast_ofNat, g2, Prog.ret_bind]
      rfl⟩
  obtain ⟨s1, s2, R, f1, f2, hR, hRm, f3⟩ := HS
  have HC : ∃ k1 k2, (dpdisconnect dpc).bind kc = Prog.sendto sa (pdu_bytes (close_pdu dpc)) k1 ∧
      k1 (pdu_bytes (close_pdu dpc)).length = Prog.recvfrom 20 k2 ∧
      k2 (some (R, sa)) = kc (DP_CONNECTION_CLOSED, dpclose (learn_peer dpc sa)) := by
    rw [dpdisconnect_eq dpc hout hin, haddr, Prog.sendto_bind]
    exact ⟨_, _, rfl, by
      try dsimp only
      rw [hD, if_neg (by decide), Prog.recvfrom_bind], by
      try dsimp only
      rw [List.take_of_length_le (le_of_eq hR), hR, store_whole _ _ hD hR, hRm]
      rw [if_neg (by decide), if_neg (by decide)]
      rfl⟩
  obtain ⟨k1, k2, e1, e2, e3⟩ := HC
  rw [e1, f1, Sys.exchange ca sa hne _ R k1 20 k2 532 s1 s2 e2 f2 n, e3, f3]

theorem server_loop_while_succ (fuel : Nat) (dpc : dp_connection) (rBuff : List Byte)
    (rbuff_sz : Int) (dpBuffer : List Byte) (f : List (List Byte)) :
    server_loop_while (fuel + 1) dpc rBuff rbuff_sz dpBuffer f =
      (dprecv dpc rBuff rbuff_sz dpBuffer).bind (fun r =>
        if r.1 = DP_CONNECTION_CLOSED then
          Prog.ret (Ending.returned DP_CONNECTION_CLOSED, f)
        else if toSizeT r.1 ≤ r.2.2.1.length then
          server_loop_while fuel r.2.1 r.2.2.1 rbuff_sz r.2.2.2 (f ++ [r.2.2.1.take (toSizeT r.1)])
        else Prog.ub) := rfl

theorem start_client_while_cons (dpc : dp_connection) (dpBuffer block : List Byte)
    (rest : List (List Byte)) :
    start_client_while dpc dpBuffer (block :: rest) =
      (dpsend dpc block block.length dpBuffer).bind (fun r =>
        start_client_while r.2.1 r.2.2 rest) := rfl

theorem toSizeT_natCast_small (k : Nat) (h : k ≤ 512) : toSizeT (k : Int) = k := by
  rw [toSizeT_of_nonneg _ (by omega) (by omega)]
  exact Int.toNat_natCast k

/-- The data phase on the network: one exchange per block. -/
theorem transfer_run {α : Type} (ca sa : Nat) (hne : ca ≠ sa) (rbuff_sz : Int)
    (chunks : List (List Byte)) :
    (∀ c ∈ chunks, c.length ≤ 512) →
    ∀ (dpc dps : dp_connection) (gc gs rbuf : List Byte) (f : List (List Byte)) (fuel n : Nat)
      (kc : dp_connection × List Byte → Prog α),
      dpc.outSockAddr.isAddrInit = true → dpc.inSockAddr.isAddrInit = true →
      dpc.outSockAddr.addr = sa → dps.inSockAddr.isAddrInit = true →
      gc.length = 532 → gs.length = 532 → rbuf.length = 512 →
      ∃ (dpc2 dps2 : dp_connection) (gc2 gs2 rbuf2 : List Byte),
        dpc2.outSockAddr.isAddrInit = true ∧ dpc2.inSockAddr.isAddrInit = true ∧
        dpc2.outSockAddr.addr = sa ∧ dps2.inSockAddr.isAddrInit = true ∧
        gs2.length = 532 ∧
        Sys.run (n + 4 * chunks.length)
            ⟨(start_client_while dpc gc chunks).bind kc,
             server_loop_while (fuel + chunks.length) dps rbuf rbuff_sz gs f, ca, sa, []⟩ =
          Sys.run n ⟨kc (dpc2, gc2),
             server_loop_while fuel dps2 rbuf2 rbuff_sz gs2 (f ++ chunks), ca, sa, []⟩ := by
  induction chunks with
  | nil =>
    intro _ dpc dps gc gs rbuf f fuel n kc h1 h2 h3 h4 _ h6 _
    exact ⟨dpc, dps, gc, gs, rbuf, h1, h2, h3, h4, h6, by
      rw [List.append_nil]; rfl⟩
  | cons c cs ih =>
    intro hch dpc dps gc gs rbuf f fuel n kc h1 h2 h3 h4 h5 h6 h7
    have hc : c.length ≤ 512 := hch c (List.mem_cons_self _ _)
    have hcs : ∀ x ∈ cs, x.length ≤ 512 := fun x hx => hch x (List.mem_cons_of_mem _ hx)
    have hlen5 : (store rbuf 0 c).length = 512 := by
      rw [store_length _ _ _ (by omega), h7]
    have hgs2 : (store gs 0 ((send_buffer dpc c c.length gc).take (20 + c.length))).length
        = 532 := by
      have hl := send_buffer_length dpc c c.length gc (Int.natCast_nonneg _)
        (Int.ofNat_le.mpr hc) (by rw [Int.toNat_natCast]) h5
      rw [store_length _ _ _ (by rw [List.length_take, hl, h6]; omega), h6]
    have hgc2 := send_buffer_length dpc c c.length gc (Int.natCast_nonneg _)
        (Int.ofNat_le.mpr hc) (by rw [Int.toNat_natCast]) h5
    obtain ⟨dpc2, dps2, gc2, gs2, rbuf2, i1, i2, i3, i4, i5, irun⟩ :=
      ih hcs (learn_peer { dpc with seqNum := toUInt (dpc.seqNum +
            (if (c.length : Int) = 0 then 1 else (c.length : Int))) } sa)
        { learn_peer dps ca with
            seqNum := toUInt (dps.seqNum + (if c.length = 0 then 1 else c.length) : Int) }
        (send_buffer dpc c c.length gc)
        (store gs 0 ((send_buffer dpc c c.length gc).take (20 + c.length)))
        (store rbuf 0 c) (f ++ [c]) fuel n kc rfl h2 rfl h4 hgc2 hgs2 hlen5
    refine ⟨dpc2, dps2, gc2, gs2, rbuf2, i1, i2, i3, i4, i5, ?_⟩
    rw [start_client_while_cons, Prog.bind_assoc, List.length_cons,
      show fuel + (cs.length + 1) = (fuel + cs.length) + 1 from rfl, server_loop_while_succ,
      show n + 4 * (cs.length + 1) = (n + 4 * cs.length) + 4 by omega,
      data_exchange dpc dps c gc gs rbuf rbuff_sz ca sa (n + 4 * cs.length) _ _ hne h1 h2 h3 h4
        hc (by omega) h5 h6]
    dsimp only
    have hnc : ¬ ((c.length : Int) = DP_CONNECTION_CLOSED) := by
      unfold DP_CONNECTION_CLOSED; omega
    rw [if_neg hnc, toSizeT_natCast_small _ hc, hlen5, if_pos hc, store_zero_take]
    rw [show f ++ c :: cs = f ++ [c] ++ cs by simp]
    exact irun

theorem Sys.run_done {α β : Type} (n : Nat) (a : α) (b : β) (ca sa : Nat) :
    Sys.run n (⟨Prog.ret a, Prog.ret b, ca, sa, []⟩ : Sys α β) =
      ⟨Prog.ret a, Prog.ret b, ca, sa, []⟩ :=
  Sys.run_of_step_none _ _ rfl

theorem client_main_eq (sock : Int) (servaddr : Nat) (reads : List (List Byte)) :
    client_main sock servaddr reads =
      (dpconnect (dpClientInit sock servaddr)).bind (fun r =>
        if r.1 < 0 then Prog.ret (Ending.exited (-1), none)
        else (start_client r.2 (List.replicate DP_MAX_DGRAM_SZ 0) reads).bind (fun q =>
          Prog.ret (Ending.exited 0, q.1))) := rfl

theorem server_main_eq (fuel : Nat) (sock : Int) (servaddr : Nat) :
    server_main fuel sock servaddr =
      (dplisten (dpServerInit sock servaddr)).bind (fun r =>
        if r.1 < 0 then Prog.ret (Ending.exited (-1), [])
        else server_loop fuel r.2 (List.replicate BUFF_SZ 0) (List.replicate BUFF_SZ 0)
          BUFF_SZ BUFF_SZ (List.replicate DP_MAX_DGRAM_SZ 0)) := rfl

theorem start_client_eq (dpc : dp_connection) (dpBuffer : List Byte) (reads : List (List Byte))
    (h : dpc.isConnected = true) :
    start_client dpc dpBuffer reads =
      (start_client_while dpc dpBuffer reads).bind (fun r =>
        (dpdisconnect r.1).bind (fun q => Prog.ret (some q.1, q.2))) := by
  unfold start_client
  rw [h]
  rfl

/-- The whole transfer on the network, for blocks of at most 512 bytes. -/
theorem transfer_main (sockC sockS : Int) (ca sa : Nat) (chunks : List (List Byte)) (fuel n : Nat)
    (hne : ca ≠ sa) (hch : ∀ c ∈ chunks, c.length ≤ 512) :
    Sys.run (n + 4 * chunks.length + 8)
        ⟨client_main sockC sa chunks, server_main (fuel + chunks.length + 1) sockS sa,
          ca, sa, []⟩ =
      ⟨Prog.ret (Ending.exited 0, some DP_CONNECTION_CLOSED),
       Prog.ret (Ending.returned DP_CONNECTION_CLOSED, chunks), ca, sa, []⟩ := by
  rw [client_main_eq, server_main_eq,
    show n + 4 * chunks.length + 8 = (n + 4 + 4 * chunks.length) + 4 by omega,
    handshake_run (dpClientInit sockC sa) (dpServerInit sockS sa) ca sa _ _ _ hne rfl rfl rfl rfl]
  dsimp only
  rw [if_neg (by decide), if_neg (by decide), start_client_eq _ _ _ rfl, Prog.bind_assoc]
  unfold server_loop
  dsimp only
  rw [if_neg (by decide)]
  obtain ⟨dpc2, dps2, gc2, gs2, rbuf2, i1, i2, i3, i4, i5, irun⟩ :=
    transfer_run ca sa hne (BUFF_SZ : Nat) chunks hch
      { learn_peer (dpClientInit sockC sa) sa with
        seqNum := toUInt ((dpClientInit sockC sa).seqNum + 1), isConnected := true }
      { learn_peer (dpServerInit sockS sa) ca with
        seqNum := toUInt ((dpClientInit sockC sa).seqNum + 1), isConnected := true }
      (List.replicate DP_MAX_DGRAM_SZ 0) (List.replicate DP_MAX_DGRAM_SZ 0)
      (List.replicate BUFF_SZ 0) [] (fuel + 1) (n + 4)
      (fun r => ((dpdisconnect r.1).bind (fun q => Prog.ret (some q.1, q.2))).bind (fun q =>
          Prog.ret (Ending.exited 0, q.1)))
      rfl rfl rfl rfl (List.length_replicate _ _) (List.length_replicate _ _)
      (List.length_replicate _ _)
  rw [show fuel + chunks.length + 1 = fuel + 1 + chunks.length by omega]
  refine Eq.trans ?_ (Eq.trans irun ?_)
  · rfl
  · dsimp only
    rw [List.nil_append, Prog.bind_assoc, server_loop_while_succ,
      close_exchange dpc2 dps2 gs2 rbuf2 (BUFF_SZ : Nat) ca sa n _ _ hne i1 i2 i3 i4 i5]
    dsimp only
    rw [if_pos rfl]
    exact Sys.run_done _ _ _ _ _

/-- The functions of `du-proto.c` with the flag `isConnected` set to an
arbitrary value: the same programs, the flag carried into the result. -/
theorem dpsendraw_flag (dp : dp_connection) (b : Bool) (sbuff : List Byte) (n : Int) :
    dpsendraw { dp with isConnected := b } sbuff n = dpsendraw dp sbuff n := rfl

theorem dprecvraw_flag (dp : dp_connection) (b : Bool) (buff : List Byte) (n : Int) :
    dprecvraw { dp with isConnected := b } buff n =
      (dprecvraw dp buff n).bind fun r =>
        Prog.ret (r.1, { r.2.1 with isConnected := b }, r.2.2) := by
  unfold dprecvraw
  cases dp.inSockAddr.isAddrInit
  · rfl
  · dsimp only [Bool.not_true, Bool.false_eq_true, if_false]
    simp only [Bool.not_true, Bool.false_eq_true, if_false, Prog.recvfrom_bind]
    refine congrArg (Prog.recvfrom _) (funext fun r => ?_)
    cases r with
    | none => rfl
    | some p =>
      dsimp only
      split
      · rfl
      · rfl

theorem dprecvdgram_seqNum_flag (dp : dp_connection) (b : Bool) (e : Int) (p : dp_pdu) :
    dprecvdgram_seqNum { dp with isConnected := b } e p =
      { dprecvdgram_seqNum dp e p with isConnected := b } := by
  unfold dprecvdgram_seqNum
  split
  · split <;> rfl
  · rfl

theorem dprecvdgram_reply_flag (dp : dp_connection) (b : Bool) (e : Int) (p : dp_pdu)
    (bytesIn : Int) :
    dprecvdgram_reply { dp with isConnected := b } e p bytesIn =
      (dprecvdgram_reply dp e p bytesIn).bind fun r =>
        Prog.ret (r.1, { r.2 with isConnected := b }) := by
  unfold dprecvdgram_reply
  simp only [Prog.bind_eq, Prog.pure_eq, Prog.bind_assoc, dpsendraw_flag]
  refine congrArg (Prog.bind _) (funext fun failed => ?_)
  cases failed
  · simp only [Bool.false_eq_true, if_false]
    split
    · simp only [Prog.bind_assoc]
      refine congrArg (Prog.bind _) (funext fun r => ?_)
      split <;> rfl
    · split
      · simp only [Prog.bind_assoc]
        refine congrArg (Prog.bind _) (funext fun r => ?_)
        split <;> rfl
      · rfl
  · rfl

theorem dprecvdgram_flag (dp : dp_connection) (b : Bool) (buff : List Byte) (n : Int) :
    dprecvdgram { dp with isConnected := b } buff n =
      (dprecvdgram dp buff n).bind fun r =>
        Prog.ret (r.1, { r.2.1 with isConnected := b }, r.2.2) := by
  unfold dprecvdgram
  split
  · rfl
  · simp only [Prog.bind_eq, Prog.pure_eq, Prog.bind_assoc, dprecvraw_flag, Prog.ret_bind,
      dprecvdgram_seqNum_flag, dprecvdgram_reply_flag]

theorem dprecv_flag (dp : dp_connection) (b : Bool) (buff : List Byte) (buff_sz : Int)
    (g : List Byte) :
    dprecv { dp with isConnected := b } buff buff_sz g =
      (dprecv dp buff buff_sz g).bind fun r =>
        Prog.ret (r.1, { r.2.1 with isConnected := b }, r.2.2.1, r.2.2.2) := by
  unfold dprecv
  simp only [Prog.bind_eq, Prog.pure_eq, Prog.bind_assoc, dprecvdgram_flag, Prog.ret_bind]
  refine congrArg (Prog.bind _) (funext fun r => ?_)
  split
  · rfl
  · split
    · cases memcpy buff 0 r.2.2 sizeof_dp_pdu (toSizeT (pdu_of_bytes r.2.2).dgram_sz) <;> rfl
    · rfl

theorem dpsenddgram_flag (dp : dp_connection) (b : Bool) (sbuff : List Byte) (n : Int)
    (g : List Byte) :
    dpsenddgram { dp with isConnected := b } sbuff n g =
      (dpsenddgram dp sbuff n g).bind fun r =>
        Prog.ret (r.1, { r.2.1 with isConnected := b }, r.2.2) := by
  unfold dpsenddgram
  split
  · rfl
  · split
    · rfl
    · dsimp only
      generalize memcpy _ _ _ _ _ = m
      cases m with
      | none => rfl
      | some B =>
        simp only [Prog.bind_eq, Prog.pure_eq, Prog.bind_assoc, dpsendraw_flag, Prog.ret_bind]
        refine congrArg (Prog.bind _) (funext fun r => ?_)
        split
        · show (dprecvraw { { dp with seqNum := toUInt (dp.seqNum + 1) } with isConnected := b }
              _ _).bind _ = _
          rw [dprecvraw_flag, Prog.bind_assoc]
          rfl
        · show (dprecvraw { { dp with seqNum := toUInt (dp.seqNum + load_int B off_dgram_sz) } with
              isConnected := b } _ _).bind _ = _
          rw [dprecvraw_flag, Prog.bind_assoc]
          rfl

theorem dpsend_flag (dp : dp_connection) (b : Bool) (sbuff : List Byte) (n : Int)
    (g : List Byte) :
    dpsend { dp with isConnected := b } sbuff n g =
      (dpsend dp sbuff n g).bind fun r =>
        Prog.ret (r.1, { r.2.1 with isConnected := b }, r.2.2) := by
  unfold dpsend
  split
  · rfl
  · simp only [Prog.bind_eq, Prog.pure_eq, Prog.bind_ret, dpsenddgram_flag]

theorem errCode_short (bytesIn : Int) (p : dp_pdu) (h0 : 0 ≤ bytesIn) (h1 : bytesIn < 20)
    (h3 : p.dgram_sz ≤ 532) :
    dprecvdgram_errCode bytesIn p (DP_MAX_DGRAM_SZ : Nat) = DP_ERROR_BAD_DGRAM := by
  unfold dprecvdgram_errCode DP_MAX_DGRAM_SZ sizeof_dp_pdu
  rw [toSizeT_of_nonneg _ (by omega) (by omega)]
  have : ¬ (p.dgram_sz > ((512 + 20 : Nat) : Int)) := by omega
  have h4 : bytesIn.toNat < 20 := by omega
  simp only [this, h4, if_false, if_true]

/-- What `dprecv` does after a datagram shorter than a header was received,
when the `dgram_sz` then found in `_dpBuffer` is in bounds. -/
theorem dprecv_after_short_run (dp : dp_connection) (buff g : List Byte) (bytesIn : Int)
    (net : Net) (rc1 rc2 : Int) (srest : List Int)
    (hout : dp.outSockAddr.isAddrInit = true) (hg : g.length = 532)
    (hb0 : 0 ≤ bytesIn) (hb : bytesIn < 20)
    (hz0 : 0 ≤ (pdu_of_bytes g).dgram_sz) (hz1 : (pdu_of_bytes g).dgram_sz ≤ 512)
    (hzc : (pdu_of_bytes g).dgram_sz ≤ buff.length)
    (hsend : net.sendrc = rc1 :: rc2 :: srest) :
    ∃ rc dp2 buff2 net2 more,
      (dprecv_after dp buff g bytesIn).run net = Outcome.done (rc, dp2, buff2, g) net2 ∧
      dp2.seqNum = toUInt (dp.seqNum + 1) ∧
      net2.sent = net.sent ++ (dp.outSockAddr.addr,
        pdu_bytes { proto_ver := DP_PROTO_VER_1, mtype := DP_MT_ERROR,
                    seqnum := toInt (toUInt (dp.seqNum + 1)), dgram_sz := 0,
                    err_num := DP_ERROR_BAD_DGRAM }) :: more ∧
      net2.inbox = net.inbox := by
  have he := errCode_short bytesIn (pdu_of_bytes g) hb0 hb (by omega)
  have hs : dprecvdgram_seqNum dp DP_ERROR_BAD_DGRAM (pdu_of_bytes g) =
      { dp with seqNum := toUInt (dp.seqNum + 1) } := by
    unfold dprecvdgram_seqNum
    rw [if_neg (by decide)]
  have hzt : toSizeT (pdu_of_bytes g).dgram_sz = ((pdu_of_bytes g).dgram_sz).toNat :=
    toSizeT_of_nonneg _ hz0 (by omega)
  have hmem : ∃ b, memcpy buff 0 g sizeof_dp_pdu (toSizeT (pdu_of_bytes g).dgram_sz) = some b := by
    unfold memcpy sizeof_dp_pdu
    rw [hzt, if_pos (by omega)]
    exact ⟨_, rfl⟩
  obtain ⟨b, hb'⟩ := hmem
  have hbn : ¬ (bytesIn = DP_CONNECTION_CLOSED) := by unfold DP_CONNECTION_CLOSED; omega
  have hbt : ¬ (toSizeT bytesIn > sizeof_dp_pdu) := by
    rw [toSizeT_of_nonneg _ hb0 (by omega)]; unfold sizeof_dp_pdu; omega
  clear hz0 hz1 hzc hzt hb0 hb hg
  unfold dprecv_after
  rw [he, hs]
  unfold dprecvdgram_reply dpsendraw
  simp only [hout, toSizeT_sizeof, pdu_bytes_length, Bool.not_true, Bool.false_eq_true,
    if_false, if_true, ne_eq, Prog.bind_eq, Prog.pure_eq, Prog.ret_bind,
    Prog.sendto_bind, le_refl]
  rw [if_pos (by decide), List.take_of_length_le (le_of_eq (pdu_bytes_length _))]
  simp only [Prog.sendto_bind, Prog.ret_bind, Prog.run, hsend]
  have hpn : ¬ (DP_ERROR_PROTOCOL = DP_CONNECTION_CLOSED) := by decide
  have hpt : toSizeT DP_ERROR_PROTOCOL > sizeof_dp_pdu := by decide
  by_cases h1 : toSizeT rc1 = sizeof_dp_pdu
  · simp only [h1, not_true_eq_false, decide_False, Bool.false_eq_true, if_false]
    by_cases hm : (pdu_of_bytes g).mtype = DP_MT_SND
    · simp only [hm, if_true, Prog.sendto_bind, Prog.run]
      by_cases h2 : toSizeT rc2 = sizeof_dp_pdu
      · simp only [h2, not_true_eq_false, if_false, Prog.ret_bind, hbn, hbt, Prog.run]
        exact ⟨_, _, _, _, _, rfl, rfl, List.append_assoc _ _ _, rfl⟩
      · simp only [h2, not_false_eq_true, if_true, if_false, Prog.ret_bind, hpn, hpt, hb',
          Prog.run]
        exact ⟨_, _, _, _, _, rfl, rfl, List.append_assoc _ _ _, rfl⟩
    · simp only [hm, if_false]
      by_cases hc : (pdu_of_bytes g).mtype = DP_MT_CLOSE
      · simp only [hc, if_true, Prog.sendto_bind, Prog.run]
        by_cases h2 : toSizeT rc2 = sizeof_dp_pdu
        · simp only [h2, not_true_eq_false, if_false, if_true, Prog.ret_bind, Prog.run]
          exact ⟨_, _, _, _, _, rfl, rfl, List.append_assoc _ _ _, rfl⟩
        · simp only [h2, not_false_eq_true, if_true, if_false, Prog.ret_bind, hpn, hpt, hb',
            Prog.run]
          exact ⟨_, _, _, _, _, rfl, rfl, List.append_assoc _ _ _, rfl⟩
      · simp only [hc, if_false, if_true, Prog.ret_bind, hpn, hpt, hb', Prog.run]
        exact ⟨_, _, _, _, [], rfl, rfl, rfl, rfl⟩
  · simp only [h1, not_false_eq_true, decide_True, if_true, if_false, Prog.ret_bind, hpn, hpt,
      hb', Prog.run]
    exact ⟨_, _, _, _, [], rfl, rfl, rfl, rfl⟩

/-! ## The handshake functions against a scripted environment -/

theorem Prog.run_sendto {α : Type} (addr : Nat) (d : List Byte) (k : Int → Prog α)
    (inbox : List (Option (List Byte × Nat))) (rc : Int) (rest : List Int)
    (sent : List (Nat × List Byte)) (calls : Nat) :
    (Prog.sendto addr d k).run ⟨inbox, rc :: rest, sent, calls⟩ =
      (k rc).run ⟨inbox, rest, sent ++ [(addr, d)], calls⟩ := rfl

theorem Prog.run_recvfrom {α : Type} (len : Nat) (k : Option (List Byte × Nat) → Prog α)
    (r : Option (List Byte × Nat)) (rest : List (Option (List Byte × Nat)))
    (sendrc : List Int) (sent : List (Nat × List Byte)) (calls : Nat) :
    (Prog.recvfrom len k).run ⟨r :: rest, sendrc, sent, calls⟩ =
      (k r).run ⟨rest, sendrc, sent, calls + 1⟩ := rfl

theorem take20_full (d : List Byte) (hd : 20 ≤ d.length) : (d.take 20).length = 20 := by
  rw [List.length_take]; exact Nat.min_eq_left hd

theorem reply_header (p d : List Byte) (hp : p.length = 20) (hd : 20 ≤ d.length) (off : Nat)
    (hoff : off + 4 ≤ 20) :
    load_int (store p 0 (d.take 20)) off = load_int d off := by
  rw [store_whole p _ hp (take20_full d hd)]
  exact load_int_take d off 20 hoff (by omega)

theorem full_header_size (d : List Byte) (hd : 20 ≤ d.length) :
    toSizeT (toInt ((d.take 20).length : Int)) = sizeof_dp_pdu := by
  rw [take20_full d hd]; decide

theorem dpconnect_run (dp : dp_connection) (net : Net) (d : List Byte) (src : Nat)
    (srest : List Int) (irest : List (Option (List Byte × Nat)))
    (hout : dp.outSockAddr.isAddrInit = true) (hin : dp.inSockAddr.isAddrInit = true)
    (hd : 20 ≤ d.length)
    (hsend : net.sendrc = 20 :: srest) (hinbox : net.inbox = some (d, src) :: irest) :
    (dpconnect dp).run net =
      Outcome.done
        (if (pdu_of_bytes d).mtype ≠ DP_MT_CNTACK then (-1, learn_peer dp src)
         else (1, { learn_peer dp src with
                    seqNum := toUInt (dp.seqNum + 1), isConnected := true }))
        { inbox := irest, sendrc := srest,
          sent := net.sent ++ [(dp.outSockAddr.addr, pdu_bytes (connect_pdu dp))],
          recvCalls := net.recvCalls + 1 } := by
  obtain ⟨inbox, sendrc, sent, calls⟩ := net
  dsimp only at hsend hinbox
  subst hsend hinbox
  rw [dpconnect_eq dp hout hin, Prog.run_sendto]
  dsimp only
  rw [if_neg (by decide), Prog.run_recvfrom]
  dsimp only
  rw [if_neg (not_not.mpr (full_header_size d hd)),
    reply_header _ d (pdu_bytes_length _) hd off_mtype (by decide)]
  by_cases hm : (pdu_of_bytes d).mtype = DP_MT_CNTACK
  · have hm2 : load_int d off_mtype = DP_MT_CNTACK := hm
    rw [if_neg (not_not.mpr hm2), if_neg (not_not.mpr hm)]
    rfl
  · have hm2 : load_int d off_mtype ≠ DP_MT_CNTACK := hm
    rw [if_pos hm2, if_pos hm]
    rfl

theorem dpconnect_no_remote (dp : dp_connection) (hout : dp.outSockAddr.isAddrInit = false) :
    dpconnect dp = Prog.ret (DP_ERROR_GENERAL, dp) := by
  unfold dpconnect
  rw [hout]
  rfl

theorem dpconnect_no_local (dp : dp_connection) (hout : dp.outSockAddr.isAddrInit = true)
    (hin : dp.inSockAddr.isAddrInit = false) :
    dpconnect dp = Prog.sendto dp.outSockAddr.addr (pdu_bytes (connect_pdu dp))
      (fun _ => Prog.ret (-1, dp)) := by
  have hp := connect_pdu_bytes dp
  have htk : List.take 20 (pdu_bytes (connect_pdu dp)) = pdu_bytes (connect_pdu dp) :=
    List.take_of_length_le (le_of_eq (pdu_bytes_length _))
  unfold dpconnect dpsendraw dprecvraw
  simp only [hout, hin, Bool.not_true, Bool.not_false, Bool.false_eq_true, if_false, if_true]
  simp only [hp, toSizeT_sizeof, pdu_bytes_length]
  simp only [le_refl, if_true]
  simp only [Prog.bind_eq, Prog.pure_eq, Prog.sendto_bind, Prog.ret_bind, htk]
  refine congrArg (Prog.sendto _ _) (funext fun sndSz => ?_)
  by_cases h1 : toSizeT sndSz = sizeof_dp_pdu
  · simp only [h1, ne_eq, not_true_eq_false, if_false]
    rw [if_pos (by decide)]
  · simp only [h1, ne_eq, not_false_eq_true, if_true]

/-- Whatever the session, a full-header reply of another type than CONNECT|ACK
makes `dpconnect` return a negative value and leaves `isConnected` and
`seqNum` as they were. -/
theorem dpconnect_rejects (dp : dp_connection) (net : Net) (d : List Byte) (src : Nat) (rc : Int)
    (srest : List Int) (irest : List (Option (List Byte × Nat)))
    (hd : 20 ≤ d.length) (hm : (pdu_of_bytes d).mtype ≠ DP_MT_CNTACK)
    (hsend : net.sendrc = rc :: srest) (hinbox : net.inbox = some (d, src) :: irest) :
    ∃ code dp2 net2, (dpconnect dp).run net = Outcome.done (code, dp2) net2 ∧ code < 0 ∧
      dp2.isConnected = dp.isConnected ∧ dp2.seqNum = dp.seqNum := by
  obtain ⟨inbox, sendrc, sent, calls⟩ := net
  dsimp only at hsend hinbox
  subst hsend hinbox
  by_cases hout : dp.outSockAddr.isAddrInit = true
  · by_cases hin : dp.inSockAddr.isAddrInit = true
    · rw [dpconnect_eq dp hout hin, Prog.run_sendto]
      dsimp only
      by_cases h1 : toSizeT rc = sizeof_dp_pdu
      · rw [if_neg (not_not.mpr h1), Prog.run_recvfrom]
        dsimp only
        have hm2 : load_int d off_mtype ≠ DP_MT_CNTACK := hm
        rw [if_neg (not_not.mpr (full_header_size d hd)),
          reply_header _ d (pdu_bytes_length _) hd off_mtype (by decide), if_pos hm2]
        exact ⟨_, _, _, rfl, by decide, rfl, rfl⟩
      · rw [if_pos h1]
        exact ⟨_, _, _, rfl, by decide, rfl, rfl⟩
    · rw [dpconnect_no_local dp hout (by simpa using hin), Prog.run_sendto]
      exact ⟨_, _, _, rfl, by decide, rfl, rfl⟩
  · rw [dpconnect_no_remote dp (by simpa using hout)]
    exact ⟨_, _, _, rfl, by decide, rfl, rfl⟩

theorem toUInt_toInt (x : Int) : toUInt (toInt x) = toUInt x := by
  unfold toUInt toInt; omega

theorem listen_seq_eq (p : List Byte) (hp : p.length = 20) :
    listen_seq p = toUInt (load_int p off_seqnum + 1) := by
  unfold listen_seq store_int
  rw [load_int_store_after _ _ _ _ (by decide) (by rw [hp]; decide), toUInt_toInt]

theorem listen_reply_seqnum (p : List Byte) (hp : p.length = 20) :
    load_int (listen_reply p) off_seqnum = toInt (load_int p off_seqnum + 1) := by
  unfold listen_reply
  rw [load_int_store_int_same _ _ _ (by rw [store_int_length _ _ _ (by rw [hp]; decide), hp]; decide),
    toInt_toInt, listen_seq_eq p hp, toInt_toUInt]

/-- A run of `dplisten` that receives a datagram of at least 20 bytes. -/
theorem dplisten_run (dp : dp_connection) (net : Net) (d : List Byte) (src : Nat) (rc : Int)
    (srest : List Int) (irest : List (Option (List Byte × Nat)))
    (hin : dp.inSockAddr.isAddrInit = true) (hd : 20 ≤ d.length)
    (hinbox : net.inbox = some (d, src) :: irest) (hsend : net.sendrc = rc :: srest) :
    (dplisten dp).run net =
      Outcome.done
        (if toSizeT rc ≠ sizeof_dp_pdu then
          (DP_ERROR_GENERAL, { learn_peer dp src with seqNum := listen_seq (d.take 20) })
         else
          (1, { learn_peer dp src with seqNum := listen_seq (d.take 20), isConnected := true }))
        { inbox := irest, sendrc := srest,
          sent := net.sent ++ [(src, listen_reply (d.take 20))],
          recvCalls := net.recvCalls + 1 } := by
  obtain ⟨inbox, sendrc, sent, calls⟩ := net
  dsimp only at hsend hinbox
  subst hsend hinbox
  rw [dplisten_eq dp hin, Prog.run_recvfrom]
  dsimp only
  rw [if_neg (not_not.mpr (take20_full d hd)),
    store_whole pdu_zero _ rfl (take20_full d hd), Prog.run_sendto]
  by_cases h1 : toSizeT rc = sizeof_dp_pdu
  · rw [if_neg (not_not.mpr h1), if_neg (not_not.mpr h1)]
    rfl
  · rw [if_pos h1, if_pos h1]
    rfl

theorem dpdisconnect_no_remote (dp : dp_connection) (hout : dp.outSockAddr.isAddrInit = false) :
    dpdisconnect dp = Prog.ret (DP_ERROR_GENERAL, dp) := by
  unfold dpdisconnect dpsendraw
  simp only [hout, Bool.not_false, if_true]
  simp only [Prog.bind_eq, Prog.pure_eq, Prog.ret_bind]
  rw [if_pos (by decide)]

theorem dpdisconnect_no_local (dp : dp_connection) (hout : dp.outSockAddr.isAddrInit = true)
    (hin : dp.inSockAddr.isAddrInit = false) :
    dpdisconnect dp = Prog.sendto dp.outSockAddr.addr (pdu_bytes (close_pdu dp))
      (fun _ => Prog.ret (DP_ERROR_GENERAL, dp)) := by
  have hp := close_pdu_bytes dp
  have htk : List.take 20 (pdu_bytes (close_pdu dp)) = pdu_bytes (close_pdu dp) :=
    List.take_of_length_le (le_of_eq (pdu_bytes_length _))
  unfold dpdisconnect dpsendraw dprecvraw
  simp only [hout, hin, Bool.not_true, Bool.not_false, Bool.false_eq_true, if_false, if_true]
  simp only [hp, toSizeT_sizeof, pdu_bytes_length]
  simp only [le_refl, if_true]
  simp only [Prog.bind_eq, Prog.pure_eq, Prog.sendto_bind, Prog.ret_bind, htk]
  refine congrArg (Prog.sendto _ _) (funext fun sndSz => ?_)
  by_cases h1 : toSizeT sndSz = sizeof_dp_pdu
  · simp only [h1, ne_eq, not_true_eq_false, if_false]
    rw [if_pos (by decide)]
  · simp only [h1, ne_eq, not_false_eq_true, if_true]

/-- A run of `dpdisconnect` whose CLOSE PDU is sent in full and that receives
a datagram of at least 20 bytes in reply. -/
theorem dpdisconnect_run (dp : dp_connection) (net : Net) (d : List Byte) (src : Nat)
    (srest : List Int) (irest : List (Option (List Byte × Nat)))
    (hout : dp.outSockAddr.isAddrInit = true) (hin : dp.inSockAddr.isAddrInit = true)
    (hd : 20 ≤ d.length)
    (hsend : net.sendrc = 20 :: srest) (hinbox : net.inbox = some (d, src) :: irest) :
    (dpdisconnect dp).run net =
      Outcome.done
        (if (pdu_of_bytes d).mtype ≠ DP_MT_CLOSEACK then (DP_ERROR_GENERAL, learn_peer dp src)
         else (DP_CONNECTION_CLOSED, dpclose (learn_peer dp src)))
        { inbox := irest, sendrc := srest,
          sent := net.sent ++ [(dp.outSockAddr.addr, pdu_bytes (close_pdu dp))],
          recvCalls := net.recvCalls + 1 } := by
  obtain ⟨inbox, sendrc, sent, calls⟩ := net
  dsimp only at hsend hinbox
  subst hsend hinbox
  rw [dpdisconnect_eq dp hout hin, Prog.run_sendto]
  dsimp only
  rw [if_neg (by decide), Prog.run_recvfrom]
  dsimp only
  rw [if_neg (not_not.mpr (full_header_size d hd)),
    reply_header _ d (pdu_bytes_length _) hd off_mtype (by decide)]
  by_cases hm : (pdu_of_bytes d).mtype = DP_MT_CLOSEACK
  · have hm2 : load_int d off_mtype = DP_MT_CLOSEACK := hm
    rw [if_neg (not_not.mpr hm2), if_neg (not_not.mpr hm)]
    rfl
  · have hm2 : load_int d off_mtype ≠ DP_MT_CLOSEACK := hm
    rw [if_pos hm2, if_pos hm]
    rfl

/-- With an initialised remote address `dpdisconnect` hands exactly one
datagram to `sendto`, the CLOSE PDU, however the call goes on. -/
theorem dpdisconnect_sent (dp : dp_connection) (net : Net) (rc : Int) (srest : List Int)
    (hout : dp.outSockAddr.isAddrInit = true) (hsend : net.sendrc = rc :: srest) :
    (net_of ((dpdisconnect dp).run net)).sent =
      net.sent ++ [(dp.outSockAddr.addr, pdu_bytes (close_pdu dp))] := by
  obtain ⟨inbox, sendrc, sent, calls⟩ := net
  dsimp only at hsend
  subst hsend
  by_cases hin : dp.inSockAddr.isAddrInit = true
  · rw [dpdisconnect_eq dp hout hin, Prog.run_sendto]
    dsimp only
    by_cases h1 : toSizeT rc = sizeof_dp_pdu
    · rw [if_neg (not_not.mpr h1)]
      cases inbox with
      | nil => rfl
      | cons r rest =>
        rw [Prog.run_recvfrom]
        cases r with
        | none => rfl
        | some p =>
          obtain ⟨d, src⟩ := p
          dsimp only
          split_ifs <;> rfl
    · rw [if_pos h1]
      rfl
  · rw [dpdisconnect_no_local dp hout (by simpa using hin), Prog.run_sendto]
    rfl

theorem toInt_succ_toInt (x : Int) : toInt (toInt x + 1) = toInt (x + 1) := by
  unfold toInt; omega

/-! ## Headers with arbitrary fields; `dpsend` whatever the reply -/

theorem load_int_header_append (p : dp_pdu) (l : List Byte) (off : Nat) (hoff : off + 4 ≤ 20) :
    load_int (pdu_bytes p ++ l) off = load_int (pdu_bytes p) off := by
  apply load_int_eq_of_take
  · rw [List.take_append_of_le_length (by rw [pdu_bytes_length]; exact hoff)]
  · rw [List.length_append, pdu_bytes_length]; omega

theorem header_append_mtype (p : dp_pdu) (l : List Byte) :
    (pdu_of_bytes (pdu_bytes p ++ l)).mtype = toInt p.mtype := by
  show load_int (pdu_bytes p ++ l) off_mtype = _
  rw [load_int_header_append p l off_mtype (by decide), load_int_pdu_bytes_mtype]

theorem header_append_dgram_sz (p : dp_pdu) (l : List Byte) :
    (pdu_of_bytes (pdu_bytes p ++ l)).dgram_sz = toInt p.dgram_sz := by
  show load_int (pdu_bytes p ++ l) off_dgram_sz = _
  rw [load_int_header_append p l off_dgram_sz (by decide), load_int_pdu_bytes_dgram_sz]

theorem header_mtype (p : dp_pdu) : (pdu_of_bytes (pdu_bytes p)).mtype = toInt p.mtype :=
  load_int_pdu_bytes_mtype p

theorem toInt_small (n : Nat) (hn : n ≤ 512) : toInt (n : Int) = n :=
  toInt_of_range _ (by omega) (by omega)

theorem send_result (n : Nat) (hn : n ≤ 512) :
    toInt ((toSizeT (20 + (n : Int)) : Int) - 20) = n := by
  rw [toSizeT_of_nonneg _ (by omega) (by omega), toInt_of_range _ (by omega) (by omega)]
  omega

theorem dpsend_no_remote (dp : dp_connection) (sbuff g : List Byte) (n : Int)
    (hout : dp.outSockAddr.isAddrInit = false) (hn : n ≤ 512) :
    dpsend dp sbuff n g = Prog.ret (DP_ERROR_GENERAL, dp, g) := by
  unfold dpsend dpmaxdgram DP_MAX_BUFF_SZ dpsenddgram
  rw [if_neg (by omega), hout]
  rfl

/-- A run of `dpsend` with an initialised remote address: the return value and
the new `seqNum` are fixed before the reply is read. -/
theorem dpsend_run_any_reply (dp : dp_connection) (data g : List Byte)
    (r : Option (List Byte × Nat)) (irest : List (Option (List Byte × Nat))) (rc0 : Int)
    (srest : List Int) (sent : List (Nat × List Byte)) (calls : Nat)
    (hout : dp.outSockAddr.isAddrInit = true) (hn : data.length ≤ 512) (hg : g.length = 532) :
    ∃ dp2 net2,
      (dpsend dp data data.length g).run ⟨r :: irest, rc0 :: srest, sent, calls⟩ =
        Outcome.done (toInt ((toSizeT rc0 : Int) - 20), dp2,
          send_buffer dp data data.length g) net2 ∧
      dp2.seqNum = toUInt (dp.seqNum +
        (if (data.length : Int) = 0 then 1 else (data.length : Int))) := by
  have hn0 : (0 : Int) ≤ data.length := Int.natCast_nonneg _
  have hnat : (data.length : Int).toNat = data.length := Int.toNat_natCast _
  rw [dpsend_eq dp data data.length g hout hn0 (by omega) (by omega) hg, Prog.run_sendto]
  obtain ⟨rc, dp2, b2, net2, hrun, hseq, -, -⟩ :=
    dprecvraw_run { dp with seqNum := toUInt (dp.seqNum +
        (if (data.length : Int) = 0 then 1 else (data.length : Int))) }
      pdu_zero ⟨r :: irest, srest, sent ++ [(dp.outSockAddr.addr,
        (send_buffer dp data data.length g).take (20 + (data.length : Int).toNat))], calls⟩
      r irest rfl rfl
      (fun q => Prog.ret (toInt ((toSizeT rc0 : Int) - 20), q.2.1,
        send_buffer dp data data.length g))
  exact ⟨dp2, net2, hrun, hseq⟩

/-! ## The claims -/

set_option maxRecDepth 100000

/-- C1.  Send/receive round trip: `dpsend` of `data` (at most 512 bytes) on a
session with an initialised remote address hands exactly one datagram to
`sendto`; when that datagram is what the peer's `dprecv` receives, with a
caller buffer of at least `data.length` bytes, `dprecv` returns
`data.length`, the first `data.length` bytes of the buffer are `data`, and
both sessions' `seqNum` have advanced by the same amount modulo `2^32`:
`data.length`, or 1 when `data` is empty. -/
theorem C1_send_recv_round_trip (sender receiver : dp_connection) (data gS gR buf : List Byte)
    (cap : Int) (netS : Net) (srestS : List Int) (reply : Option (List Byte × Nat))
    (irestS : List (Option (List Byte × Nat)))
    (hout : sender.outSockAddr.isAddrInit = true)
    (hinR : receiver.inSockAddr.isAddrInit = true)
    (hlen : data.length ≤ 512) (hcap : data.length ≤ buf.length)
    (hgS : gS.length = 532) (hgR : gR.length = 532)
    (hsendS : netS.sendrc = (20 + data.length : Int) :: srestS)
    (hinS : netS.inbox = reply :: irestS) :
    ∃ rcS dpS gS2 netS2 d,
      (dpsend sender data data.length gS).run netS = Outcome.done (rcS, dpS, gS2) netS2 ∧
      netS2.sent = netS.sent ++ [(sender.outSockAddr.addr, d)] ∧
      dpS.seqNum = (sender.seqNum + (if data.length = 0 then 1 else data.length)) % 4294967296 ∧
      ∀ (netR : Net) (src : Nat) (rcR : Int) (srestR : List Int)
        (irestR : List (Option (List Byte × Nat))),
        netR.inbox = some (d, src) :: irestR → netR.sendrc = rcR :: srestR →
        ∃ dpR buf2 gR2 netR2,
          (dprecv receiver buf cap gR).run netR =
            Outcome.done ((data.length : Int), dpR, buf2, gR2) netR2 ∧
          buf2.take data.length = data ∧
          dpR.seqNum =
            (receiver.seqNum + (if data.length = 0 then 1 else data.length)) % 4294967296 := by
  obtain ⟨dpS, gS2, netS2, d, hrun, hsent, hd, hm, hz, -, hp, hseq⟩ :=
    dpsend_run sender data gS netS srestS reply irestS hout hlen hgS hsendS hinS
  refine ⟨_, dpS, gS2, netS2, d, hrun, hsent, hseq, ?_⟩
  intro netR src rcR srestR irestR hinbox hsendR
  refine ⟨_, _, _, _, dprecv_run_send receiver buf cap gR d src data.length netR rcR srestR irestR
    hinR hgR hd hlen hcap hm hz hinbox hsendR, ?_, rfl⟩
  rw [hp]
  exact store_zero_take buf data

/-- Witness of C1: a 3-byte send from a fresh client session, received by a
fresh server session with a 512-byte buffer. -/
theorem C1_witness :
    ∃ rcS dpS gS2 netS2 d,
      (dpsend (dpClientInit 3 7000) [1, 2, 3] ([1, 2, 3] : List Byte).length
          (List.replicate 532 0)).run ⟨[none], [23], [], 0⟩ = Outcome.done (rcS, dpS, gS2) netS2 ∧
      netS2.sent = [] ++ [((dpClientInit 3 7000).outSockAddr.addr, d)] ∧
      dpS.seqNum = ((dpClientInit 3 7000).seqNum +
        (if ([1, 2, 3] : List Byte).length = 0 then 1 else ([1, 2, 3] : List Byte).length))
          % 4294967296 ∧
      ∃ dpR buf2 gR2 netR2,
        (dprecv (dpServerInit 4 7000) (List.replicate 512 0) 512 (List.replicate 532 0)).run
            ⟨[some (d, 1234)], [20], [], 0⟩ =
          Outcome.done ((([1, 2, 3] : List Byte).length : Int), dpR, buf2, gR2) netR2 ∧
        buf2.take ([1, 2, 3] : List Byte).length = [1, 2, 3] ∧
        dpR.seqNum = ((dpServerInit 4 7000).seqNum +
          (if ([1, 2, 3] : List Byte).length = 0 then 1 else ([1, 2, 3] : List Byte).length))
            % 4294967296 := by
  obtain ⟨rcS, dpS, gS2, netS2, d, h1, h2, h3, h4⟩ :=
    C1_send_recv_round_trip (dpClientInit 3 7000) (dpServerInit 4 7000) [1, 2, 3]
      (List.replicate 532 0) (List.replicate 532 0) (List.replicate 512 0) 512
      ⟨[none], [23], [], 0⟩ [] none [] rfl rfl (by decide) (by decide) (by decide) (by decide)
      rfl rfl
  exact ⟨rcS, dpS, gS2, netS2, d, h1, h2, h3,
    h4 ⟨[some (d, 1234)], [20], [], 0⟩ 1234 20 [] [] rfl rfl⟩

/-- C2.  End-to-end transfer over a network that delivers every datagram
intact and in order: the client runs `dpconnect`, one `dpsend` per block
(each of 1..512 bytes) and `dpdisconnect`; the server runs `dplisten` and then
`dprecv` in a loop, appending what each call returned to a file.  With enough
loop iterations and scheduling steps the system stops with the wire empty,
the blocks the server wrote being exactly the blocks sent, in order (so the
k-th `dprecv` returned the k-th block's length and bytes), the server loop
ended by a `dprecv` that returned `DP_CONNECTION_CLOSED`, and the client's
`dpdisconnect` returned `DP_CONNECTION_CLOSED` too. -/
theorem C2_end_to_end_transfer (sockC sockS : Int) (ca sa : Nat) (chunks : List (List Byte))
    (fuel steps : Nat) (hne : ca ≠ sa)
    (hch : ∀ c ∈ chunks, 1 ≤ c.length ∧ c.length ≤ 512)
    (hfuel : chunks.length + 1 ≤ fuel) (hsteps : 4 * chunks.length + 8 ≤ steps) :
    Sys.run steps ⟨client_main sockC sa chunks, server_main fuel sockS sa, ca, sa, []⟩ =
      ⟨Prog.ret (Ending.exited 0, some DP_CONNECTION_CLOSED),
       Prog.ret (Ending.returned DP_CONNECTION_CLOSED, chunks), ca, sa, []⟩ := by
  obtain ⟨f, rfl⟩ : ∃ f, fuel = f + chunks.length + 1 := ⟨fuel - (chunks.length + 1), by omega⟩
  obtain ⟨n, rfl⟩ : ∃ n, steps = n + 4 * chunks.length + 8 :=
    ⟨steps - (4 * chunks.length + 8), by omega⟩
  exact transfer_main sockC sockS ca sa chunks f n hne (fun c hc => (hch c hc).2)

/-- Witness of C2: two blocks, of 3 and 2 bytes. -/
theorem C2_witness :
    Sys.run 16 ⟨client_main 3 7000 [[1, 2, 3], [4, 5]], server_main 3 4 7000, 1234, 7000, []⟩ =
      ⟨Prog.ret (Ending.exited 0, some DP_CONNECTION_CLOSED),
       Prog.ret (Ending.returned DP_CONNECTION_CLOSED, [[1, 2, 3], [4, 5]]), 1234, 7000, []⟩ :=
  C2_end_to_end_transfer 3 4 1234 7000 [[1, 2, 3], [4, 5]] 3 16 (by decide) (by decide)
    (by decide) (by decide)

/-- C3.  Agreement invariant: for every initial client sequence number
(`cli.seqNum`), when the CONNECT PDU of `dpconnect` is delivered to `dplisten`
and the reply of `dplisten` is delivered back to `dpconnect`, both calls
return success, both sessions are connected and their `seqNum` are equal. -/
theorem C3_connect_listen_agreement (cli srv : dp_connection) (ca sa steps : Nat)
    (hne : ca ≠ sa) (hout : cli.outSockAddr.isAddrInit = true)
    (hin : cli.inSockAddr.isAddrInit = true) (haddr : cli.outSockAddr.addr = sa)
    (hsin : srv.inSockAddr.isAddrInit = true) (hsteps : 4 ≤ steps) :
    ∃ cli2 srv2,
      Sys.run steps ⟨dpconnect cli, dplisten srv, ca, sa, []⟩ =
        ⟨Prog.ret (1, cli2), Prog.ret (1, srv2), ca, sa, []⟩ ∧
      cli2.isConnected = true ∧ srv2.isConnected = true ∧ cli2.seqNum = srv2.seqNum := by
  obtain ⟨n, rfl⟩ : ∃ n, steps = n + 4 := ⟨steps - 4, by omega⟩
  have h := handshake_run cli srv ca sa n Prog.ret Prog.ret hne hout hin haddr hsin
  rw [Prog.bind_ret, Prog.bind_ret, Sys.run_done] at h
  exact ⟨_, _, h, rfl, rfl, rfl⟩

/-- Witness of C3: the client starts at the largest sequence number. -/
theorem C3_witness :
    ∃ cli2 srv2,
      Sys.run 4 ⟨dpconnect { dpClientInit 3 7000 with seqNum := 4294967295 },
          dplisten (dpServerInit 4 7000), 1234, 7000, []⟩ =
        ⟨Prog.ret (1, cli2), Prog.ret (1, srv2), 1234, 7000, []⟩ ∧
      cli2.isConnected = true ∧ srv2.isConnected = true ∧ cli2.seqNum = srv2.seqNum :=
  C3_connect_listen_agreement { dpClientInit 3 7000 with seqNum := 4294967295 }
    (dpServerInit 4 7000) 1234 7000 4 (by decide) rfl rfl rfl rfl (by decide)

/-- C4.  `dpsend` with an initialised remote address and `n ≤ 512` bytes of
data, when `sendto` transmits the whole datagram: exactly one datagram is
handed to `sendto`; it is `20 + n` bytes long, its header has `mtype = SEND`,
`dgram_sz = n` and `seqnum` = the session's `seqNum` before the call, and the
bytes after the header are the data; `dpsend` returns `n`; and `seqNum` has
advanced by `n` (by 1 when `n = 0`) modulo `2^32`. -/
theorem C4_dpsend_postcondition (dp : dp_connection) (data g : List Byte) (net : Net)
    (srest : List Int) (r : Option (List Byte × Nat)) (irest : List (Option (List Byte × Nat)))
    (hout : dp.outSockAddr.isAddrInit = true) (hn : data.length ≤ 512) (hg : g.length = 532)
    (hsend : net.sendrc = (20 + data.length : Int) :: srest) (hin : net.inbox = r :: irest) :
    ∃ dp2 g2 net2 d,
      (dpsend dp data data.length g).run net = Outcome.done ((data.length : Int), dp2, g2) net2 ∧
      net2.sent = net.sent ++ [(dp.outSockAddr.addr, d)] ∧
      d.length = 20 + data.length ∧
      (pdu_of_bytes d).mtype = DP_MT_SND ∧
      (pdu_of_bytes d).dgram_sz = data.length ∧
      (pdu_of_bytes d).seqnum = toInt dp.seqNum ∧
      d.drop 20 = data ∧
      dp2.seqNum = (dp.seqNum + (if data.length = 0 then 1 else data.length)) % 4294967296 :=
  dpsend_run dp data g net srest r irest hout hn hg hsend hin

/-- Witness of C4: a 3-byte send from a fresh client session. -/
theorem C4_witness :
    ∃ dp2 g2 net2 d,
      (dpsend (dpClientInit 3 7000) [1, 2, 3] ([1, 2, 3] : List Byte).length
          (List.replicate 532 0)).run ⟨[none], [23], [], 0⟩ =
        Outcome.done ((([1, 2, 3] : List Byte).length : Int), dp2, g2) net2 ∧
      net2.sent = [] ++ [((dpClientInit 3 7000).outSockAddr.addr, d)] ∧
      d.length = 20 + ([1, 2, 3] : List Byte).length ∧
      (pdu_of_bytes d).mtype = DP_MT_SND ∧
      (pdu_of_bytes d).dgram_sz = ([1, 2, 3] : List Byte).length ∧
      (pdu_of_bytes d).seqnum = toInt (dpClientInit 3 7000).seqNum ∧
      d.drop 20 = [1, 2, 3] ∧
      dp2.seqNum = ((dpClientInit 3 7000).seqNum +
        (if ([1, 2, 3] : List Byte).length = 0 then 1 else ([1, 2, 3] : List Byte).length))
          % 4294967296 :=
  C4_dpsend_postcondition (dpClientInit 3 7000) [1, 2, 3] (List.replicate 532 0)
    ⟨[none], [23], [], 0⟩ [] none [] rfl (by decide) (by decide) rfl rfl

/-- C5.  `dprecv` on a clean SEND: when the datagram received has exactly
`20 + n` bytes, `mtype = SEND` and `dgram_sz = n`, with `n ≤ 512` and `n` at
most the capacity of the caller's buffer, `dprecv` returns `n`, has advanced
`seqNum` by `n` (by 1 when `n = 0`) modulo `2^32`, has copied the `n` payload
bytes to the start of the caller's buffer and left the rest of it alone, and
has called `sendto` exactly once, with a PDU of `mtype = SEND|ACK`,
`dgram_sz = 0` and `seqnum` = the updated `seqNum`, addressed to the sender. -/
theorem C5_dprecv_clean_send (dp : dp_connection) (buff : List Byte) (buff_sz : Int)
    (g d : List Byte) (src n : Nat) (net : Net) (rc : Int) (srest : List Int)
    (irest : List (Option (List Byte × Nat)))
    (hin : dp.inSockAddr.isAddrInit = true) (hg : g.length = 532)
    (hd : d.length = 20 + n) (hn : n ≤ 512) (hcap : n ≤ buff.length)
    (hm : (pdu_of_bytes d).mtype = DP_MT_SND) (hz : (pdu_of_bytes d).dgram_sz = n)
    (hinbox : net.inbox = some (d, src) :: irest) (hsend : net.sendrc = rc :: srest) :
    (dprecv dp buff buff_sz g).run net =
      Outcome.done ((n : Int),
          { learn_peer dp src with
            seqNum := (dp.seqNum + (if n = 0 then 1 else n)) % 4294967296 },
          d.drop 20 ++ buff.drop n, store g 0 d)
        { inbox := irest, sendrc := srest,
          sent := net.sent ++ [(src, pdu_bytes
            { proto_ver := DP_PROTO_VER_1, mtype := DP_MT_SNDACK,
              seqnum := toInt ((dp.seqNum + (if n = 0 then 1 else n)) % 4294967296 : Nat),
              dgram_sz := 0, err_num := DP_NO_ERROR })],
          recvCalls := net.recvCalls + 1 } := by
  rw [dprecv_run_send dp buff buff_sz g d src n net rc srest irest hin hg hd hn hcap hm hz hinbox
    hsend]
  have : store buff 0 (d.drop 20) = d.drop 20 ++ buff.drop n := by
    unfold store
    simp [hd]
  rw [this]

/-- Witness of C5: a SEND datagram with a 3-byte payload. -/
theorem C5_witness :
    (dprecv (dpServerInit 4 7000) (List.replicate 512 0) 512 (List.replicate 532 0)).run
        ⟨[some (pdu_bytes ⟨1, DP_MT_SND, 0, 3, 0⟩ ++ [7, 8, 9], 1234)], [20], [], 0⟩ =
      Outcome.done (((3 : Nat) : Int),
          { learn_peer (dpServerInit 4 7000) 1234 with
            seqNum := ((dpServerInit 4 7000).seqNum + (if 3 = 0 then 1 else 3)) % 4294967296 },
          (pdu_bytes ⟨1, DP_MT_SND, 0, 3, 0⟩ ++ [7, 8, 9]).drop 20 ++
            (List.replicate 512 0).drop 3,
          store (List.replicate 532 0) 0 (pdu_bytes ⟨1, DP_MT_SND, 0, 3, 0⟩ ++ [7, 8, 9]))
        { inbox := [], sendrc := [],
          sent := [] ++ [(1234, pdu_bytes
            { proto_ver := DP_PROTO_VER_1, mtype := DP_MT_SNDACK,
              seqnum := toInt (((dpServerInit 4 7000).seqNum + (if 3 = 0 then 1 else 3))
                % 4294967296 : Nat),
              dgram_sz := 0, err_num := DP_NO_ERROR })],
          recvCalls := 0 + 1 } :=
  C5_dprecv_clean_send (dpServerInit 4 7000) (List.replicate 512 0) 512 (List.replicate 532 0)
    (pdu_bytes ⟨1, DP_MT_SND, 0, 3, 0⟩ ++ [7, 8, 9]) 1234 3 ⟨[some (pdu_bytes
      ⟨1, DP_MT_SND, 0, 3, 0⟩ ++ [7, 8, 9], 1234)], [20], [], 0⟩ 20 [] [] rfl (by decide)
    (by decide) (by decide) (by decide) (by decide) (by decide) rfl rfl

/-- C6 (code evaluated at the failing input).  A server session receives a
20-byte datagram whose header has `mtype = SEND` and `dgram_sz = -16`: `dprecv`
answers it with a SEND|ACK, does not release the session, and returns `-16`,
which is `DP_CONNECTION_CLOSED`, although the message type is not CLOSE. -/
theorem C6_send_header_returns_closed :
    (pdu_of_bytes (pdu_bytes ⟨1, DP_MT_SND, 0, -16, 0⟩)).mtype = DP_MT_SND ∧
    DP_MT_SND ≠ DP_MT_CLOSE ∧
    (dprecv (dpServerInit 4 7000) (List.replicate 512 0) 512 (List.replicate 532 0)).run
        ⟨[some (pdu_bytes ⟨1, DP_MT_SND, 0, -16, 0⟩, 1234)], [20], [], 0⟩ =
      Outcome.done (DP_CONNECTION_CLOSED,
          { learn_peer (dpServerInit 4 7000) 1234 with seqNum := 4294967280 },
          List.replicate 512 0,
          pdu_bytes ⟨1, DP_MT_SND, 0, -16, 0⟩ ++ List.replicate 512 0)
        ⟨[], [], [(1234, pdu_bytes ⟨1, DP_MT_SNDACK, -16, 0, 0⟩)], 1⟩ := by
  refine ⟨by decide, by decide, ?_⟩
  rfl

/-- C7, as stated, fails in both halves.  A client session that never
connected (`isConnected = false`) performs a `dpsend` that hands a datagram
to `sendto`, waits for a reply and returns 3, not an error code.  A server
session that never listened (`isConnected = false`) performs a `dprecv` that
calls `recvfrom`, answers the SEND datagram it gets with a SEND|ACK through
`sendto` and returns 3, not an error code. -/
theorem C7_counterexample :
    (dpClientInit 3 7000).isConnected = false ∧
    (dpsend (dpClientInit 3 7000) [1, 2, 3] 3 (List.replicate 532 0)).run
        ⟨[none], [23], [], 0⟩ =
      Outcome.done (3, { dpClientInit 3 7000 with seqNum := 3 },
          pdu_bytes ⟨1, DP_MT_SND, 0, 3, 0⟩ ++ [1, 2, 3] ++ List.replicate 509 0)
        ⟨[], [], [(7000, pdu_bytes ⟨1, DP_MT_SND, 0, 3, 0⟩ ++ [1, 2, 3])], 1⟩ ∧
    (dpServerInit 4 7000).isConnected = false ∧
    (dprecv (dpServerInit 4 7000) (List.replicate 512 0) 512 (List.replicate 532 0)).run
        ⟨[some (pdu_bytes ⟨1, DP_MT_SND, 0, 3, 0⟩ ++ [7, 8, 9], 1234)], [20], [], 0⟩ =
      Outcome.done (3, { learn_peer (dpServerInit 4 7000) 1234 with seqNum := 3 },
          [7, 8, 9] ++ List.replicate 509 0,
          pdu_bytes ⟨1, DP_MT_SND, 0, 3, 0⟩ ++ [7, 8, 9] ++ List.replicate 509 0)
        ⟨[], [], [(1234, pdu_bytes ⟨1, DP_MT_SNDACK, 3, 0, 0⟩)], 1⟩ := by
  refine ⟨rfl, ?_, rfl, ?_⟩
  · rfl
  · rfl

/-- C7, as amended.  The check of `isConnected` is made by the callers in
`du-ftp.c`, not by `dpsend` and `dprecv`.  First, on a session whose flag is
false `start_client` returns before its first `dpsend` and `server_loop`
exits with -1 before its first `dprecv`, and neither makes a `sendto` or a
`recvfrom`.  Second and third, `dpsend` and `dprecv` do not read the flag:
with the flag set to any value `b` they are the same programs, and the
session they return carries `b`.  Fourth, what `dpsend` does check is the
remote address: on a session whose `outSockAddr` is not initialised (as on
the session `dpServerInit` returns) it returns a negative code with the
session and `_dpBuffer` unchanged and without any `sendto` or `recvfrom`. -/
theorem C7_isConnected_checked_by_callers (dp : dp_connection)
    (sbuff buff sBuff g : List Byte) (n buff_sz sbuff_sz : Int) (fuel : Nat)
    (reads : List (List Byte)) (b : Bool) (net : Net) :
    (dp.isConnected = false →
      (start_client dp g reads).run net = Outcome.done (none, dp) net ∧
      (server_loop fuel dp sBuff buff sbuff_sz buff_sz g).run net =
        Outcome.done (Ending.exited (-1), []) net) ∧
    dpsend { dp with isConnected := b } sbuff n g =
      ((dpsend dp sbuff n g).bind fun r =>
        Prog.ret (r.1, { r.2.1 with isConnected := b }, r.2.2)) ∧
    dprecv { dp with isConnected := b } buff buff_sz g =
      ((dprecv dp buff buff_sz g).bind fun r =>
        Prog.ret (r.1, { r.2.1 with isConnected := b }, r.2.2.1, r.2.2.2)) ∧
    (dp.outSockAddr.isAddrInit = false →
      ∃ code, code < 0 ∧ (dpsend dp sbuff n g).run net = Outcome.done (code, dp, g) net) := by
  refine ⟨fun hc => ⟨?_, ?_⟩, dpsend_flag dp b sbuff n g, dprecv_flag dp b buff buff_sz g,
    fun hout => ?_⟩
  · unfold start_client
    rw [hc]
    rfl
  · unfold server_loop
    rw [if_pos hc]
    rfl
  · by_cases h : n > 512
    · refine ⟨DP_BUFF_UNDERSIZED, by decide, ?_⟩
      unfold dpsend dpmaxdgram DP_MAX_BUFF_SZ
      rw [if_pos h]; rfl
    · refine ⟨DP_ERROR_GENERAL, by decide, ?_⟩
      unfold dpsend dpmaxdgram DP_MAX_BUFF_SZ dpsenddgram
      rw [if_neg h, hout]
      rfl

/-- Witness of C7 as amended, on the session `dpServerInit` returns: it is not
connected and has no remote address. -/
theorem C7_witness :
    ((dpServerInit 4 7000).isConnected = false ∧
      (dpServerInit 4 7000).outSockAddr.isAddrInit = false) ∧
    ((start_client (dpServerInit 4 7000) (List.replicate 532 0) [[1, 2, 3]]).run
        ⟨[none], [23], [], 0⟩ =
        Outcome.done (none, dpServerInit 4 7000) ⟨[none], [23], [], 0⟩ ∧
      (server_loop 5 (dpServerInit 4 7000) (List.replicate 512 0) (List.replicate 512 0)
        512 512 (List.replicate 532 0)).run ⟨[none], [23], [], 0⟩ =
        Outcome.done (Ending.exited (-1), []) ⟨[none], [23], [], 0⟩) ∧
    dpsend { dpServerInit 4 7000 with isConnected := true } [1, 2, 3] 3 (List.replicate 532 0) =
      ((dpsend (dpServerInit 4 7000) [1, 2, 3] 3 (List.replicate 532 0)).bind fun r =>
        Prog.ret (r.1, { r.2.1 with isConnected := true }, r.2.2)) ∧
    dprecv { dpServerInit 4 7000 with isConnected := true } (List.replicate 512 0) 512
        (List.replicate 532 0) =
      ((dprecv (dpServerInit 4 7000) (List.replicate 512 0) 512 (List.replicate 532 0)).bind
        fun r => Prog.ret (r.1, { r.2.1 with isConnected := true }, r.2.2.1, r.2.2.2)) ∧
    (∃ code, code < 0 ∧ (dpsend (dpServerInit 4 7000) [1, 2, 3] 3 (List.replicate 532 0)).run
        ⟨[none], [23], [], 0⟩ =
        Outcome.done (code, dpServerInit 4 7000, List.replicate 532 0) ⟨[none], [23], [], 0⟩) :=
  have T := C7_isConnected_checked_by_callers (dpServerInit 4 7000) [1, 2, 3]
    (List.replicate 512 0) (List.replicate 512 0) (List.replicate 532 0) 3 512 512 5 [[1, 2, 3]]
    true ⟨[none], [23], [], 0⟩
  ⟨⟨rfl, rfl⟩, T.1 rfl, T.2.1, T.2.2.1, T.2.2.2 rfl⟩

/-- C8.  Oversize send is rejected atomically: for a requested length above
512 `dpsend` is a bare `return` of a negative code, so no datagram is sent,
nothing is received and the session and `_dpBuffer` are unchanged; a length
of exactly 512 passes the check (it is handed to `dpsenddgram`, which with an
initialised remote address sends a 532-byte datagram). -/
theorem C8_oversize_send_rejected (dp : dp_connection) (sbuff g : List Byte) (n : Int)
    (net : Net) :
    (512 < n →
      dpsend dp sbuff n g = Prog.ret (DP_BUFF_UNDERSIZED, dp, g) ∧ DP_BUFF_UNDERSIZED < 0 ∧
      (dpsend dp sbuff n g).run net = Outcome.done (DP_BUFF_UNDERSIZED, dp, g) net) ∧
    dpsend dp sbuff 512 g = dpsenddgram dp sbuff 512 g ∧
    (dp.outSockAddr.isAddrInit = true → sbuff.length = 512 → g.length = 532 →
      ∃ k, dpsend dp sbuff 512 g = Prog.sendto dp.outSockAddr.addr
        ((send_buffer dp sbuff 512 g).take 532) k ∧
        ((send_buffer dp sbuff 512 g).take 532).length = 532) := by
  refine ⟨fun h => ?_, ?_, fun hout hs hg => ?_⟩
  · have e : dpsend dp sbuff n g = Prog.ret (DP_BUFF_UNDERSIZED, dp, g) := by
      unfold dpsend dpmaxdgram DP_MAX_BUFF_SZ
      rw [if_pos h]; rfl
    exact ⟨e, by decide, by rw [e]; rfl⟩
  · unfold dpsend dpmaxdgram DP_MAX_BUFF_SZ
    rw [if_neg (by decide)]
    exact Prog.bind_ret _
  · have hl := send_buffer_length dp sbuff 512 g (by decide) (by decide)
      (by rw [hs]; decide) hg
    exact ⟨_, dpsend_eq dp sbuff 512 g hout (by decide) (by decide) (by rw [hs]; decide) hg,
      by rw [List.length_take, hl]; rfl⟩

/-- Witness of C8: 513 bytes are rejected, 512 bytes are sent. -/
theorem C8_witness :
    (dpsend (dpClientInit 3 7000) (List.replicate 512 0) 513 (List.replicate 532 0) =
        Prog.ret (DP_BUFF_UNDERSIZED, dpClientInit 3 7000, List.replicate 532 0) ∧
      DP_BUFF_UNDERSIZED < 0 ∧
      (dpsend (dpClientInit 3 7000) (List.replicate 512 0) 513 (List.replicate 532 0)).run
          ⟨[none], [532], [], 0⟩ =
        Outcome.done (DP_BUFF_UNDERSIZED, dpClientInit 3 7000, List.replicate 532 0)
          ⟨[none], [532], [], 0⟩) ∧
    ∃ k, dpsend (dpClientInit 3 7000) (List.replicate 512 0) 512 (List.replicate 532 0) =
        Prog.sendto (dpClientInit 3 7000).outSockAddr.addr
          ((send_buffer (dpClientInit 3 7000) (List.replicate 512 0) 512
            (List.replicate 532 0)).take 532) k ∧
      ((send_buffer (dpClientInit 3 7000) (List.replicate 512 0) 512
        (List.replicate 532 0)).take 532).length = 532 :=
  ⟨(C8_oversize_send_rejected (dpClientInit 3 7000) (List.replicate 512 0)
      (List.replicate 532 0) 513 ⟨[none], [532], [], 0⟩).1 (by decide),
   (C8_oversize_send_rejected (dpClientInit 3 7000) (List.replicate 512 0)
      (List.replicate 532 0) 513 ⟨[none], [532], [], 0⟩).2.2 rfl (by decide) (by decide)⟩

/-- C9 (code evaluated at the failing input).  `dpsend` of 513 bytes returns
`DP_BUFF_UNDERSIZED` (-4), which is not `DP_BUFF_OVERSIZED` (-8). -/
theorem C9_oversize_code (dp : dp_connection) (sbuff g : List Byte) :
    dpsend dp sbuff 513 g = Prog.ret (DP_BUFF_UNDERSIZED, dp, g) ∧
    DP_BUFF_UNDERSIZED = -4 ∧ DP_BUFF_OVERSIZED = -8 ∧ DP_BUFF_UNDERSIZED ≠ DP_BUFF_OVERSIZED := by
  refine ⟨?_, rfl, rfl, by decide⟩
  unfold dpsend dpmaxdgram DP_MAX_BUFF_SZ
  rw [if_pos (by decide)]; rfl

/-- C10, as stated, fails: a server session with `seqNum = 0` receives a
5-byte datagram; `dprecv` returns 0, not `DP_ERROR_BAD_DGRAM`, and leaves
`seqNum = 1`.  (It has sent an ERROR PDU carrying -32 and then a SEND|ACK.) -/
theorem C10_counterexample :
    (dpServerInit 4 7000).seqNum = 0 ∧ (0 : Int) ≠ DP_ERROR_BAD_DGRAM ∧
    (dprecv (dpServerInit 4 7000) (List.replicate 512 0) 512 (List.replicate 532 0)).run
        ⟨[some ([1, 0, 0, 0, 2], 1234)], [20, 20], [], 0⟩ =
      Outcome.done (0, { learn_peer (dpServerInit 4 7000) 1234 with seqNum := 1 },
          List.replicate 512 0, [1, 0, 0, 0, 2] ++ List.replicate 527 0)
        ⟨[], [], [(1234, pdu_bytes ⟨1, DP_MT_ERROR, 1, 0, DP_ERROR_BAD_DGRAM⟩),
                  (1234, pdu_bytes ⟨1, DP_MT_SNDACK, 1, 0, DP_ERROR_BAD_DGRAM⟩)], 1⟩ := by
  refine ⟨rfl, by decide, ?_⟩
  rfl

/-- C10, as amended.  A datagram shorter than a header (with the `dgram_sz`
then found in `_dpBuffer` between 0 and the smaller of 512 and the caller's
capacity): `dprecv` returns, the first PDU it has sent to the peer is an
ERROR PDU with `err_num = DP_ERROR_BAD_DGRAM`, and the session's `seqNum` is
its value before the call plus 1 modulo `2^32`. -/
theorem C10_short_datagram (dp : dp_connection) (buff g d : List Byte) (buff_sz : Int)
    (src : Nat) (net : Net) (rc1 rc2 : Int) (srest : List Int)
    (irest : List (Option (List Byte × Nat)))
    (hin : dp.inSockAddr.isAddrInit = true) (hg : g.length = 532) (hd : d.length < 20)
    (hz0 : 0 ≤ (pdu_of_bytes (store g 0 d)).dgram_sz)
    (hz1 : (pdu_of_bytes (store g 0 d)).dgram_sz ≤ 512)
    (hzc : (pdu_of_bytes (store g 0 d)).dgram_sz ≤ buff.length)
    (hinbox : net.inbox = some (d, src) :: irest) (hsend : net.sendrc = rc1 :: rc2 :: srest) :
    ∃ rc dp2 buff2 g2 net2 more,
      (dprecv dp buff buff_sz g).run net = Outcome.done (rc, dp2, buff2, g2) net2 ∧
      dp2.seqNum = (dp.seqNum + 1) % 4294967296 ∧
      net2.sent = net.sent ++ (src,
        pdu_bytes { proto_ver := DP_PROTO_VER_1, mtype := DP_MT_ERROR,
                    seqnum := toInt ((dp.seqNum + 1) % 4294967296 : Nat), dgram_sz := 0,
                    err_num := DP_ERROR_BAD_DGRAM }) :: more := by
  have ht : List.take 532 d = d := List.take_of_length_le (by omega)
  have hl : toInt (d.length : Int) = (d.length : Int) := toInt_of_range _ (by omega) (by omega)
  have hlen : (store g 0 d).length = 532 := by rw [store_length _ _ _ (by omega), hg]
  have hb0 : (0 : Int) ≤ d.length := Int.natCast_nonneg _
  have hb : (d.length : Int) < 20 := by omega
  have hu : toUInt ((dp.seqNum : Int) + 1) = (dp.seqNum + 1) % 4294967296 := by
    rw [← toUInt_natCast]; rfl
  obtain ⟨rc, dp2, buff2, net2, more, h1, h2, h3, -⟩ :=
    dprecv_after_short_run (learn_peer dp src) buff (store g 0 d) d.length
      { net with inbox := irest, recvCalls := net.recvCalls + 1 } rc1 rc2 srest rfl hlen hb0 hb
      hz0 hz1 hzc hsend
  refine ⟨rc, dp2, buff2, store g 0 d, net2, more, ?_, ?_, ?_⟩
  · rw [dprecv_eq dp buff buff_sz g hin hg]
    simp only [Prog.run, hinbox, ht, hl]
    exact h1
  · rw [h2]; exact hu
  · rw [h3, ← hu]; rfl

/-- Witness of C10 as amended: a 5-byte datagram into fresh buffers. -/
theorem C10_witness :
    ∃ rc dp2 buff2 g2 net2 more,
      (dprecv (dpServerInit 4 7000) (List.replicate 512 0) 512 (List.replicate 532 0)).run
          ⟨[some ([1, 0, 0, 0, 2], 1234)], [20, 20], [], 0⟩ =
        Outcome.done (rc, dp2, buff2, g2) net2 ∧
      dp2.seqNum = ((dpServerInit 4 7000).seqNum + 1) % 4294967296 ∧
      net2.sent = [] ++ (1234,
        pdu_bytes { proto_ver := DP_PROTO_VER_1, mtype := DP_MT_ERROR,
                    seqnum := toInt (((dpServerInit 4 7000).seqNum + 1) % 4294967296 : Nat),
                    dgram_sz := 0, err_num := DP_ERROR_BAD_DGRAM }) :: more :=
  C10_short_datagram (dpServerInit 4 7000) (List.replicate 512 0) (List.replicate 532 0)
    [1, 0, 0, 0, 2] 512 1234 ⟨[some ([1, 0, 0, 0, 2], 1234)], [20, 20], [], 0⟩ 20 20 [] [] rfl
    (by decide) (by decide) (by decide) (by decide) (by decide) rfl rfl

/-- C11 (code evaluated at the failing input).  `dprecv` never reads its
`buff_sz` argument.  Called with `buff_sz = 2`, a SEND datagram that declares
and carries 5 payload bytes is acknowledged and `dprecv` returns 5, not
`DP_BUFF_UNDERSIZED`: with a caller object of 512 bytes the bytes at indices
2, 3 and 4 are overwritten, with a caller object of 2 bytes the copy leaves
the object (undefined behaviour). -/
theorem C11_buff_sz_not_enforced :
    (∀ (dp : dp_connection) (buff g : List Byte) (a b : Int),
      dprecv dp buff a g = dprecv dp buff b g) ∧
    (pdu_of_bytes (pdu_bytes ⟨1, DP_MT_SND, 0, 5, 0⟩ ++ [7, 8, 9, 10, 11])).dgram_sz = 5 ∧
    (dprecv (dpServerInit 4 7000) (List.replicate 512 0) 2 (List.replicate 532 0)).run
        ⟨[some (pdu_bytes ⟨1, DP_MT_SND, 0, 5, 0⟩ ++ [7, 8, 9, 10, 11], 1234)], [20], [], 0⟩ =
      Outcome.done (5, { learn_peer (dpServerInit 4 7000) 1234 with seqNum := 5 },
          [7, 8, 9, 10, 11] ++ List.replicate 507 0,
          pdu_bytes ⟨1, DP_MT_SND, 0, 5, 0⟩ ++ [7, 8, 9, 10, 11] ++ List.replicate 507 0)
        ⟨[], [], [(1234, pdu_bytes ⟨1, DP_MT_SNDACK, 5, 0, 0⟩)], 1⟩ ∧
    (dprecv (dpServerInit 4 7000) [0, 0] 2 (List.replicate 532 0)).run
        ⟨[some (pdu_bytes ⟨1, DP_MT_SND, 0, 5, 0⟩ ++ [7, 8, 9, 10, 11], 1234)], [20], [], 0⟩ =
      Outcome.ub ⟨[], [], [(1234, pdu_bytes ⟨1, DP_MT_SNDACK, 5, 0, 0⟩)], 1⟩ := by
  refine ⟨fun _ _ _ _ _ => rfl, by decide, ?_, ?_⟩
  · rfl
  · rfl

/-- C12 (code evaluated at the failing input).  A SEND datagram of 21 bytes
declares `dgram_sz = 5` but carries one payload byte (7); `_dpBuffer` holds
the byte 170 everywhere from earlier use.  `dprecv` acknowledges the datagram,
returns 5 and delivers `7, 170, 170, 170, 170` to the caller: four bytes that
were not part of the datagram. -/
theorem C12_declared_length_not_checked :
    (pdu_bytes ⟨1, DP_MT_SND, 0, 5, 0⟩ ++ ([7] : List Byte)).length = 21 ∧
    (pdu_of_bytes (pdu_bytes ⟨1, DP_MT_SND, 0, 5, 0⟩ ++ [7])).dgram_sz = 5 ∧
    (dprecv (dpServerInit 4 7000) (List.replicate 512 0) 512 (List.replicate 532 170)).run
        ⟨[some (pdu_bytes ⟨1, DP_MT_SND, 0, 5, 0⟩ ++ [7], 1234)], [20], [], 0⟩ =
      Outcome.done (5, { learn_peer (dpServerInit 4 7000) 1234 with seqNum := 5 },
          [7, 170, 170, 170, 170] ++ List.replicate 507 0,
          pdu_bytes ⟨1, DP_MT_SND, 0, 5, 0⟩ ++ [7] ++ List.replicate 511 170)
        ⟨[], [], [(1234, pdu_bytes ⟨1, DP_MT_SNDACK, 5, 0, 0⟩)], 1⟩ := by
  refine ⟨by decide, by decide, ?_⟩
  rfl

/-- C13 (code evaluated at the failing inputs).  After the ERROR PDU the code
goes on to the `switch` on the message type.  A 20-byte CLOSE header that
declares `dgram_sz = 600` (buffer-undersized) is answered by an ERROR PDU and
then a CLOSE|ACK, and the session is released; an 8-byte datagram
(bad-datagram) whose bytes 4..7 read SEND is answered by an ERROR PDU and
then a SEND|ACK. -/
theorem C13_error_reply_then_ack :
    (dprecv (dpServerInit 4 7000) (List.replicate 512 0) 512 (List.replicate 532 0)).run
        ⟨[some (pdu_bytes ⟨1, DP_MT_CLOSE, 0, 600, 0⟩, 1234)], [20, 20], [], 0⟩ =
      Outcome.done (DP_CONNECTION_CLOSED,
          dpclose { learn_peer (dpServerInit 4 7000) 1234 with seqNum := 1 },
          List.replicate 512 0,
          pdu_bytes ⟨1, DP_MT_CLOSE, 0, 600, 0⟩ ++ List.replicate 512 0)
        ⟨[], [], [(1234, pdu_bytes ⟨1, DP_MT_ERROR, 1, 0, DP_BUFF_UNDERSIZED⟩),
                  (1234, pdu_bytes ⟨1, DP_MT_CLOSEACK, 1, 0, DP_BUFF_UNDERSIZED⟩)], 1⟩ ∧
    (dprecv (dpServerInit 4 7000) (List.replicate 512 0) 512 (List.replicate 532 0)).run
        ⟨[some ([1, 0, 0, 0, 2, 0, 0, 0], 1234)], [20, 20], [], 0⟩ =
      Outcome.done (0, { learn_peer (dpServerInit 4 7000) 1234 with seqNum := 1 },
          List.replicate 512 0, [1, 0, 0, 0, 2, 0, 0, 0] ++ List.replicate 524 0)
        ⟨[], [], [(1234, pdu_bytes ⟨1, DP_MT_ERROR, 1, 0, DP_ERROR_BAD_DGRAM⟩),
                  (1234, pdu_bytes ⟨1, DP_MT_SNDACK, 1, 0, DP_ERROR_BAD_DGRAM⟩)], 1⟩ := by
  refine ⟨?_, ?_⟩
  · rfl
  · rfl

/-- C14 (code evaluated at the failing inputs).  A well-formed 20-byte CONNECT
PDU makes `dprecv` return 0, and a well-formed SEND|ACK PDU with a 3-byte
payload makes it return 3 with the payload copied to the caller's buffer;
neither returns `DP_ERROR_PROTOCOL` (-2), and no reply is sent. -/
theorem C14_unexpected_type_not_reported :
    DP_MT_CONNECT ≠ DP_MT_SND ∧ DP_MT_CONNECT ≠ DP_MT_CLOSE ∧
    DP_MT_SNDACK ≠ DP_MT_SND ∧ DP_MT_SNDACK ≠ DP_MT_CLOSE ∧
    (dprecv (dpServerInit 4 7000) (List.replicate 512 0) 512 (List.replicate 532 0)).run
        ⟨[some (pdu_bytes ⟨1, DP_MT_CONNECT, 0, 0, 0⟩, 1234)], [20], [], 0⟩ =
      Outcome.done (0, { learn_peer (dpServerInit 4 7000) 1234 with seqNum := 1 },
          List.replicate 512 0,
          pdu_bytes ⟨1, DP_MT_CONNECT, 0, 0, 0⟩ ++ List.replicate 512 0)
        ⟨[], [20], [], 1⟩ ∧
    (dprecv (dpServerInit 4 7000) (List.replicate 512 0) 512 (List.replicate 532 0)).run
        ⟨[some (pdu_bytes ⟨1, DP_MT_SNDACK, 7, 3, 0⟩ ++ [1, 2, 3], 1234)], [20], [], 0⟩ =
      Outcome.done (3, { learn_peer (dpServerInit 4 7000) 1234 with seqNum := 3 },
          [1, 2, 3] ++ List.replicate 509 0,
          pdu_bytes ⟨1, DP_MT_SNDACK, 7, 3, 0⟩ ++ [1, 2, 3] ++ List.replicate 509 0)
        ⟨[], [20], [], 1⟩ ∧
    (0 : Int) ≠ DP_ERROR_PROTOCOL ∧ (3 : Int) ≠ DP_ERROR_PROTOCOL := by
  refine ⟨by decide, by decide, by decide, by decide, ?_, ?_, by decide, by decide⟩
  · rfl
  · rfl

/-- C15.  `dpconnect` rejects a wrong reply without connecting: for every
session with `isConnected = false`, whatever `sendto` returned for the CONNECT
PDU, when the reply is a full header (20 bytes or more) whose `mtype` is not
CONNECT|ACK, `dpconnect` returns a negative value, `isConnected` is still
false and `seqNum` is unchanged. -/
theorem C15_dpconnect_rejects_wrong_reply (dp : dp_connection) (net : Net) (d : List Byte)
    (src : Nat) (rc : Int) (srest : List Int) (irest : List (Option (List Byte × Nat)))
    (hc : dp.isConnected = false) (hd : 20 ≤ d.length)
    (hm : (pdu_of_bytes d).mtype ≠ DP_MT_CNTACK)
    (hsend : net.sendrc = rc :: srest) (hinbox : net.inbox = some (d, src) :: irest) :
    ∃ code dp2 net2, (dpconnect dp).run net = Outcome.done (code, dp2) net2 ∧ code < 0 ∧
      dp2.isConnected = false ∧ dp2.seqNum = dp.seqNum := by
  obtain ⟨code, dp2, net2, h1, h2, h3, h4⟩ :=
    dpconnect_rejects dp net d src rc srest irest hd hm hsend hinbox
  exact ⟨code, dp2, net2, h1, h2, h3.trans hc, h4⟩

/-- Witness of C15: a fresh client session whose CONNECT is answered by a
SEND|ACK PDU. -/
theorem C15_witness :
    ∃ code dp2 net2,
      (dpconnect (dpClientInit 3 7000)).run
          ⟨[some (pdu_bytes ⟨1, DP_MT_SNDACK, 1, 0, 0⟩, 7000)], [20], [], 0⟩ =
        Outcome.done (code, dp2) net2 ∧ code < 0 ∧
      dp2.isConnected = false ∧ dp2.seqNum = (dpClientInit 3 7000).seqNum :=
  C15_dpconnect_rejects_wrong_reply (dpClientInit 3 7000)
    ⟨[some (pdu_bytes ⟨1, DP_MT_SNDACK, 1, 0, 0⟩, 7000)], [20], [], 0⟩
    (pdu_bytes ⟨1, DP_MT_SNDACK, 1, 0, 0⟩) 7000 20 [] [] rfl (by decide) (by decide) rfl rfl

/-- C16, as stated, fails: a client session with `seqNum = 0` whose CONNECT is
answered by a CONNECT|ACK carrying sequence number 7 ends connected with
`seqNum = 1`, not 7. -/
theorem C16_counterexample :
    (pdu_of_bytes (pdu_bytes ⟨1, DP_MT_CNTACK, 7, 0, 0⟩)).mtype = DP_MT_CNTACK ∧
    (pdu_of_bytes (pdu_bytes ⟨1, DP_MT_CNTACK, 7, 0, 0⟩)).seqnum = 7 ∧
    (dpconnect (dpClientInit 3 7000)).run
        ⟨[some (pdu_bytes ⟨1, DP_MT_CNTACK, 7, 0, 0⟩, 7000)], [20], [], 0⟩ =
      Outcome.done (1, { dpClientInit 3 7000 with seqNum := 1, isConnected := true })
        ⟨[], [], [(7000, pdu_bytes ⟨0, DP_MT_CONNECT, 0, 0, 0⟩)], 1⟩ ∧
    (1 : Nat) ≠ 7 := by
  refine ⟨by decide, by decide, ?_, by decide⟩
  rfl

/-- C16, as amended.  On a session with initialised addresses whose CONNECT
PDU was sent in full, a full-header reply with `mtype = CONNECT|ACK`, whatever
sequence number it carries, makes `dpconnect` return 1 with
`isConnected = true` and `seqNum` = its value before the call plus 1 modulo
`2^32`; that is the replied number when the reply carries the CONNECT's
sequence number plus 1, as the reply of `dplisten` does. -/
theorem C16_dpconnect_increments_own_seqNum (dp : dp_connection) (net : Net) (d : List Byte)
    (src : Nat) (srest : List Int) (irest : List (Option (List Byte × Nat)))
    (hout : dp.outSockAddr.isAddrInit = true) (hin : dp.inSockAddr.isAddrInit = true)
    (hd : 20 ≤ d.length) (hm : (pdu_of_bytes d).mtype = DP_MT_CNTACK)
    (hsend : net.sendrc = 20 :: srest) (hinbox : net.inbox = some (d, src) :: irest) :
    (dpconnect dp).run net =
      Outcome.done (1, { learn_peer dp src with
                         seqNum := (dp.seqNum + 1) % 4294967296, isConnected := true })
        { inbox := irest, sendrc := srest,
          sent := net.sent ++ [(dp.outSockAddr.addr, pdu_bytes (connect_pdu dp))],
          recvCalls := net.recvCalls + 1 } ∧
    ((pdu_of_bytes d).seqnum = toInt ((connect_pdu dp).seqnum + 1) →
      toInt ((dp.seqNum + 1) % 4294967296 : Nat) = (pdu_of_bytes d).seqnum) := by
  have hu : toUInt ((dp.seqNum : Int) + 1) = (dp.seqNum + 1) % 4294967296 := by
    rw [← toUInt_natCast]; rfl
  constructor
  · rw [dpconnect_run dp net d src srest irest hout hin hd hsend hinbox,
      if_neg (not_not.mpr hm), hu]
  · intro hr
    rw [hr, ← hu, toInt_toUInt]
    exact (toInt_succ_toInt _).symm

/-- Witness of C16 as amended: the reply carries 7, the session ends at 1. -/
theorem C16_witness :
    (dpconnect (dpClientInit 3 7000)).run
        ⟨[some (pdu_bytes ⟨1, DP_MT_CNTACK, 7, 0, 0⟩, 7000)], [20], [], 0⟩ =
      Outcome.done (1, { learn_peer (dpClientInit 3 7000) 7000 with
                         seqNum := ((dpClientInit 3 7000).seqNum + 1) % 4294967296,
                         isConnected := true })
        { inbox := [], sendrc := [],
          sent := [] ++ [((dpClientInit 3 7000).outSockAddr.addr,
            pdu_bytes (connect_pdu (dpClientInit 3 7000)))],
          recvCalls := 0 + 1 } :=
  (C16_dpconnect_increments_own_seqNum (dpClientInit 3 7000)
    ⟨[some (pdu_bytes ⟨1, DP_MT_CNTACK, 7, 0, 0⟩, 7000)], [20], [], 0⟩
    (pdu_bytes ⟨1, DP_MT_CNTACK, 7, 0, 0⟩) 7000 [] [] rfl rfl (by decide) (by decide) rfl rfl).1

/-- C17 (code evaluated at the failing input).  A listening session receives
a 20-byte PDU whose `mtype` is SEND, not CONNECT: `dplisten` answers it with a
CONNECT|ACK, sets `isConnected` and returns 1 (success). -/
theorem C17_dplisten_accepts_send :
    (pdu_of_bytes (pdu_bytes ⟨1, DP_MT_SND, 0, 0, 0⟩)).mtype = DP_MT_SND ∧
    DP_MT_SND ≠ DP_MT_CONNECT ∧
    (dpServerInit 4 7000).isConnected = false ∧
    (dplisten (dpServerInit 4 7000)).run
        ⟨[some (pdu_bytes ⟨1, DP_MT_SND, 0, 0, 0⟩, 1234)], [20], [], 0⟩ =
      Outcome.done (1, { learn_peer (dpServerInit 4 7000) 1234 with
                         seqNum := 1, isConnected := true })
        ⟨[], [], [(1234, pdu_bytes ⟨1, DP_MT_CNTACK, 1, 0, 0⟩)], 1⟩ := by
  refine ⟨by decide, by decide, rfl, ?_⟩
  rfl

/-- C18.  `dplisten` handshake: when the PDU received is a full header (20
bytes or more) carrying sequence number `s` (whatever its message type, so in
particular for a CONNECT PDU), `dplisten` sets `seqNum` to `s + 1` (modulo
`2^32`), hands exactly one datagram to `sendto`, addressed to the sender, of
20 bytes with `mtype = CONNECT|ACK` and `seqnum = s + 1`; when `sendto` reports
20 bytes sent it sets `isConnected` and returns 1 (`true`), otherwise it
returns `DP_ERROR_GENERAL` and leaves `isConnected` alone. -/
theorem C18_dplisten_handshake (dp : dp_connection) (net : Net) (d : List Byte) (src : Nat)
    (rc : Int) (srest : List Int) (irest : List (Option (List Byte × Nat)))
    (hin : dp.inSockAddr.isAddrInit = true) (hd : 20 ≤ d.length)
    (hinbox : net.inbox = some (d, src) :: irest) (hsend : net.sendrc = rc :: srest) :
    ∃ code dp2 R,
      (dplisten dp).run net = Outcome.done (code, dp2)
        { inbox := irest, sendrc := srest, sent := net.sent ++ [(src, R)],
          recvCalls := net.recvCalls + 1 } ∧
      dp2.seqNum = toUInt ((pdu_of_bytes d).seqnum + 1) ∧
      R.length = 20 ∧ (pdu_of_bytes R).mtype = DP_MT_CNTACK ∧
      (pdu_of_bytes R).seqnum = toInt ((pdu_of_bytes d).seqnum + 1) ∧
      (rc = 20 → code = 1 ∧ dp2.isConnected = true) ∧
      (toSizeT rc ≠ sizeof_dp_pdu →
        code = DP_ERROR_GENERAL ∧ dp2.isConnected = dp.isConnected) := by
  have h20 := take20_full d hd
  have hs : listen_seq (d.take 20) = toUInt ((pdu_of_bytes d).seqnum + 1) := by
    rw [listen_seq_eq _ h20, load_int_take d off_seqnum 20 (by decide) (by unfold off_seqnum; omega)]
    rfl
  have hr : (pdu_of_bytes (listen_reply (d.take 20))).seqnum =
      toInt ((pdu_of_bytes d).seqnum + 1) := by
    show load_int (listen_reply (d.take 20)) off_seqnum = _
    rw [listen_reply_seqnum _ h20,
      load_int_take d off_seqnum 20 (by decide) (by unfold off_seqnum; omega)]
    rfl
  have hrun := dplisten_run dp net d src rc srest irest hin hd hinbox hsend
  by_cases h1 : toSizeT rc = sizeof_dp_pdu
  · rw [if_neg (not_not.mpr h1)] at hrun
    exact ⟨_, _, _, hrun, hs, listen_reply_length _ h20, listen_reply_mtype _ h20, hr,
      fun _ => ⟨rfl, rfl⟩, fun h => absurd h1 h⟩
  · rw [if_pos h1] at hrun
    exact ⟨_, _, _, hrun, hs, listen_reply_length _ h20, listen_reply_mtype _ h20, hr,
      fun hrc => absurd (by rw [hrc]; decide) h1, fun _ => ⟨rfl, rfl⟩⟩

/-- Witness of C18: a CONNECT PDU carrying sequence number 41, with the reply
sent in full. -/
theorem C18_witness :
    ∃ code dp2 R,
      (dplisten (dpServerInit 4 7000)).run
          ⟨[some (pdu_bytes ⟨0, DP_MT_CONNECT, 41, 0, 0⟩, 1234)], [20], [], 0⟩ =
        Outcome.done (code, dp2)
          { inbox := [], sendrc := [], sent := [] ++ [(1234, R)], recvCalls := 0 + 1 } ∧
      dp2.seqNum =
        toUInt ((pdu_of_bytes (pdu_bytes ⟨0, DP_MT_CONNECT, 41, 0, 0⟩)).seqnum + 1) ∧
      R.length = 20 ∧ (pdu_of_bytes R).mtype = DP_MT_CNTACK ∧
      (pdu_of_bytes R).seqnum =
        toInt ((pdu_of_bytes (pdu_bytes ⟨0, DP_MT_CONNECT, 41, 0, 0⟩)).seqnum + 1) ∧
      (code = 1 ∧ dp2.isConnected = true) := by
  obtain ⟨code, dp2, R, h1, h2, h3, h4, h5, h6, -⟩ :=
    C18_dplisten_handshake (dpServerInit 4 7000)
      ⟨[some (pdu_bytes ⟨0, DP_MT_CONNECT, 41, 0, 0⟩, 1234)], [20], [], 0⟩
      (pdu_bytes ⟨0, DP_MT_CONNECT, 41, 0, 0⟩) 1234 20 [] [] rfl (by decide) rfl rfl
  exact ⟨code, dp2, R, h1, h2, h3, h4, h5, h6 rfl⟩

/-- C19, as stated, fails: on a session whose remote address is not
initialised (a listening session that has not received anything)
`dpdisconnect` hands nothing to `sendto`, receives nothing and returns
`DP_ERROR_GENERAL`, although a CLOSE|ACK is waiting. -/
theorem C19_counterexample :
    (dpdisconnect (dpServerInit 4 7000)).run
        ⟨[some (pdu_bytes ⟨1, DP_MT_CLOSEACK, 0, 0, 0⟩, 1234)], [20], [], 0⟩ =
      Outcome.done (DP_ERROR_GENERAL, dpServerInit 4 7000)
        ⟨[some (pdu_bytes ⟨1, DP_MT_CLOSEACK, 0, 0, 0⟩, 1234)], [20], [], 0⟩ ∧
    DP_ERROR_GENERAL ≠ DP_CONNECTION_CLOSED := by
  refine ⟨?_, by decide⟩
  rfl

/-- C19, as amended.  On a session whose remote address is initialised,
`dpdisconnect` hands exactly one datagram to `sendto`, however the call goes
on: the PDU with `mtype = CLOSE`, `dgram_sz = 0` and `seqnum` = the session's
`seqNum`; and when `sendto` reports 20 bytes sent and the reply received is a
full header with `mtype = CLOSE|ACK`, it returns `DP_CONNECTION_CLOSED`. -/
theorem C19_dpdisconnect_handshake (dp : dp_connection) (net : Net) (rc : Int)
    (srest : List Int)
    (hout : dp.outSockAddr.isAddrInit = true) (hsend : net.sendrc = rc :: srest) :
    ∃ P, (net_of ((dpdisconnect dp).run net)).sent = net.sent ++ [(dp.outSockAddr.addr, P)] ∧
      P.length = 20 ∧ (pdu_of_bytes P).mtype = DP_MT_CLOSE ∧ (pdu_of_bytes P).dgram_sz = 0 ∧
      (pdu_of_bytes P).seqnum = toInt dp.seqNum ∧
      ∀ (d : List Byte) (src : Nat) (irest : List (Option (List Byte × Nat))),
        rc = 20 → dp.inSockAddr.isAddrInit = true → 20 ≤ d.length →
        (pdu_of_bytes d).mtype = DP_MT_CLOSEACK → net.inbox = some (d, src) :: irest →
        ∃ dp2 net2, (dpdisconnect dp).run net = Outcome.done (DP_CONNECTION_CLOSED, dp2) net2 := by
  refine ⟨pdu_bytes (close_pdu dp), dpdisconnect_sent dp net rc srest hout hsend, rfl, ?_, ?_, ?_,
    ?_⟩
  · show load_int (pdu_bytes (close_pdu dp)) off_mtype = _
    rw [load_int_pdu_bytes_mtype]; rfl
  · show load_int (pdu_bytes (close_pdu dp)) off_dgram_sz = _
    rw [load_int_pdu_bytes_dgram_sz]; rfl
  · show load_int (pdu_bytes (close_pdu dp)) off_seqnum = _
    rw [load_int_pdu_bytes_seqnum]
    exact toInt_toInt _
  · intro d src irest hrc hin hd hm hinbox
    subst hrc
    have hrun := dpdisconnect_run dp net d src srest irest hout hin hd hsend hinbox
    rw [if_neg (not_not.mpr hm)] at hrun
    exact ⟨_, _, hrun⟩

/-- Witness of C19 as amended: a client session whose CLOSE is answered by a
CLOSE|ACK. -/
theorem C19_witness :
    ∃ P, (net_of ((dpdisconnect (dpClientInit 3 7000)).run
          ⟨[some (pdu_bytes ⟨1, DP_MT_CLOSEACK, 1, 0, 0⟩, 7000)], [20], [], 0⟩)).sent =
        [] ++ [((dpClientInit 3 7000).outSockAddr.addr, P)] ∧
      P.length = 20 ∧ (pdu_of_bytes P).mtype = DP_MT_CLOSE ∧ (pdu_of_bytes P).dgram_sz = 0 ∧
      (pdu_of_bytes P).seqnum = toInt (dpClientInit 3 7000).seqNum ∧
      ∃ dp2 net2, (dpdisconnect (dpClientInit 3 7000)).run
          ⟨[some (pdu_bytes ⟨1, DP_MT_CLOSEACK, 1, 0, 0⟩, 7000)], [20], [], 0⟩ =
        Outcome.done (DP_CONNECTION_CLOSED, dp2) net2 := by
  obtain ⟨P, h1, h2, h3, h4, h5, h6⟩ :=
    C19_dpdisconnect_handshake (dpClientInit 3 7000)
      ⟨[some (pdu_bytes ⟨1, DP_MT_CLOSEACK, 1, 0, 0⟩, 7000)], [20], [], 0⟩ 20 [] rfl rfl
  exact ⟨P, h1, h2, h3, h4, h5,
    h6 (pdu_bytes ⟨1, DP_MT_CLOSEACK, 1, 0, 0⟩) 7000 [] rfl rfl (by decide) (by decide) rfl⟩

/-- C20, as stated, fails: a client session whose CLOSE PDU was sent in full
and is answered by a full header of type SEND|ACK gets `DP_ERROR_GENERAL`
from `dpdisconnect`, not `DP_CONNECTION_CLOSED`, and the session is not
released. -/
theorem C20_counterexample :
    (pdu_of_bytes (pdu_bytes ⟨1, DP_MT_SNDACK, 0, 0, 0⟩)).mtype ≠ DP_MT_CLOSEACK ∧
    (dpdisconnect (dpClientInit 3 7000)).run
        ⟨[some (pdu_bytes ⟨1, DP_MT_SNDACK, 0, 0, 0⟩, 7000)], [20], [], 0⟩ =
      Outcome.done (DP_ERROR_GENERAL, dpClientInit 3 7000)
        ⟨[], [], [(7000, pdu_bytes ⟨1, DP_MT_CLOSE, 0, 0, 0⟩)], 1⟩ ∧
    DP_ERROR_GENERAL ≠ DP_CONNECTION_CLOSED := by
  refine ⟨by decide, ?_, by decide⟩
  rfl

/-- C20, as amended.  On a session with initialised addresses whose CLOSE PDU
was sent in full, for every full-header reply: `dpdisconnect` returns
`DP_CONNECTION_CLOSED`, having released the session, exactly when the reply
has `mtype = CLOSE|ACK`; for a reply of any other type it returns
`DP_ERROR_GENERAL` and does not release the session. -/
theorem C20_dpdisconnect_requires_closeack (dp : dp_connection) (net : Net) (d : List Byte)
    (src : Nat) (srest : List Int) (irest : List (Option (List Byte × Nat)))
    (hout : dp.outSockAddr.isAddrInit = true) (hin : dp.inSockAddr.isAddrInit = true)
    (hd : 20 ≤ d.length)
    (hsend : net.sendrc = 20 :: srest) (hinbox : net.inbox = some (d, src) :: irest) :
    ∃ code dp2 net2, (dpdisconnect dp).run net = Outcome.done (code, dp2) net2 ∧
      (code = DP_CONNECTION_CLOSED ↔ (pdu_of_bytes d).mtype = DP_MT_CLOSEACK) ∧
      ((pdu_of_bytes d).mtype = DP_MT_CLOSEACK → dp2.freed = true) ∧
      ((pdu_of_bytes d).mtype ≠ DP_MT_CLOSEACK →
        code = DP_ERROR_GENERAL ∧ dp2.freed = dp.freed) := by
  have hrun := dpdisconnect_run dp net d src srest irest hout hin hd hsend hinbox
  by_cases hm : (pdu_of_bytes d).mtype = DP_MT_CLOSEACK
  · rw [if_neg (not_not.mpr hm)] at hrun
    exact ⟨_, _, _, hrun, ⟨fun _ => hm, fun _ => rfl⟩, fun _ => rfl, fun h => absurd hm h⟩
  · rw [if_pos hm] at hrun
    exact ⟨_, _, _, hrun, ⟨fun h => absurd h (by decide), fun h => absurd h hm⟩,
      fun h => absurd h hm, fun _ => ⟨rfl, rfl⟩⟩

/-- Witness of C20 as amended: the reply is a SEND|ACK. -/
theorem C20_witness :
    ∃ code dp2 net2,
      (dpdisconnect (dpClientInit 3 7000)).run
          ⟨[some (pdu_bytes ⟨1, DP_MT_SNDACK, 0, 0, 0⟩, 7000)], [20], [], 0⟩ =
        Outcome.done (code, dp2) net2 ∧
      (code = DP_CONNECTION_CLOSED ↔
        (pdu_of_bytes (pdu_bytes ⟨1, DP_MT_SNDACK, 0, 0, 0⟩)).mtype = DP_MT_CLOSEACK) ∧
      ((pdu_of_bytes (pdu_bytes ⟨1, DP_MT_SNDACK, 0, 0, 0⟩)).mtype = DP_MT_CLOSEACK →
        dp2.freed = true) ∧
      ((pdu_of_bytes (pdu_bytes ⟨1, DP_MT_SNDACK, 0, 0, 0⟩)).mtype ≠ DP_MT_CLOSEACK →
        code = DP_ERROR_GENERAL ∧ dp2.freed = (dpClientInit 3 7000).freed) :=
  C20_dpdisconnect_requires_closeack (dpClientInit 3 7000)
    ⟨[some (pdu_bytes ⟨1, DP_MT_SNDACK, 0, 0, 0⟩, 7000)], [20], [], 0⟩
    (pdu_bytes ⟨1, DP_MT_SNDACK, 0, 0, 0⟩) 7000 [] [] rfl rfl (by decide) rfl rfl

/-- C21, as stated, fails: with `proto_ver = 7` in the header, `dprecv` takes a
SEND datagram as a valid SEND (returns 3, delivers the payload, replies
SEND|ACK), `dplisten` takes a CONNECT as valid (replies CONNECT|ACK, returns
1), `dpconnect` takes the CONNECT|ACK as valid (returns 1, connected) and
`dpdisconnect` takes the CLOSE|ACK as valid (returns `DP_CONNECTION_CLOSED`). -/
theorem C21_counterexample :
    (pdu_of_bytes (pdu_bytes ⟨7, DP_MT_SND, 0, 3, 0⟩ ++ [1, 2, 3])).proto_ver ≠ DP_PROTO_VER_1 ∧
    (dprecv (dpServerInit 4 7000) (List.replicate 512 0) 512 (List.replicate 532 0)).run
        ⟨[some (pdu_bytes ⟨7, DP_MT_SND, 0, 3, 0⟩ ++ [1, 2, 3], 1234)], [20], [], 0⟩ =
      Outcome.done (3, { learn_peer (dpServerInit 4 7000) 1234 with seqNum := 3 },
          [1, 2, 3] ++ List.replicate 509 0,
          pdu_bytes ⟨7, DP_MT_SND, 0, 3, 0⟩ ++ [1, 2, 3] ++ List.replicate 509 0)
        ⟨[], [], [(1234, pdu_bytes ⟨1, DP_MT_SNDACK, 3, 0, 0⟩)], 1⟩ ∧
    (dplisten (dpServerInit 4 7000)).run
        ⟨[some (pdu_bytes ⟨7, DP_MT_CONNECT, 0, 0, 0⟩, 1234)], [20], [], 0⟩ =
      Outcome.done (1, { learn_peer (dpServerInit 4 7000) 1234 with
                         seqNum := 1, isConnected := true })
        ⟨[], [], [(1234, pdu_bytes ⟨7, DP_MT_CNTACK, 1, 0, 0⟩)], 1⟩ ∧
    (dpconnect (dpClientInit 3 7000)).run
        ⟨[some (pdu_bytes ⟨7, DP_MT_CNTACK, 1, 0, 0⟩, 7000)], [20], [], 0⟩ =
      Outcome.done (1, { dpClientInit 3 7000 with seqNum := 1, isConnected := true })
        ⟨[], [], [(7000, pdu_bytes ⟨0, DP_MT_CONNECT, 0, 0, 0⟩)], 1⟩ ∧
    (dpdisconnect (dpClientInit 3 7000)).run
        ⟨[some (pdu_bytes ⟨7, DP_MT_CLOSEACK, 1, 0, 0⟩, 7000)], [20], [], 0⟩ =
      Outcome.done (DP_CONNECTION_CLOSED, dpclose (dpClientInit 3 7000))
        ⟨[], [], [(7000, pdu_bytes ⟨1, DP_MT_CLOSE, 0, 0, 0⟩)], 1⟩ := by
  refine ⟨by decide, ?_, ?_, ?_, ?_⟩
  · rfl
  · rfl
  · rfl
  · rfl

/-- C21, as amended.  No receiving operation examines `proto_ver`: for every
value `v` of the header's `proto_ver` (and every `seqnum` and `err_num`),
`dprecv` returns the payload length of a well-formed SEND datagram, delivers
its payload and replies with one SEND|ACK; `dplisten` answers a CONNECT and
returns 1 with the session connected; `dpconnect` returns 1 with the session
connected on a CONNECT|ACK reply; `dpdisconnect` returns
`DP_CONNECTION_CLOSED` on a CLOSE|ACK reply. -/
theorem C21_proto_ver_not_examined (v s e : Int) (data buff g : List Byte) (buff_sz : Int)
    (srv cli : dp_connection) (src : Nat)
    (hsin : srv.inSockAddr.isAddrInit = true)
    (hout : cli.outSockAddr.isAddrInit = true) (hin : cli.inSockAddr.isAddrInit = true)
    (hg : g.length = 532) (hn : data.length ≤ 512) (hcap : data.length ≤ buff.length) :
    (∃ dp2 buff2 g2 net2,
      (dprecv srv buff buff_sz g).run
          ⟨[some (pdu_bytes ⟨v, DP_MT_SND, s, data.length, e⟩ ++ data, src)], [20], [], 0⟩ =
        Outcome.done ((data.length : Int), dp2, buff2, g2) net2 ∧
      buff2.take data.length = data ∧
      ∃ R, net2.sent = [(src, R)] ∧ (pdu_of_bytes R).mtype = DP_MT_SNDACK) ∧
    (∃ dp2 net2,
      (dplisten srv).run ⟨[some (pdu_bytes ⟨v, DP_MT_CONNECT, s, 0, e⟩, src)], [20], [], 0⟩ =
        Outcome.done (1, dp2) net2 ∧ dp2.isConnected = true ∧
      ∃ R, net2.sent = [(src, R)] ∧ (pdu_of_bytes R).mtype = DP_MT_CNTACK) ∧
    (∃ dp2 net2,
      (dpconnect cli).run ⟨[some (pdu_bytes ⟨v, DP_MT_CNTACK, s, 0, e⟩, src)], [20], [], 0⟩ =
        Outcome.done (1, dp2) net2 ∧ dp2.isConnected = true) ∧
    (∃ dp2 net2,
      (dpdisconnect cli).run ⟨[some (pdu_bytes ⟨v, DP_MT_CLOSEACK, s, 0, e⟩, src)], [20], [], 0⟩ =
        Outcome.done (DP_CONNECTION_CLOSED, dp2) net2) := by
  refine ⟨?_, ?_, ?_, ?_⟩
  · have hrun := dprecv_run_send srv buff buff_sz g
      (pdu_bytes ⟨v, DP_MT_SND, s, data.length, e⟩ ++ data) src data.length
      ⟨[some (pdu_bytes ⟨v, DP_MT_SND, s, data.length, e⟩ ++ data, src)], [20], [], 0⟩ 20 [] []
      hsin hg (by rw [List.length_append, pdu_bytes_length]) hn hcap
      (header_append_mtype _ _)
      (by rw [header_append_dgram_sz]; exact toInt_small _ hn) rfl rfl
    refine ⟨_, _, _, _, hrun, ?_, _, rfl, ?_⟩
    · rw [List.drop_left' (pdu_bytes_length _)]
      exact store_zero_take buff data
    · exact header_mtype _
  · have hP : 20 ≤ (pdu_bytes ⟨v, DP_MT_CONNECT, s, 0, e⟩).length :=
      le_of_eq (pdu_bytes_length _).symm
    have hrun := dplisten_run srv
      ⟨[some (pdu_bytes ⟨v, DP_MT_CONNECT, s, 0, e⟩, src)], [20], [], 0⟩
      (pdu_bytes ⟨v, DP_MT_CONNECT, s, 0, e⟩) src 20 [] [] hsin hP rfl rfl
    rw [if_neg (by decide)] at hrun
    exact ⟨_, _, hrun, rfl, _, rfl,
      listen_reply_mtype ((pdu_bytes ⟨v, DP_MT_CONNECT, s, 0, e⟩).take 20) (take20_full _ hP)⟩
  · have hm : (pdu_of_bytes (pdu_bytes ⟨v, DP_MT_CNTACK, s, 0, e⟩)).mtype = DP_MT_CNTACK :=
      header_mtype _
    have hrun := dpconnect_run cli
      ⟨[some (pdu_bytes ⟨v, DP_MT_CNTACK, s, 0, e⟩, src)], [20], [], 0⟩
      (pdu_bytes ⟨v, DP_MT_CNTACK, s, 0, e⟩) src [] [] hout hin
      (le_of_eq (pdu_bytes_length _).symm) rfl rfl
    rw [if_neg (not_not.mpr hm)] at hrun
    exact ⟨_, _, hrun, rfl⟩
  · have hm : (pdu_of_bytes (pdu_bytes ⟨v, DP_MT_CLOSEACK, s, 0, e⟩)).mtype = DP_MT_CLOSEACK :=
      header_mtype _
    have hrun := dpdisconnect_run cli
      ⟨[some (pdu_bytes ⟨v, DP_MT_CLOSEACK, s, 0, e⟩, src)], [20], [], 0⟩
      (pdu_bytes ⟨v, DP_MT_CLOSEACK, s, 0, e⟩) src [] [] hout hin
      (le_of_eq (pdu_bytes_length _).symm) rfl rfl
    rw [if_neg (not_not.mpr hm)] at hrun
    exact ⟨_, _, hrun⟩

/-- Witness of C21 as amended: `proto_ver = 7`. -/
theorem C21_witness :
    (∃ dp2 buff2 g2 net2,
      (dprecv (dpServerInit 4 7000) (List.replicate 512 0) 512 (List.replicate 532 0)).run
          ⟨[some (pdu_bytes ⟨7, DP_MT_SND, 0, ([1, 2, 3] : List Byte).length, 0⟩ ++ [1, 2, 3],
            1234)], [20], [], 0⟩ =
        Outcome.done ((([1, 2, 3] : List Byte).length : Int), dp2, buff2, g2) net2 ∧
      buff2.take ([1, 2, 3] : List Byte).length = [1, 2, 3] ∧
      ∃ R, net2.sent = [(1234, R)] ∧ (pdu_of_bytes R).mtype = DP_MT_SNDACK) ∧
    (∃ dp2 net2,
      (dplisten (dpServerInit 4 7000)).run
          ⟨[some (pdu_bytes ⟨7, DP_MT_CONNECT, 0, 0, 0⟩, 1234)], [20], [], 0⟩ =
        Outcome.done (1, dp2) net2 ∧ dp2.isConnected = true ∧
      ∃ R, net2.sent = [(1234, R)] ∧ (pdu_of_bytes R).mtype = DP_MT_CNTACK) ∧
    (∃ dp2 net2,
      (dpconnect (dpClientInit 3 7000)).run
          ⟨[some (pdu_bytes ⟨7, DP_MT_CNTACK, 0, 0, 0⟩, 1234)], [20], [], 0⟩ =
        Outcome.done (1, dp2) net2 ∧ dp2.isConnected = true) ∧
    (∃ dp2 net2,
      (dpdisconnect (dpClientInit 3 7000)).run
          ⟨[some (pdu_bytes ⟨7, DP_MT_CLOSEACK, 0, 0, 0⟩, 1234)], [20], [], 0⟩ =
        Outcome.done (DP_CONNECTION_CLOSED, dp2) net2) :=
  C21_proto_ver_not_examined 7 0 0 [1, 2, 3] (List.replicate 512 0) (List.replicate 532 0) 512
    (dpServerInit 4 7000) (dpClientInit 3 7000) 1234 rfl rfl rfl (by decide) (by decide)
    (by decide)

/-- C22 (code evaluated at the failing input).  A connected session with
`seqNum = 10` receives a 20-byte SEND header that declares `dgram_sz = -5`:
`dprecv` acknowledges it and leaves `seqNum = 5`, less than before the call
(the sum `10 + (-5)` is within the range of the counter). -/
theorem C22_seqNum_decreases :
    ({ learn_peer (dpServerInit 4 7000) 1234 with
        seqNum := 10, isConnected := true } : dp_connection).isConnected = true ∧
    (dprecv { learn_peer (dpServerInit 4 7000) 1234 with seqNum := 10, isConnected := true }
        (List.replicate 512 0) 512 (List.replicate 532 0)).run
        ⟨[some (pdu_bytes ⟨1, DP_MT_SND, 10, -5, 0⟩, 1234)], [20], [], 0⟩ =
      Outcome.done (-5,
          { learn_peer (dpServerInit 4 7000) 1234 with seqNum := 5, isConnected := true },
          List.replicate 512 0,
          pdu_bytes ⟨1, DP_MT_SND, 10, -5, 0⟩ ++ List.replicate 512 0)
        ⟨[], [], [(1234, pdu_bytes ⟨1, DP_MT_SNDACK, 5, 0, 0⟩)], 1⟩ ∧
    (5 : Nat) < 10 ∧ (0 : Int) ≤ 10 + (-5) ∧ (10 : Int) + (-5) < 4294967296 := by
  refine ⟨rfl, ?_, by decide, by decide, by decide⟩
  rfl

/-- C23.  Reply laxness of `dpsend`, as a statement about two runs: for every
session, every data of at most 512 bytes and any two reply datagrams `r1` and
`r2` (from any source, followed by anything), the run of `dpsend` that
receives `r1` and the run that receives `r2` return the same value and end
with the same `seqNum` (and the same `_dpBuffer`); when the remote address is
initialised and `sendto` reports the whole datagram sent, that value is the
data length, not an error, whatever the reply. -/
theorem C23_dpsend_reply_laxness (dp : dp_connection) (data g r1 r2 : List Byte)
    (src1 src2 : Nat) (irest1 irest2 : List (Option (List Byte × Nat))) (rc0 : Int)
    (srest : List Int) (sent : List (Nat × List Byte)) (calls : Nat)
    (hn : data.length ≤ 512) (hg : g.length = 532) :
    ∃ code dpA dpB gA netA netB,
      (dpsend dp data data.length g).run ⟨some (r1, src1) :: irest1, rc0 :: srest, sent, calls⟩ =
        Outcome.done (code, dpA, gA) netA ∧
      (dpsend dp data data.length g).run ⟨some (r2, src2) :: irest2, rc0 :: srest, sent, calls⟩ =
        Outcome.done (code, dpB, gA) netB ∧
      dpA.seqNum = dpB.seqNum ∧
      (dp.outSockAddr.isAddrInit = true → rc0 = 20 + (data.length : Int) →
        code = (data.length : Int)) := by
  by_cases hout : dp.outSockAddr.isAddrInit = true
  · obtain ⟨dpA, netA, hA, hsA⟩ := dpsend_run_any_reply dp data g (some (r1, src1)) irest1 rc0
      srest sent calls hout hn hg
    obtain ⟨dpB, netB, hB, hsB⟩ := dpsend_run_any_reply dp data g (some (r2, src2)) irest2 rc0
      srest sent calls hout hn hg
    refine ⟨_, dpA, dpB, _, netA, netB, hA, hB, hsA.trans hsB.symm, ?_⟩
    intro _ hrc
    rw [hrc]
    exact send_result _ hn
  · have hno : dp.outSockAddr.isAddrInit = false := by simpa using hout
    have e := dpsend_no_remote dp data g data.length hno (by exact_mod_cast hn)
    refine ⟨_, dp, dp, g, _, _, by rw [e]; rfl, by rw [e]; rfl, rfl, ?_⟩
    intro h
    exact absurd h hout

/-- Witness of C23: a 3-byte send answered by a SEND|ACK in one run and by a
2-byte datagram in the other. -/
theorem C23_witness :
    ∃ code dpA dpB gA netA netB,
      (dpsend (dpClientInit 3 7000) [1, 2, 3] ([1, 2, 3] : List Byte).length
          (List.replicate 532 0)).run
          ⟨some (pdu_bytes ⟨1, DP_MT_SNDACK, 3, 0, 0⟩, 7000) :: [], 23 :: [], [], 0⟩ =
        Outcome.done (code, dpA, gA) netA ∧
      (dpsend (dpClientInit 3 7000) [1, 2, 3] ([1, 2, 3] : List Byte).length
          (List.replicate 532 0)).run
          ⟨some ([9, 9], 5555) :: [], 23 :: [], [], 0⟩ =
        Outcome.done (code, dpB, gA) netB ∧
      dpA.seqNum = dpB.seqNum ∧
      code = (([1, 2, 3] : List Byte).length : Int) := by
  obtain ⟨code, dpA, dpB, gA, netA, netB, h1, h2, h3, h4⟩ :=
    C23_dpsend_reply_laxness (dpClientInit 3 7000) [1, 2, 3] (List.replicate 532 0)
      (pdu_bytes ⟨1, DP_MT_SNDACK, 3, 0, 0⟩) [9, 9] 7000 5555 [] [] 23 [] [] 0
      (by decide) (by decide)
  exact ⟨code, dpA, dpB, gA, netA, netB, h1, h2, h3, h4 rfl rfl⟩

/-- C27 (code evaluated at the failing input).  For a threshold in 1..99
`dprand` returns 1 when the threshold is less than the draw, the opposite of
the rule in its comment: with threshold 25 the draw 10 gives 0, the draw 60
gives 1, and 75 of the 100 possible draws give 1. -/
theorem C27_dprand_inverted :
    (∀ (threshold : Int) (rnd : Nat), dprand threshold rnd =
      if threshold < 1 then 0 else if threshold > 99 then 1
      else if threshold < ((rnd % 100 + 1 : Nat) : Int) then 1 else 0) ∧
    (9 % 100 + 1 = 10 ∧ dprand 25 9 = 0) ∧
    (59 % 100 + 1 = 60 ∧ dprand 25 59 = 1) ∧
    ((List.range 100).filter (fun rnd => dprand 25 rnd = 1)).length = 75 := by
  refine ⟨fun threshold rnd => ?_, ⟨rfl, rfl⟩, ⟨rfl, rfl⟩, by decide⟩
  have h : toInt ((rnd : Int) % (100 - 1 + 1) + 1) = ((rnd % 100 + 1 : Nat) : Int) := by
    rw [toInt_of_range _ (by omega) (by omega)]
    omega
  unfold dprand
  simp only [h]

/-- C28 (code evaluated at the failing inputs).  The CONNECT PDU that
`dpconnect` emits carries `proto_ver = 0` (the field is never assigned), and
the CONNECT|ACK of `dplisten` carries the `proto_ver` of the PDU it received:
0 in answer to that CONNECT, 7 in answer to a CONNECT with `proto_ver = 7`. -/
theorem C28_proto_ver_of_handshake_pdus :
    (dpconnect (dpClientInit 3 7000)).run ⟨[none], [20], [], 0⟩ =
      Outcome.done (-1, dpClientInit 3 7000)
        ⟨[], [], [(7000, pdu_bytes ⟨0, DP_MT_CONNECT, 0, 0, 0⟩)], 1⟩ ∧
    (pdu_of_bytes (pdu_bytes ⟨0, DP_MT_CONNECT, 0, 0, 0⟩)).proto_ver = 0 ∧
    (0 : Int) ≠ DP_PROTO_VER_1 ∧
    (dplisten (dpServerInit 4 7000)).run
        ⟨[some (pdu_bytes ⟨0, DP_MT_CONNECT, 0, 0, 0⟩, 1234)], [20], [], 0⟩ =
      Outcome.done (1, { learn_peer (dpServerInit 4 7000) 1234 with
                         seqNum := 1, isConnected := true })
        ⟨[], [], [(1234, pdu_bytes ⟨0, DP_MT_CNTACK, 1, 0, 0⟩)], 1⟩ ∧
    (dplisten (dpServerInit 4 7000)).run
        ⟨[some (pdu_bytes ⟨7, DP_MT_CONNECT, 0, 0, 0⟩, 1234)], [20], [], 0⟩ =
      Outcome.done (1, { learn_peer (dpServerInit 4 7000) 1234 with
                         seqNum := 1, isConnected := true })
        ⟨[], [], [(1234, pdu_bytes ⟨7, DP_MT_CNTACK, 1, 0, 0⟩)], 1⟩ := by
  refine ⟨?_, by decide, by decide, ?_, ?_⟩
  · rfl
  · rfl
  · rfl

/-- C29 (code evaluated at the failing input).  `dplisten` receives a CONNECT
header that declares `dgram_sz = 600`; the CONNECT|ACK it emits, a control
PDU, declares `dgram_sz = 600` as well. -/
theorem C29_connect_ack_echoes_dgram_sz :
    (dplisten (dpServerInit 4 7000)).run
        ⟨[some (pdu_bytes ⟨1, DP_MT_CONNECT, 0, 600, 0⟩, 1234)], [20], [], 0⟩ =
      Outcome.done (1, { learn_peer (dpServerInit 4 7000) 1234 with
                         seqNum := 1, isConnected := true })
        ⟨[], [], [(1234, pdu_bytes ⟨1, DP_MT_CNTACK, 1, 600, 0⟩)], 1⟩ ∧
    (pdu_of_bytes (pdu_bytes ⟨1, DP_MT_CNTACK, 1, 600, 0⟩)).dgram_sz = 600 ∧
    ¬ ((600 : Int) ≤ 512) := by
  refine ⟨?_, by decide, by decide⟩
  rfl

end DuProto

/-! # The cipher library: lemmas and claims -/

namespace CryptoLib

open DuProto (Byte low_byte toInt)

set_option maxRecDepth 100000

/-- The loop, started behind prefixes of equal length, when no iteration
returns the error code: the next `n` bytes of the output are the images of the
next `n` bytes of the input. -/
theorem byte_loop_map (body : Byte → Option Byte) (g : Byte → Byte) (err ok : Int) (n : Nat) :
    ∀ (pre_in pre_out rest_in rest_out : List Byte),
      pre_in.length = pre_out.length → n ≤ rest_in.length → n ≤ rest_out.length →
      (∀ b ∈ rest_in.take n, body b = some (g b)) →
      byte_loop body err ok n pre_in.length (pre_in ++ rest_in) (pre_out ++ rest_out) =
        some (ok, pre_out ++ (rest_in.take n).map g ++ rest_out.drop n) := by
  induction n with
  | zero =>
    intro pre_in pre_out rest_in rest_out _ _ _ _
    simp [byte_loop]
  | succ n ih =>
    intro pre_in pre_out rest_in rest_out hlen hin hout hbody
    cases rest_in with
    | nil => simp at hin
    | cons a ri =>
      cases rest_out with
      | nil => simp at hout
      | cons o ro =>
        have hi : pre_in.length < (pre_in ++ a :: ri).length := by simp
        have ho : pre_in.length < (pre_out ++ o :: ro).length := by simp [hlen]
        have hget : (pre_in ++ a :: ri).get ⟨pre_in.length, hi⟩ = a := by
          simp [List.getElem_append_right]
        have hb : body a = some (g a) := hbody a (by simp)
        have hset : (pre_out ++ o :: ro).set pre_in.length (g a) = (pre_out ++ [g a]) ++ ro := by
          rw [hlen]; simp
        have hpi : pre_in ++ a :: ri = (pre_in ++ [a]) ++ ri := by simp
        have hl1 : pre_in.length + 1 = (pre_in ++ [a]).length := by simp
        unfold byte_loop
        rw [dif_pos hi, hget, hb]
        dsimp only
        rw [if_pos ho, hset, hpi, hl1,
          ih (pre_in ++ [a]) (pre_out ++ [g a]) ri ro (by simp [hlen])
            (by simpa using hin) (by simpa using hout)
            (fun b hbm => hbody b (by simp only [List.take_succ_cons, List.mem_cons]; exact Or.inr hbm))]
        simp

/-- The loop over whole buffers of the same length. -/
theorem byte_loop_whole (body : Byte → Option Byte) (g : Byte → Byte) (err ok : Int)
    (input output : List Byte) (hlen : output.length = input.length)
    (hbody : ∀ b ∈ input, body b = some (g b)) :
    byte_loop body err ok input.length 0 input output = some (ok, input.map g) := by
  have h := byte_loop_map body g err ok input.length [] [] input output rfl (le_refl _)
    (le_of_eq hlen.symm) (fun b hb => hbody b (by simpa using hb))
  simp only [List.length_nil, List.nil_append, List.take_length] at h
  rw [h, ← hlen, List.drop_length, List.append_nil]

theorem get_valid_keys_64 :
    get_valid_keys (List.replicate 64 0) 64 =
      some (32, (List.range 32).map (fun i => low_byte (2 * i + 1)) ++ List.replicate 32 0) := by
  decide

theorem valid_keys_entry (i : Fin 32) :
    ((List.range 32).map (fun i => low_byte (2 * i + 1)) ++ List.replicate 32 0)[i.val]? =
      some (low_byte (2 * i.val + 1)) := by
  revert i
  decide

/-- Every key `get_valid_keys` lists, and the inverse `find_inverse` finds for
it, passes the key test of `encrypt` and `decrypt`, and their product is 1
modulo 64. -/
theorem key_and_inverse (i : Fin 32) :
    ¬ ((low_byte (2 * i.val + 1)).val = 0 ∨ (low_byte (2 * i.val + 1)).val ≥ CIPHER_MOD ∨
        (low_byte (2 * i.val + 1)).val &&& 1 = 0) ∧
    ¬ ((find_inverse (low_byte (2 * i.val + 1))).val = 0 ∨
        (find_inverse (low_byte (2 * i.val + 1))).val ≥ CIPHER_MOD ∨
        (find_inverse (low_byte (2 * i.val + 1))).val &&& 1 = 0) ∧
    ((low_byte (2 * i.val + 1)).val * (find_inverse (low_byte (2 * i.val + 1))).val) % 64 = 1 := by
  revert i
  decide

theorem generate_single_keypair_eq (rnd : Nat) :
    generate_single_keypair rnd =
      some (low_byte (2 * (rnd % 32) + 1), find_inverse (low_byte (2 * (rnd % 32) + 1))) := by
  have hidx : ((rnd : Int) % 32).toNat = rnd % 32 := by omega
  unfold generate_single_keypair
  rw [get_valid_keys_64]
  dsimp only
  rw [if_neg (by decide), hidx, valid_keys_entry ⟨rnd % 32, Nat.mod_lt _ (by decide)⟩]

theorem key_halves (d e : Byte) :
    GET_ENCRYPTION_KEY (((d.val <<< 8) ||| e.val) % 65536) = d ∧
    GET_DECRYPTION_KEY (((d.val <<< 8) ||| e.val) % 65536) = e := by
  have hd := d.isLt
  have he := e.isLt
  have h1 : (d.val <<< 8) ||| e.val = 256 * d.val + e.val := by
    rw [Nat.shiftLeft_eq, Nat.mul_comm]
    exact (Nat.mul_add_lt_is_or (show e.val < 2 ^ 8 from he) d.val).symm
  have h2 : (256 * d.val + e.val) % 65536 = 256 * d.val + e.val := Nat.mod_eq_of_lt (by omega)
  have h3 : (256 * d.val + e.val) &&& 255 = (256 * d.val + e.val) % 256 :=
    Nat.and_pow_two_sub_one_eq_mod _ 8
  unfold GET_ENCRYPTION_KEY GET_DECRYPTION_KEY low_byte
  rw [h1, h2, h3, Nat.shiftRight_eq_div_pow]
  constructor
  · apply Fin.ext
    show (256 * d.val + e.val) / 2 ^ 8 % 256 = d.val
    omega
  · apply Fin.ext
    show (256 * d.val + e.val) % 256 % 256 = e.val
    omega

theorem gen_key_pair_eq (rnd1 rnd2 : Nat) :
    gen_key_pair rnd1 rnd2 = some (RC_OK,
      (((find_inverse (low_byte (2 * (rnd2 % 32) + 1))).val <<< 8) |||
        (low_byte (2 * (rnd1 % 32) + 1)).val) % 65536,
      (((find_inverse (low_byte (2 * (rnd1 % 32) + 1))).val <<< 8) |||
        (low_byte (2 * (rnd2 % 32) + 1)).val) % 65536) := by
  unfold gen_key_pair
  rw [generate_single_keypair_eq rnd1, generate_single_keypair_eq rnd2]

theorem mul_inverse_mod (p d e : Nat) (h : d * e % 64 = 1) (hp : p < 64) :
    (p * d % 64) * e % 64 = p := by
  calc (p * d % 64) * e % 64 = (p * d) * e % 64 := by
        rw [Nat.mul_mod (p * d % 64) e 64, Nat.mod_mod, ← Nat.mul_mod]
    _ = p * (d * e) % 64 := by rw [Nat.mul_assoc]
    _ = (p % 64) * (d * e % 64) % 64 := Nat.mul_mod _ _ _
    _ = p := by rw [h, Nat.mul_one, Nat.mod_mod, Nat.mod_eq_of_lt hp]

theorem low_byte_val_small (x : Nat) (h : x < 256) : (low_byte x).val = x :=
  Nat.mod_eq_of_lt h

theorem encrypt_eq (key : Nat) (out P : List Byte) (hlen : out.length = P.length)
    (hk : ¬ ((GET_ENCRYPTION_KEY key).val = 0 ∨ (GET_ENCRYPTION_KEY key).val ≥ CIPHER_MOD ∨
      (GET_ENCRYPTION_KEY key).val &&& 1 = 0)) :
    encrypt key out P P.length = some (RC_OK,
      P.map (fun p => low_byte ((p.val * (GET_ENCRYPTION_KEY key).val) % CIPHER_MOD))) := by
  unfold encrypt
  dsimp only
  rw [if_neg hk]
  exact byte_loop_whole _ _ _ _ P out hlen (fun _ _ => rfl)

theorem decrypt_eq (key : Nat) (out C : List Byte) (hlen : out.length = C.length)
    (hk : ¬ ((GET_DECRYPTION_KEY key).val = 0 ∨ (GET_DECRYPTION_KEY key).val ≥ CIPHER_MOD ∨
      (GET_DECRYPTION_KEY key).val &&& 1 = 0)) :
    decrypt key out C C.length = some (RC_OK,
      C.map (fun c => low_byte ((c.val * (GET_DECRYPTION_KEY key).val) % CIPHER_MOD))) := by
  unfold decrypt
  dsimp only
  rw [if_neg hk]
  exact byte_loop_whole _ _ _ _ C out hlen (fun _ _ => rfl)

/-- Encrypting with the key `d` and decrypting with the key `e`, when
`d * e` is 1 modulo 64, gives back every text of bytes below 64. -/
theorem round_trip_bytes (d e : Nat) (h : d * e % 64 = 1) (P : List Byte)
    (hP : ∀ p ∈ P, p.val < 64) :
    (P.map (fun p => low_byte ((p.val * d) % CIPHER_MOD))).map
      (fun c => low_byte ((c.val * e) % CIPHER_MOD)) = P := by
  rw [List.map_map]
  conv_rhs => rw [← List.map_id P]
  apply List.map_congr_left
  intro p hp
  apply Fin.ext
  have h64 : p.val * d % 64 < 64 := Nat.mod_lt _ (by decide)
  show (low_byte ((low_byte (p.val * d % 64)).val * e % 64)).val = p.val
  rw [low_byte_val_small _ (by omega), low_byte_val_small _ (by omega)]
  exact mul_inverse_mod p.val d e h (hP p hp)

/-- Encrypting with the upper half `d` of one key and decrypting with the
lower half `e` of another, both halves passing the key test and `e * d` being
1 modulo 64. -/
theorem encrypt_decrypt (k1 k2 : Nat) (P out1 out2 : List Byte)
    (hP : ∀ p ∈ P, p.val < 64) (h1 : out1.length = P.length) (h2 : out2.length = P.length)
    (hk1 : ¬ ((GET_ENCRYPTION_KEY k1).val = 0 ∨ (GET_ENCRYPTION_KEY k1).val ≥ CIPHER_MOD ∨
      (GET_ENCRYPTION_KEY k1).val &&& 1 = 0))
    (hk2 : ¬ ((GET_DECRYPTION_KEY k2).val = 0 ∨ (GET_DECRYPTION_KEY k2).val ≥ CIPHER_MOD ∨
      (GET_DECRYPTION_KEY k2).val &&& 1 = 0))
    (hinv : ((GET_DECRYPTION_KEY k2).val * (GET_ENCRYPTION_KEY k1).val) % 64 = 1) :
    ∃ C, encrypt k1 out1 P P.length = some (RC_OK, C) ∧
      decrypt k2 out2 C P.length = some (RC_OK, P) := by
  refine ⟨_, encrypt_eq k1 out1 P h1 hk1, ?_⟩
  have hl : P.length =
      (P.map (fun p => low_byte ((p.val * (GET_ENCRYPTION_KEY k1).val) % CIPHER_MOD))).length :=
    (List.length_map _ _).symm
  have hd := decrypt_eq k2 out2
    (P.map (fun p => low_byte ((p.val * (GET_ENCRYPTION_KEY k1).val) % CIPHER_MOD)))
    (by rw [List.length_map]; exact h2) hk2
  rw [← hl] at hd
  rw [hd, round_trip_bytes _ _ (by rw [Nat.mul_comm]; exact hinv) P hP]

/-- The two tables on the 64 indices: `ascii_to_index` undoes `alphabet`. -/
theorem index_of_alphabet (b : Byte) (hb : b.val < 64) :
    (ascii_to_index.getD (alphabet.getD b.val 0).val 0).val ≠ 255 ∧
    ascii_to_index.getD (alphabet.getD b.val 0).val 0 = b := by
  revert b
  decide

/-- The two tables on the 64 characters: `alphabet` undoes `ascii_to_index`. -/
theorem alphabet_of_index (c : Byte) (hc : c ∈ alphabet) :
    (ascii_to_index.getD c.val 0).val ≠ 255 ∧ (ascii_to_index.getD c.val 0).val < 64 ∧
    alphabet.getD (ascii_to_index.getD c.val 0).val 0 = c := by
  revert c
  decide

theorem string_to_bytes_eq (s out : List Byte) (hlen : out.length = s.length)
    (hs : ∀ c ∈ s, c ∈ alphabet) :
    string_to_bytes s out s.length =
      some (toInt s.length, s.map (fun c => ascii_to_index.getD c.val 0)) := by
  unfold string_to_bytes
  exact byte_loop_whole _ _ _ _ s out hlen (fun c hc => by
    dsimp only
    rw [if_neg (alphabet_of_index c (hs c hc)).1])

theorem bytes_to_string_eq (b out : List Byte) (hlen : out.length = b.length)
    (hb : ∀ x ∈ b, x.val < 64) :
    bytes_to_string b b.length out =
      some (toInt b.length, b.map (fun x => alphabet.getD x.val 0)) := by
  unfold bytes_to_string
  exact byte_loop_whole _ _ _ _ b out hlen (fun x hx => by
    rw [if_neg (by unfold CIPHER_MOD; exact Nat.not_le.mpr (hb x hx))])

theorem toInt_length (n : Nat) (h : n < 2147483648) : toInt (n : Int) = n :=
  DuProto.toInt_of_range _ (by omega) (by omega)

theorem alphabet_mem (x : Byte) (hx : x.val < 64) : alphabet.getD x.val 0 ∈ alphabet := by
  revert x
  decide

theorem map_inverse (l : List Byte) (f g : Byte → Byte) (h : ∀ x ∈ l, g (f x) = x) :
    (l.map f).map g = l := by
  rw [List.map_map]
  conv_rhs => rw [← List.map_id l]
  exact List.map_congr_left h

/-! ## The claims about the cipher library -/

/-- C24.  Bidirectional cipher round trip: for every outcome of the two
`rand()` calls of `gen_key_pair`, with `key1` and `key2` the keys it produces
(it returns `RC_OK`), and for every text `P` of bytes in 0..63: `encrypt` with
`key1` followed by `decrypt` with `key2` gives `P`, and so does `encrypt` with
`key2` followed by `decrypt` with `key1`; each of the four calls returns
`RC_OK`.  The output buffers have the length of `P`. -/
theorem C24_cipher_round_trip (rnd1 rnd2 : Nat) (P out1 out2 : List Byte)
    (hP : ∀ p ∈ P, p.val < 64) (h1 : out1.length = P.length) (h2 : out2.length = P.length) :
    ∃ key1 key2, gen_key_pair rnd1 rnd2 = some (RC_OK, key1, key2) ∧
      (∃ C, encrypt key1 out1 P P.length = some (RC_OK, C) ∧
        decrypt key2 out2 C P.length = some (RC_OK, P)) ∧
      (∃ C, encrypt key2 out1 P P.length = some (RC_OK, C) ∧
        decrypt key1 out2 C P.length = some (RC_OK, P)) := by
  have k1 := key_and_inverse ⟨rnd1 % 32, Nat.mod_lt _ (by decide)⟩
  have k2 := key_and_inverse ⟨rnd2 % 32, Nat.mod_lt _ (by decide)⟩
  dsimp only at k1 k2
  have ha := key_halves (find_inverse (low_byte (2 * (rnd2 % 32) + 1)))
    (low_byte (2 * (rnd1 % 32) + 1))
  have hb := key_halves (find_inverse (low_byte (2 * (rnd1 % 32) + 1)))
    (low_byte (2 * (rnd2 % 32) + 1))
  refine ⟨_, _, gen_key_pair_eq rnd1 rnd2, ?_, ?_⟩
  · exact encrypt_decrypt _ _ P out1 out2 hP h1 h2 (by rw [ha.1]; exact k2.2.1)
      (by rw [hb.2]; exact k2.1) (by rw [ha.1, hb.2]; exact k2.2.2)
  · exact encrypt_decrypt _ _ P out1 out2 hP h1 h2 (by rw [hb.1]; exact k1.2.1)
      (by rw [ha.2]; exact k1.1) (by rw [hb.1, ha.2]; exact k1.2.2)

/-- Witness of C24: the draws 3 and 5 (the keys `0x2307` and `0x370B` of the
example in the source) and a five-byte text. -/
theorem C24_witness :
    ∃ key1 key2, gen_key_pair 3 5 = some (RC_OK, key1, key2) ∧
      (∃ C, encrypt key1 [0, 0, 0, 0, 0] [10, 20, 30, 40, 63]
          ([10, 20, 30, 40, 63] : List Byte).length = some (RC_OK, C) ∧
        decrypt key2 [0, 0, 0, 0, 0] C ([10, 20, 30, 40, 63] : List Byte).length =
          some (RC_OK, [10, 20, 30, 40, 63])) ∧
      (∃ C, encrypt key2 [0, 0, 0, 0, 0] [10, 20, 30, 40, 63]
          ([10, 20, 30, 40, 63] : List Byte).length = some (RC_OK, C) ∧
        decrypt key1 [0, 0, 0, 0, 0] C ([10, 20, 30, 40, 63] : List Byte).length =
          some (RC_OK, [10, 20, 30, 40, 63])) :=
  C24_cipher_round_trip 3 5 [10, 20, 30, 40, 63] [0, 0, 0, 0, 0] [0, 0, 0, 0, 0] (by decide) rfl rfl

/-- C25 (code evaluated at the failing input).  The byte 200 is not one of the
64 alphabet characters, yet `string_to_bytes` accepts the string `72, 200, 108`:
it returns 3 and stores the index 0 (the index of `A`) for the byte 200.  The
entries of `ascii_to_index` for the codes 128 to 255 are 0, not `0xFF`; for a
code below 128 the entry is `0xFF` exactly when the code is not an alphabet
character (the string `72, 63, 108` is refused with `RC_INVALID_TEXT`). -/
theorem C25_high_bytes_accepted :
    (200 : Byte) ∉ alphabet ∧
    string_to_bytes [72, 200, 108] [0, 0, 0] 3 = some (3, [7, 0, 37]) ∧
    (3 : Int) ≠ RC_INVALID_TEXT ∧
    string_to_bytes [72, 63, 108] [0, 0, 0] 3 = some (RC_INVALID_TEXT, [7, 0, 0]) ∧
    (∀ c : Byte,
      (c ∈ alphabet ∧ (ascii_to_index.getD c.val 0).val < 64 ∧
        alphabet.getD (ascii_to_index.getD c.val 0).val 0 = c) ∨
      (c ∉ alphabet ∧ c.val < 128 ∧ (ascii_to_index.getD c.val 0).val = 255) ∨
      (c ∉ alphabet ∧ 128 ≤ c.val ∧ (ascii_to_index.getD c.val 0).val = 0)) := by
  refine ⟨by decide, by decide, by decide, by decide, by decide⟩

/-- C26.  `bytes_to_string` and `string_to_bytes` are inverse to each other:
for every `b` whose bytes are all below 64, `bytes_to_string` returns the
length and a string that `string_to_bytes` converts back to `b`, returning the
length; for every string `s` of alphabet characters, `string_to_bytes` returns
the length and bytes that `bytes_to_string` converts back to `s`, returning
the length.  The lengths are within the range of `int`, the type of the
return value, and each output buffer has the length of the input. -/
theorem C26_conversions_inverse (b s o1 o2 o3 o4 : List Byte)
    (hb : ∀ x ∈ b, x.val < 64) (hs : ∀ c ∈ s, c ∈ alphabet)
    (hbl : b.length < 2147483648) (hsl : s.length < 2147483648)
    (h1 : o1.length = b.length) (h2 : o2.length = b.length)
    (h3 : o3.length = s.length) (h4 : o4.length = s.length) :
    (∃ str, bytes_to_string b b.length o1 = some ((b.length : Int), str) ∧
      string_to_bytes str o2 b.length = some ((b.length : Int), b)) ∧
    (∃ bytes, string_to_bytes s o3 s.length = some ((s.length : Int), bytes) ∧
      bytes_to_string bytes s.length o4 = some ((s.length : Int), s)) := by
  constructor
  · refine ⟨b.map (fun x => alphabet.getD x.val 0), ?_, ?_⟩
    · rw [bytes_to_string_eq b o1 h1 hb, toInt_length _ hbl]
    · have hl : b.length = (b.map (fun x => alphabet.getD x.val 0)).length :=
        (List.length_map _ _).symm
      have h := string_to_bytes_eq (b.map (fun x => alphabet.getD x.val 0)) o2
        (by rw [List.length_map]; exact h2)
        (fun c hc => by
          obtain ⟨x, hx, rfl⟩ := List.mem_map.mp hc
          exact alphabet_mem x (hb x hx))
      rw [← hl] at h
      rw [h, toInt_length _ hbl, map_inverse b _ _ (fun x hx => (index_of_alphabet x (hb x hx)).2)]
  · refine ⟨s.map (fun c => ascii_to_index.getD c.val 0), ?_, ?_⟩
    · rw [string_to_bytes_eq s o3 h3 hs, toInt_length _ hsl]
    · have hl : s.length = (s.map (fun c => ascii_to_index.getD c.val 0)).length :=
        (List.length_map _ _).symm
      have h := bytes_to_string_eq (s.map (fun c => ascii_to_index.getD c.val 0)) o4
        (by rw [List.length_map]; exact h4)
        (fun x hx => by
          obtain ⟨c, hc, rfl⟩ := List.mem_map.mp hx
          exact (alphabet_of_index c (hs c hc)).2.1)
      rw [← hl] at h
      rw [h, toInt_length _ hsl, map_inverse s _ _ (fun c hc => (alphabet_of_index c (hs c hc)).2.2)]

/-- Witness of C26: the indices and the characters of `Hello`. -/
theorem C26_witness :
    (∃ str, bytes_to_string [7, 30, 37, 37, 40] ([7, 30, 37, 37, 40] : List Byte).length
        [0, 0, 0, 0, 0] = some ((([7, 30, 37, 37, 40] : List Byte).length : Int), str) ∧
      string_to_bytes str [0, 0, 0, 0, 0] ([7, 30, 37, 37, 40] : List Byte).length =
        some ((([7, 30, 37, 37, 40] : List Byte).length : Int), [7, 30, 37, 37, 40])) ∧
    (∃ bytes, string_to_bytes [72, 101, 108, 108, 111]
        [0, 0, 0, 0, 0] ([72, 101, 108, 108, 111] : List Byte).length =
          some ((([72, 101, 108, 108, 111] : List Byte).length : Int), bytes) ∧
      bytes_to_string bytes ([72, 101, 108, 108, 111] : List Byte).length [0, 0, 0, 0, 0] =
        some ((([72, 101, 108, 108, 111] : List Byte).length : Int),
          [72, 101, 108, 108, 111])) :=
  C26_conversions_inverse [7, 30, 37, 37, 40] [72, 101, 108, 108, 111] [0, 0, 0, 0, 0]
    [0, 0, 0, 0, 0] [0, 0, 0, 0, 0] [0, 0, 0, 0, 0] (by decide) (by decide) (by decide)
    (by decide) rfl rfl rfl rfl

/-- C30.  `find_inverse` on every odd `e` in 1..63 returns a `d` with
`(e * d) mod 64 = 1` that is itself a valid key (odd, in 1..63, accepted by
`is_valid_key`); on every even `e` (0 included, over the whole range of
`uint8_t`) it returns 0; and `get_valid_keys`, called as the source calls it
(a 64-entry array, `max_keys = 64`), returns 32 and has stored the 32 odd
numbers 1, 3, ..., 63 in increasing order at the start of the array. -/
theorem C30_find_inverse_and_valid_keys :
    (∀ e : Byte, 1 ≤ e.val → e.val ≤ 63 → e.val % 2 = 1 →
      (e.val * (find_inverse e).val) % 64 = 1 ∧ (find_inverse e).val % 2 = 1 ∧
      1 ≤ (find_inverse e).val ∧ (find_inverse e).val ≤ 63 ∧
      is_valid_key (find_inverse e) = 1) ∧
    (∀ e : Byte, e.val % 2 = 0 → find_inverse e = 0) ∧
    get_valid_keys (List.replicate 64 0) 64 =
      some (32, [1, 3, 5, 7, 9, 11, 13, 15, 17, 19, 21, 23, 25, 27, 29, 31, 33, 35, 37, 39,
                 41, 43, 45, 47, 49, 51, 53, 55, 57, 59, 61, 63] ++ List.replicate 32 0) := by
  refine ⟨by decide, by decide, by decide⟩

/-- Witness of C30: the key 7 of the example in the source (inverse 55) and
the even number 8. -/
theorem C30_witness :
    ((7 * (find_inverse 7).val) % 64 = 1 ∧ (find_inverse 7).val % 2 = 1 ∧
      1 ≤ (find_inverse 7).val ∧ (find_inverse 7).val ≤ 63 ∧
      is_valid_key (find_inverse 7) = 1) ∧
    find_inverse 8 = 0 :=
  ⟨C30_find_inverse_and_valid_keys.1 7 (by decide) (by decide) (by decide),
   C30_find_inverse_and_valid_keys.2.1 8 (by decide)⟩

end CryptoLib
